import Mathlib

/-!
# Process supervisor (`internal/process`)

A shallow embedding of `internal/process/manager.go`, `types.go`,
`signal_unix.go` and the termination code of `signal_windows.go`, and of
`internal/logging/stream.go` and `rolling.go`, followed
by theorems about the supervisor's registry operations, its restart policy, its
control loop and their interleavings, about the recent-history buffer and about
the rotating log store.

Modelling conventions

* Go `string`-based types (`Status`, `RestartPolicy`) are `String`, with the
  package constants as named values.
* Go `int` is `Int`.  The only arithmetic of the supervisor is
  `item.restarts++`, executed at most once per two-second cooldown, so the
  machine range is never left.
* `m.entries` is a map from ids to *pointers*.  The embedding keeps the
  pointers: `State.entries` is the finite map from ids to addresses (a list of
  pairs read with `mapGet`, written with `mapSet` and `mapDelete`) and
  `State.objs` holds the `entry` object stored at each address; `exec.Cmd`
  objects live at addresses of `State.cmds` in the same way.  A control loop
  keeps using the address it looked up (`item`), exactly as the Go code keeps
  using its pointer.
* A method that locks `m.mu` for its whole body is one function on `State`.
  The control loop `run` is cut at its blocking calls into its locked sections
  (`runTop`, `recordError`, `runCheckStopped`, `shouldRestart`, `waitForRetry`)
  and `cmdStart`; `runBody` composes them in source order into one pass through
  the body of the `for` loop, and `run` iterates it, for a loop that no other
  caller interferes with.
* What the operating system answers (`cmd.Start`, `cmd.Wait`, the pipes, the
  signal system calls, the timers of `Stop`, `os.Environ`, and for the rotating
  store the clock and the file system calls) is an explicit argument.  What the
  code asks of it is recorded in the history fields `loops`, `readers`,
  `starts` and `signals` of the state.
* A run-time error of the Go program (an index or a slice bound out of range)
  is a result of its own: `none` for the buffer, `Except.error` for the store.
* A function value (`LogCallback`) is represented by a number naming it.
* Concurrency is a transition system (`World`, `Step`, `exec`): a step is a call
  of the API or the next locked section or blocking call of one control loop,
  built from the same functions as `runBody`; `exec_iteration_eq_runBody`
  relates the two.
-/

namespace process

/-! ## types.go -/

abbrev Status := String

def StatusRunning : Status := "running"
def StatusStopped : Status := "stopped"
def StatusErrored : Status := "errored"
def StatusStarting : Status := "starting"

abbrev RestartPolicy := String

def RestartAlways : RestartPolicy := "always"
def RestartOnFailure : RestartPolicy := "on_failure"
def RestartNever : RestartPolicy := "never"

/-- Go `map[string]string`, as the list of its key/value pairs. -/
abbrev Environment := List (String × String)

structure Definition where
  ID : String
  Name : String
  Command : String
  Args : List String
  WorkingDir : String
  Env : Environment
  AutoStart : Bool
  AutoRestart : Bool
  RestartPolicy : RestartPolicy
  MaxRetries : Int
deriving DecidableEq, Repr, Inhabited

structure Snapshot where
  Definition : Definition
  PID : Int
  Status : Status
  Restarts : Int
  LastError : String
  StartedAt : Option Int
  StoppedAt : Option Int
deriving DecidableEq, Repr, Inhabited

/-! ## manager.go: data -/

/-- Errors returned by the package: the sentinel `ErrNotFound`, or an error
coming from the operating system, kept as its message. -/
inductive Error where
  | ErrNotFound
  | os (msg : String)
deriving DecidableEq, Repr

/-- The part of `exec.Cmd` the manager reads: `Process` is nil (`none`) until
`cmd.Start()` has succeeded and holds the child's pid from then on.  Nothing in
the package ever sets it back to nil. -/
structure Cmd where
  Process : Option Int
deriving DecidableEq, Repr, Inhabited

/-- Go `struct entry`; `cmd` is the address of an `exec.Cmd`, `none` for nil. -/
structure entry where
  definition : Definition
  restarts : Int
  status : Status
  cmd : Option Nat
  lastError : String
  manuallyStopped : Bool
deriving DecidableEq, Repr, Inhabited

inductive Signal where
  | SIGTERM
  | SIGKILL
deriving DecidableEq, Repr

/-- A request made to the operating system by the termination code. -/
inductive SysCall where
  /-- The call `syscall.Kill(pid, sig)`; a negative `pid` addresses a process group. -/
  | kill (pid : Int) (sig : Signal)
  /-- The call `cmd.Process.Signal(sig)`. -/
  | procSignal (pid : Int) (sig : Signal)
  /-- The call `cmd.Process.Kill()`. -/
  | procKill (pid : Int)
  /-- The call `GenerateConsoleCtrlEvent(CTRL_BREAK_EVENT, pid)` (Windows). -/
  | ctrlBreak (pid : Int)
  /-- The command `taskkill /F /T /PID pid` (Windows). -/
  | taskkill (pid : Int)
deriving DecidableEq, Repr

/-- Go `m[id]` on `map[string]*entry`: the address stored under `id`, if any. -/
def mapGet : List (String × Nat) → String → Option Nat
  | [], _ => none
  | (k, v) :: l, id => if k = id then some v else mapGet l id

/-- Go `delete(m, id)`. -/
def mapDelete (l : List (String × Nat)) (id : String) : List (String × Nat) :=
  l.filter (fun kv => kv.1 ≠ id)

/-- Go `m[id] = p`: the binding for `id` is replaced if there is one. -/
def mapSet (l : List (String × Nat)) (id : String) (p : Nat) : List (String × Nat) :=
  (id, p) :: mapDelete l id

/-- A goroutine running `streamOutput(id, stream, reader, callback)`. -/
structure Reader where
  id : String
  stream : String
  callback : Nat
deriving DecidableEq, Repr

/-- The manager together with the objects its pointers refer to.

* `entries`, `objs`: `m.entries`, and the `entry` object at each address;
* `logCallback`: `m.logCallback`, `none` for nil;
* `cmds`: the `exec.Cmd` object at each address;
* `nextObj`, `nextCmd`: the next fresh address of each kind;
* `loops`: the ids for which `go m.run(ctx, id)` was executed, in order;
* `readers`: the goroutines launched by `go m.streamOutput(...)`, in order;
* `starts`: the addresses of the commands on which `cmd.Start()` was called, in order;
* `signals`: the termination requests made to the operating system, in order. -/
structure State where
  entries : List (String × Nat)
  logCallback : Option Nat
  objs : Nat → entry
  cmds : Nat → Cmd
  nextObj : Nat
  nextCmd : Nat
  loops : List String
  readers : List Reader
  starts : List Nat
  signals : List SysCall

/-- Assignment through an `*entry` pointer. -/
def State.setObj (s : State) (p : Nat) (e : entry) : State :=
  { s with objs := Function.update s.objs p e }

/-- Assignment through an `*exec.Cmd` pointer. -/
def State.setCmd (s : State) (c : Nat) (v : Cmd) : State :=
  { s with cmds := Function.update s.cmds c v }

/-- The entry registered under `id`, if any: `m.entries[id]` dereferenced. -/
def State.lookup (s : State) (id : String) : Option entry :=
  (mapGet s.entries id).map s.objs

/-- Allocation invariant of the registry: every address stored in `m.entries`
has been allocated. -/
def State.WF (s : State) : Prop :=
  ∀ id p, mapGet s.entries id = some p → p < s.nextObj

def NewManager : State :=
  { entries := []
    logCallback := none
    objs := fun _ => default
    cmds := fun _ => default
    nextObj := 0
    nextCmd := 0
    loops := []
    readers := []
    starts := []
    signals := [] }

/-- Go `Manager.SetLogCallback`. -/
def SetLogCallback (s : State) (cb : Option Nat) : State :=
  { s with logCallback := cb }

/-- Go `pidOf`, on a command address. -/
def pidOf (s : State) (cmd : Option Nat) : Int :=
  match cmd with
  | none => 0
  | some c =>
    match (s.cmds c).Process with
    | none => 0
    | some pid => pid

/-- The `Snapshot` literal built by `Get` and `List`. -/
def snapshotOf (s : State) (item : entry) : Snapshot :=
  { Definition := item.definition
    PID := pidOf s item.cmd
    Status := item.status
    Restarts := item.restarts
    LastError := item.lastError
    StartedAt := none
    StoppedAt := none }

/-! ## manager.go: restart policy -/

/-- Go `Manager.shouldRestart`: the new state and the returned decision. -/
def shouldRestart (s : State) (id : String) : State × Bool :=
  match mapGet s.entries id with
  | none => (s, false)
  | some p =>
    let item := s.objs p
    let policy :=
      if item.definition.RestartPolicy = "" then RestartOnFailure
      else item.definition.RestartPolicy
    if policy = RestartNever then
      (s.setObj p { item with status := StatusStopped }, false)
    else if policy = RestartOnFailure ∧ item.lastError = "" then
      (s.setObj p { item with status := StatusStopped }, false)
    else
      let item := { item with restarts := item.restarts + 1 }
      if item.definition.MaxRetries > 0 ∧ item.restarts > item.definition.MaxRetries then
        (s.setObj p { item with status := StatusErrored }, false)
      else
        (s.setObj p item, true)

/-- Go `Manager.recordError`, with `msg` the text `err.Error()`. -/
def recordError (s : State) (id : String) (msg : String) : State :=
  match mapGet s.entries id with
  | none => s
  | some p => s.setObj p { s.objs p with lastError := msg, status := StatusErrored }

/-- Go `Manager.waitForRetry`: a lookup followed by a two-second sleep; the
state is not written. -/
def waitForRetry (s : State) (id : String) : State :=
  match mapGet s.entries id with
  | none => s
  | some _ => s

/-! ## manager.go: registry operations -/

/-- Go `Manager.Register`: a fresh `entry` object is allocated and stored under `def.ID`. -/
def Register (s : State) (d : Definition) : State :=
  { s with
    entries := mapSet s.entries d.ID s.nextObj
    objs := Function.update s.objs s.nextObj
      { definition := d
        restarts := 0
        status := StatusStopped
        cmd := none
        lastError := ""
        manuallyStopped := false }
    nextObj := s.nextObj + 1 }

/-- Go `Manager.Get`. -/
def Get (s : State) (id : String) : Except Error Snapshot :=
  match mapGet s.entries id with
  | none => .error .ErrNotFound
  | some p => .ok (snapshotOf s (s.objs p))

/-- Go `Manager.Start` (the context argument is only handed on to the control
loop): the new state, in which a launched loop is appended to `loops`, and the
returned error. -/
def Start (s : State) (id : String) : State × Option Error :=
  match mapGet s.entries id with
  | none => (s, some .ErrNotFound)
  | some p =>
    let item := s.objs p
    if item.status = StatusRunning ∨ item.status = StatusStarting then
      (s, none)
    else
      ({ s.setObj p { item with status := StatusStarting } with loops := s.loops ++ [id] }, none)

/-! ## signal_unix.go -/

/-- What the operating system answers to the termination code at one moment:
the process group of a pid (`none` when `syscall.Getpgid` fails) and, for each
signalling call, the error it returns (`none` for success). -/
structure Sys where
  getpgid : Int → Option Int
  kill : Int → Signal → Option String
  procSignal : Int → Signal → Option String
  procKill : Int → Option String

/-- Append a request to the history of system calls. -/
def State.call (s : State) (c : SysCall) : State :=
  { s with signals := s.signals ++ [c] }

/-- Go `killProcess` (POSIX). -/
def killProcess (os : Sys) (s : State) (cmd : Option Nat) : State × Option Error :=
  match cmd with
  | none => (s, none)
  | some c =>
    match (s.cmds c).Process with
    | none => (s, none)
    | some pid =>
      match os.getpgid pid with
      | some pgid =>
        let s1 := s.call (.kill (-pgid) .SIGTERM)
        match os.kill (-pgid) .SIGTERM with
        | some _ => (s1.call (.kill (-pgid) .SIGKILL), none)
        | none => (s1, none)
      | none =>
        let s1 := s.call (.procSignal pid .SIGTERM)
        match os.procSignal pid .SIGTERM with
        | some _ => (s1.call (.procKill pid), (os.procKill pid).map Error.os)
        | none => (s1, none)

/-- Go `gracefulStop` (POSIX); its return value is always nil and is dropped
by the caller. -/
def gracefulStop (os : Sys) (s : State) (cmd : Option Nat) : State :=
  match cmd with
  | none => s
  | some c =>
    match (s.cmds c).Process with
    | none => s
    | some pid =>
      match os.getpgid pid with
      | some pgid => s.call (.kill (-pgid) .SIGTERM)
      | none => s.call (.procSignal pid .SIGTERM)

/-! ## manager.go: Stop and Unregister -/

/-- What happens around one call of `Stop`:

* `atGraceful`: the system's answers while `gracefulStop` runs;
* `doneFirst`: the outer `select` receives from `done` (`true`) or from the
  five-second `time.After` (`false`);
* `polls`: the results of the calls of `isProcessRunning` made by the polling
  loop before its timer fires (the loop ends earlier at the first `false`);
* `atKill`: the system's answers while `killProcess` runs. -/
structure StopEnv where
  atGraceful : Sys
  doneFirst : Bool
  polls : List Bool
  atKill : Sys

/-- Lines 158-168 of `Stop`, the section under the lock: `none` when the id is
unknown, otherwise the new state and the value of the local `cmd`. -/
def stopLocked (s : State) (id : String) : Option (State × Option Nat) :=
  match mapGet s.entries id with
  | none => none
  | some p =>
    let item := s.objs p
    some (s.setObj p { item with status := StatusStopped, manuallyStopped := true }, item.cmd)

/-- The polling loop of `Stop` (lines 184-195): `true` when some poll finds the
process gone before the timer fires. -/
def pollExited : List Bool → Bool
  | [] => false
  | running :: rest => if !running then true else pollExited rest

/-- Lines 170-200 of `Stop`, after the lock is released.  The goroutine running
`gracefulStop` is taken to issue its system call at once. -/
def stopTerminate (env : StopEnv) (s : State) (cmd : Option Nat) : State × Option Error :=
  match cmd with
  | none => (s, none)
  | some c =>
    match (s.cmds c).Process with
    | none => (s, none)
    | some _ =>
      let s1 := gracefulStop env.atGraceful s cmd
      if env.doneFirst then
        if pollExited env.polls then (s1, none)
        else killProcess env.atKill s1 cmd
      else killProcess env.atKill s1 cmd

/-- Go `Manager.Stop`. -/
def Stop (env : StopEnv) (s : State) (id : String) : State × Option Error :=
  match stopLocked s id with
  | none => (s, some .ErrNotFound)
  | some (s1, cmd) => stopTerminate env s1 cmd

/-! ## signal_windows.go, and Stop on Windows

`Stop` is the same source on both platforms; only the `killProcess` and
`gracefulStop` it calls differ. -/

/-- What Windows answers to the termination code at one moment: whether
`syscall.LoadDLL("kernel32.dll")` and `dll.FindProc("GenerateConsoleCtrlEvent")`
succeed, and the error returned by running `taskkill` and by
`cmd.Process.Kill()` for a pid (`none` for success). -/
structure WinSys where
  loadDLL : Bool
  findProc : Bool
  taskkill : Int → Option String
  procKill : Int → Option String

/-- Go `killProcess` (Windows). -/
def killProcessWindows (os : WinSys) (s : State) (cmd : Option Nat) : State × Option Error :=
  match cmd with
  | none => (s, none)
  | some c =>
    match (s.cmds c).Process with
    | none => (s, none)
    | some pid =>
      let s1 := s.call (.taskkill pid)
      match os.taskkill pid with
      | some _ => (s1.call (.procKill pid), (os.procKill pid).map Error.os)
      | none => (s1, none)

/-- Go `gracefulStop` (Windows); its return value is always nil and is dropped
by the caller. -/
def gracefulStopWindows (os : WinSys) (s : State) (cmd : Option Nat) : State :=
  match cmd with
  | none => s
  | some c =>
    match (s.cmds c).Process with
    | none => s
    | some pid =>
      if os.loadDLL then
        if os.findProc then s.call (.ctrlBreak pid) else s
      else s

/-- What happens around one call of `Stop` on Windows; the fields are those of
`StopEnv`. -/
structure WinStopEnv where
  atGraceful : WinSys
  doneFirst : Bool
  polls : List Bool
  atKill : WinSys

/-- Lines 170-200 of `Stop`, after the lock is released, on Windows. -/
def stopTerminateWindows (env : WinStopEnv) (s : State) (cmd : Option Nat) :
    State × Option Error :=
  match cmd with
  | none => (s, none)
  | some c =>
    match (s.cmds c).Process with
    | none => (s, none)
    | some _ =>
      let s1 := gracefulStopWindows env.atGraceful s cmd
      if env.doneFirst then
        if pollExited env.polls then (s1, none)
        else killProcessWindows env.atKill s1 cmd
      else killProcessWindows env.atKill s1 cmd

/-- Go `Manager.Stop` on Windows. -/
def StopWindows (env : WinStopEnv) (s : State) (id : String) : State × Option Error :=
  match stopLocked s id with
  | none => (s, some .ErrNotFound)
  | some (s1, cmd) => stopTerminateWindows env s1 cmd

/-- Go `Manager.Unregister`. -/
def Unregister (env : StopEnv) (s : State) (id : String) : State × Option Error :=
  match mapGet s.entries id with
  | none => (s, some .ErrNotFound)
  | some p =>
    let item := s.objs p
    let s1 :=
      if item.status = StatusRunning ∨ item.status = StatusStarting then (Stop env s id).1
      else s
    ({ s1 with entries := mapDelete s1.entries id }, none)

/-! ## manager.go: the control loop -/

/-- Go `Manager.streamOutput` on the lines that the scanner reads: the calls
of the callback, each with its arguments `(processID, stream, line)`. -/
def streamOutput (id stream : String) (lines : List String) (callback : Option Nat) :
    List (Nat × String × String × String) :=
  lines.filterMap (fun line => callback.map (fun cb => (cb, id, stream, line)))

/-- Lines 205-231 of `run`, the locked section at the top of an iteration:
`none` when the id is no longer registered (the loop returns), otherwise the
new state with the values of the locals `item`, `cmd` and `logCb`.  The command
object is freshly allocated with a nil `Process`. -/
def runTop (s : State) (id : String) : Option (State × Nat × Nat × Option Nat) :=
  match mapGet s.entries id with
  | none => none
  | some p =>
    let item := s.objs p
    let item := { item with lastError := "" }
    let item := { item with manuallyStopped := false }
    let c := s.nextCmd
    let s1 := { s with cmds := Function.update s.cmds c { Process := none }, nextCmd := c + 1 }
    let item := { item with cmd := some c }
    let item := { item with status := StatusRunning }
    some (s1.setObj p item, p, c, s.logCallback)

/-- The call `cmd.Start()` of line 233 with the system's answer `r`: an error
text, or the pid of the new child, which is stored in `cmd.Process`. -/
def cmdStart (s : State) (c : Nat) (r : Except String Int) : State :=
  let s1 := { s with starts := s.starts ++ [c] }
  match r with
  | .ok pid => s1.setCmd c { Process := some pid }
  | .error _ => s1

/-- Lines 244-246 and 249-251 of `run`: a reader is launched for a stream when
its pipe and the callback are both non-nil. -/
def goStreamOutput (s : State) (id stream : String) (pipe : Bool) (logCb : Option Nat) :
    State :=
  match pipe, logCb with
  | true, some cb =>
    { s with readers := s.readers ++ [{ id := id, stream := stream, callback := cb }] }
  | _, _ => s

/-- Lines 258-265 of `run`: the test of the manual-stop flag through the
pointer `item`; the Boolean tells whether the loop returns here. -/
def runCheckStopped (s : State) (item : Nat) : State × Bool :=
  if (s.objs item).manuallyStopped then
    (s.setObj item { s.objs item with status := StatusStopped }, true)
  else (s, false)

/-- What the system does with one spawn attempt of the loop. -/
inductive Outcome where
  /-- The call `cmd.Start()` returns an error with this text. -/
  | startFails (msg : String)
  /-- The call `cmd.Start()` succeeds with this pid; `stdout` and `stderr` tell
  whether `cmd.StdoutPipe()` and `cmd.StderrPipe()` returned a pipe; `cmd.Wait()`
  later returns nil (`none`) or an error with the given text. -/
  | exits (pid : Int) (stdout stderr : Bool) (err : Option String)
deriving DecidableEq, Repr

/-- The text that `recordError` stores for an outcome, if the run ended in an error. -/
def Outcome.errorText : Outcome → Option String
  | .startFails msg => some msg
  | .exits _ _ _ err => err

/-- One pass through the body of the `for` loop of `run` (lines 205-270) for a
loop that no other caller interferes with, `o` being the outcome of its spawn
attempt: the new state, and whether the loop goes on to another iteration
(`false` when it returns). -/
def runBody (o : Outcome) (s : State) (id : String) : State × Bool :=
  match runTop s id with
  | none => (s, false)
  | some (s1, item, cmd, logCb) =>
    match o with
    | .startFails msg =>
      let s2 := cmdStart s1 cmd (.error msg)
      let s3 := recordError s2 id msg
      let r := shouldRestart s3 id
      if !r.2 then (r.1, false)
      else (waitForRetry r.1 id, true)
    | .exits pid stdout stderr err =>
      let s2 := cmdStart s1 cmd (.ok pid)
      let s2 := goStreamOutput s2 id "stdout" stdout logCb
      let s2 := goStreamOutput s2 id "stderr" stderr logCb
      let s3 :=
        match err with
        | some msg => recordError s2 id msg
        | none => s2
      let c := runCheckStopped s3 item
      if c.2 then (c.1, false)
      else
        let r := shouldRestart c.1 id
        if !r.2 then (r.1, false)
        else (waitForRetry r.1 id, true)

/-- Go `Manager.run` for a loop that no other caller interferes with: the
`for` loop around `runBody`.  `out k` is the outcome of the spawn attempt of
iteration `k`, the first argument after `out` bounds the number of iterations
and the second is the number of the next iteration; `none` means that the bound
was reached before the loop returned. -/
def run (out : Nat → Outcome) : Nat → Nat → State → String → Option State
  | 0, _, _, _ => none
  | fuel + 1, k, s, id =>
    match runBody (out k) s id with
    | (s1, false) => some s1
    | (s1, true) => run out fuel (k + 1) s1 id

/-! ## manager.go: List and StopAll -/

/-- Go `Manager.List`.  The order in which Go ranges over the map is not
specified; here it is the order of the list of bindings. -/
def Manager.List (s : State) : List Snapshot :=
  s.entries.map (fun kv => snapshotOf s (s.objs kv.2))

/-- The test `item.status == StatusRunning || item.status == StatusStarting`. -/
def isActive (st : Status) : Prop :=
  st = StatusRunning ∨ st = StatusStarting

instance (st : Status) : Decidable (isActive st) := by
  unfold isActive
  infer_instance

/-- The ids collected by `StopAll` under the read lock (lines 123-130). -/
def activeIds (s : State) : List String :=
  (s.entries.filter (fun kv => isActive (s.objs kv.2).status)).map Prod.fst

/-- Go `Manager.StopAll`: the ids of the running and starting entries are
collected, then `Stop` is called for each of them in turn; `env id` is what
happens around the call for `id`. -/
def StopAll (env : String → StopEnv) (s : State) : State :=
  (activeIds s).foldl (fun st id => (Stop (env id) st id).1) s

/-- Representation invariant of the registry: the bindings of `m.entries` have
distinct ids and distinct addresses, every address is allocated, and an entry
is stored under the id of its definition. -/
def State.Inv (s : State) : Prop :=
  (s.entries.map Prod.fst).Nodup ∧ (s.entries.map Prod.snd).Nodup ∧
  (∀ kv ∈ s.entries, kv.2 < s.nextObj) ∧
  ∀ kv ∈ s.entries, (s.objs kv.2).definition.ID = kv.1

/-- The state `t` has the registry map, the allocation counter and the
definitions of the entry objects of `s`: what the invariant depends on. -/
def State.keeps (s t : State) : Prop :=
  t.entries = s.entries ∧ t.nextObj = s.nextObj ∧
  ∀ q, (t.objs q).definition = (s.objs q).definition

/-! ## The supervisor as a transition system

Callers and control loops run concurrently; every locked section and every
blocking call of a loop is one step, and steps of different goroutines
interleave in any order. -/

/-- Program points of a `run` goroutine, with the locals that are live there.

* `top`: line 205, before the locked section at the top of an iteration;
* `spawn`: line 233, before `cmd.Start()`;
* `startErr`: line 235, `cmd.Start()` has failed, before `recordError`;
* `running`: line 253, the child runs and `cmd.Wait()` blocks;
* `exited`: lines 254-256, `cmd.Wait()` has returned, before `recordError`;
* `check`: line 258, before the test of the manual-stop flag;
* `policy`: lines 236 and 267, before `shouldRestart`;
* `cooldown`: lines 239 and 270, before `waitForRetry`;
* `done`: the goroutine has returned. -/
inductive Pc where
  | top
  | spawn (item cmd : Nat) (logCb : Option Nat)
  | startErr (msg : String)
  | running (item cmd : Nat)
  | exited (item : Nat) (err : Option String)
  | check (item : Nat)
  | policy
  | cooldown
  | done
deriving DecidableEq, Repr

/-- The loop is blocked in `cmd.Wait()`: its child has been spawned and has not
been waited for. -/
def Pc.isRunning : Pc → Bool
  | .running _ _ => true
  | _ => false

/-- The state of the supervisor and of its control loops: loop `i` is the
goroutine launched for the id `st.loops[i]`, and `pc i` is its program point. -/
structure World where
  st : State
  pc : Nat → Pc

/-- A new manager; every loop launched later begins at `top`. -/
def World.init : World :=
  { st := NewManager, pc := fun _ => .top }

/-- Move loop `i` to a program point, in a new state. -/
def World.goto (w : World) (i : Nat) (s : State) (pc : Pc) : World :=
  { st := s, pc := Function.update w.pc i pc }

/-- One step of the system: a call of the API by some caller, taken as a whole,
or the next step of one control loop, with the answer of the operating system
where the loop makes a blocking call. -/
inductive Step where
  | register (d : Definition)
  | start (id : String)
  | stop (env : StopEnv) (id : String)
  | stopAll (env : String → StopEnv)
  | unregister (env : StopEnv) (id : String)
  /-- Loop `i` runs its next locked section. -/
  | loop (i : Nat)
  /-- Loop `i` calls `cmd.Start()` and gets the answer `r`; `stdout` and `stderr`
  tell whether the pipes were created. -/
  | cmdStart (i : Nat) (r : Except String Int) (stdout stderr : Bool)
  /-- The child of loop `i` exits and `cmd.Wait()` returns `err`. -/
  | cmdWait (i : Nat) (err : Option String)
  | setLogCallback (cb : Option Nat)

/-- The next locked section of loop `i`, running for `id`. -/
def loopStep (w : World) (i : Nat) (id : String) : Option World :=
  match w.pc i with
  | .top =>
    match runTop w.st id with
    | none => some (w.goto i w.st .done)
    | some (s1, item, cmd, logCb) => some (w.goto i s1 (.spawn item cmd logCb))
  | .startErr msg => some (w.goto i (recordError w.st id msg) .policy)
  | .exited item err =>
    match err with
    | some msg => some (w.goto i (recordError w.st id msg) (.check item))
    | none => some (w.goto i w.st (.check item))
  | .check item =>
    let c := runCheckStopped w.st item
    if c.2 then some (w.goto i c.1 .done) else some (w.goto i c.1 .policy)
  | .policy =>
    let r := shouldRestart w.st id
    if !r.2 then some (w.goto i r.1 .done) else some (w.goto i r.1 .cooldown)
  | .cooldown => some (w.goto i (waitForRetry w.st id) .top)
  | .spawn _ _ _ => none
  | .running _ _ => none
  | .done => none

/-- The effect of a step; `none` when the step is not enabled (no such loop,
or the loop is not at the program point of the step). -/
def exec (w : World) : Step → Option World
  | .register d => some { w with st := Register w.st d }
  | .start id => some { w with st := (Start w.st id).1 }
  | .stop env id => some { w with st := (Stop env w.st id).1 }
  | .stopAll env => some { w with st := StopAll env w.st }
  | .unregister env id => some { w with st := (Unregister env w.st id).1 }
  | .loop i =>
    match w.st.loops[i]? with
    | none => none
    | some id => loopStep w i id
  | .cmdStart i r stdout stderr =>
    match w.st.loops[i]?, w.pc i with
    | some id, .spawn item cmd logCb =>
      match r with
      | .error msg => some (w.goto i (cmdStart w.st cmd (.error msg)) (.startErr msg))
      | .ok pid =>
        let s2 := cmdStart w.st cmd (.ok pid)
        let s2 := goStreamOutput s2 id "stdout" stdout logCb
        let s2 := goStreamOutput s2 id "stderr" stderr logCb
        some (w.goto i s2 (.running item cmd))
    | _, _ => none
  | .cmdWait i err =>
    match w.st.loops[i]?, w.pc i with
    | some _, .running item _ => some (w.goto i w.st (.exited item err))
    | _, _ => none
  | .setLogCallback cb => some { w with st := SetLogCallback w.st cb }

/-- A run of the system: the steps are executed in order. -/
def execAll (w : World) : List Step → Option World
  | [] => some w
  | a :: rest =>
    match exec w a with
    | none => none
    | some w1 => execAll w1 rest

/-- The loops of `id` that have not returned. -/
def World.activeLoops (w : World) (id : String) : List Nat :=
  (List.range w.st.loops.length).filter
    (fun i => w.st.loops[i]? = some id ∧ w.pc i ≠ .done)

/-- The loops of `id` whose child has been spawned and has not been waited for. -/
def World.liveChildren (w : World) (id : String) : List Nat :=
  (List.range w.st.loops.length).filter
    (fun i => w.st.loops[i]? = some id ∧ (w.pc i).isRunning = true)

/-! ## Concrete inputs used below -/

/-- A definition with policy `always` and a negative retry cap. -/
def negativeCapDef : Definition :=
  { ID := "svc", Name := "svc", Command := "/bin/false", Args := [], WorkingDir := "",
    Env := [], AutoStart := false, AutoRestart := false,
    RestartPolicy := RestartAlways, MaxRetries := -1 }

/-- A definition with policy `never`. -/
def neverDef : Definition :=
  { ID := "svc", Name := "svc", Command := "/bin/false", Args := [], WorkingDir := "",
    Env := [], AutoStart := false, AutoRestart := false,
    RestartPolicy := RestartNever, MaxRetries := 0 }

/-- A definition with policy `always` and a retry cap of 2. -/
def alwaysDef : Definition :=
  { ID := "svc", Name := "svc", Command := "/bin/false", Args := [], WorkingDir := "",
    Env := [], AutoStart := false, AutoRestart := false,
    RestartPolicy := RestartAlways, MaxRetries := 2 }

/-- The scenario definition of the specification: policy `on_failure`, `maxRetries` 1. -/
def crashDef : Definition :=
  { ID := "crash", Name := "crash", Command := "/bin/false", Args := [], WorkingDir := "",
    Env := [], AutoStart := false, AutoRestart := false,
    RestartPolicy := RestartOnFailure, MaxRetries := 1 }

/-- A child that is spawned with pid 4242 and exits with code 1 on every run. -/
def alwaysCrashing : Nat → Outcome :=
  fun _ => .exits 4242 true true (some "exit status 1")

/-- A child that exits with code 1 on its first run and with code 0 afterwards. -/
def crashThenClean : Nat → Outcome :=
  fun k =>
    if k = 0 then .exits 4242 true true (some "exit status 1")
    else .exits 4243 true true none

/-- An operating system on which every call succeeds and the child is gone at
the second poll. -/
def calmEnv : StopEnv :=
  { atGraceful :=
      { getpgid := fun pid => some pid, kill := fun _ _ => none,
        procSignal := fun _ _ => none, procKill := fun _ => none }
    doneFirst := true
    polls := [true, false]
    atKill :=
      { getpgid := fun pid => some pid, kill := fun _ _ => none,
        procSignal := fun _ _ => none, procKill := fun _ => none } }

/-- A manager whose entry `svc` (policy `always`, cap 2) was registered and
started, crashed twice, and was then stopped by hand during the second
cooldown: its restart counter is 2 and its manual-stop flag is set. -/
def stoppedAfterTwo : State :=
  (Stop calmEnv
    (runBody (alwaysCrashing 1)
      (runBody (alwaysCrashing 0) (Start (Register NewManager alwaysDef) "svc").1 "svc").1
      "svc").1
    "svc").1

/-- The child was already reaped when `Stop` is called: `Getpgid` fails, the
signal calls report that the process has finished, and the first poll finds no
process. -/
def goneEnv : StopEnv :=
  { atGraceful :=
      { getpgid := fun _ => none, kill := fun _ _ => some "no such process",
        procSignal := fun _ _ => some "os: process already finished",
        procKill := fun _ => some "os: process already finished" }
    doneFirst := true
    polls := [false]
    atKill :=
      { getpgid := fun _ => none, kill := fun _ _ => some "no such process",
        procSignal := fun _ _ => some "os: process already finished",
        procKill := fun _ => some "os: process already finished" } }

/-- A child that ignores SIGTERM: every signal is delivered without error and
each of the fifty polls of the grace window finds the process running. -/
def stubbornEnv : StopEnv :=
  { atGraceful :=
      { getpgid := fun pid => some pid, kill := fun _ _ => none,
        procSignal := fun _ _ => none, procKill := fun _ => none }
    doneFirst := true
    polls := List.replicate 50 true
    atKill :=
      { getpgid := fun pid => some pid, kill := fun _ _ => none,
        procSignal := fun _ _ => none, procKill := fun _ => none } }

/-- A child that runs through the whole grace window and is reaped just as the
timer fires: the polls find it running, and in `killProcess` the calls
`Getpgid`, `Process.Signal` and `Process.Kill` all fail. -/
def lateExitEnv : StopEnv :=
  { atGraceful :=
      { getpgid := fun pid => some pid, kill := fun _ _ => none,
        procSignal := fun _ _ => none, procKill := fun _ => none }
    doneFirst := true
    polls := List.replicate 50 true
    atKill :=
      { getpgid := fun _ => none, kill := fun _ _ => some "no such process",
        procSignal := fun _ _ => some "os: process already finished",
        procKill := fun _ => some "os: process already finished" } }

/-- The Windows counterpart of `lateExitEnv`: the child runs through the whole
grace window and is gone when `taskkill` runs, so that `taskkill` and
`Process.Kill` both fail. -/
def lateExitWinEnv : WinStopEnv :=
  { atGraceful :=
      { loadDLL := true, findProc := true, taskkill := fun _ => none,
        procKill := fun _ => none }
    doneFirst := true
    polls := List.replicate 50 true
    atKill :=
      { loadDLL := true, findProc := true, taskkill := fun _ => some "exit status 128",
        procKill := fun _ => some "os: process already finished" } }

/-- The steps that take a new manager to a running child of `svc` with pid 4242:
registration of `d`, `Start`, the top of the first iteration, and the spawn. -/
def upAndRunning (d : Definition) : List Step :=
  [.register d, .start "svc", .loop 0, .cmdStart 0 (.ok 4242) true true]

/-- The steps that take a new manager to the first restart cooldown of `svc`:
the child runs, exits with code 1, and the loop records the error, finds the
manual-stop flag unset and decides to restart. -/
def upAndCrashed (d : Definition) : List Step :=
  upAndRunning d ++ [.cmdWait 0 (some "exit status 1"), .loop 0, .loop 0, .loop 0]

/-- The supervisor with one entry `svc` of policy `never` that has been started
and whose loop has not run yet. -/
def svcStarting : World :=
  (execAll World.init [.register neverDef, .start "svc"]).getD World.init

/-- The supervisor with one entry `svc` of policy `never` whose child runs
with pid 4242 and whose loop waits for it. -/
def svcRunning : World :=
  (execAll World.init (upAndRunning neverDef)).getD World.init

/-- A manager with two entries: `svc`, which has been started, and `crash`,
which has not. -/
def twoEntries : State :=
  (Start (Register (Register NewManager neverDef) crashDef) "svc").1

/-! ## manager.go: the environment of the child -/

/-- Go `envFromMap`.  The order in which Go ranges over the map is not
specified; here it is the order of the list of pairs. -/
def envFromMap (extra : Environment) : List String :=
  extra.map (fun kv => kv.1 ++ "=" ++ kv.2)

/-- Lines 218-219 of `run`: the value of `cmd.Env`, which is nil after
`exec.CommandContext`, after the two `append` calls; `environ` is what
`os.Environ()` returns. -/
def commandEnv (environ : List String) (d : Definition) : List String :=
  (([] : List String) ++ environ) ++ envFromMap d.Env

/-- The variable named by an environment item `name=value`: the text before
the first `=`. -/
def itemKey (item : String) : String :=
  String.mk (item.toList.takeWhile (fun c => c ≠ '='))

/-- The value carried by an environment item `name=value`: the text after the
first `=`. -/
def itemValue (item : String) : String :=
  String.mk ((item.toList.dropWhile (fun c => c ≠ '=')).drop 1)

/-- The value of the variable `key` in the environment list `env`: the value
of the last item for `key`, if there is one.  A later item replaces an earlier
one of the same name, which is how `os/exec` hands the list to the child. -/
def lookupEnv (env : List String) (key : String) : Option String :=
  (env.reverse.find? (fun item => itemKey item = key)).map itemValue

/-! ## Auxiliary definitions for the statements -/

/-- The state `s` in which the definition of the entry registered under `id`,
if there is one, has the restart policy `policy`. -/
def withPolicy (s : State) (id : String) (policy : RestartPolicy) : State :=
  match mapGet s.entries id with
  | none => s
  | some p =>
    s.setObj p
      { s.objs p with definition := { (s.objs p).definition with RestartPolicy := policy } }

/-- The calls of the callback that the reader goroutine `r` makes for the lines
it reads: `streamOutput` with the arguments the goroutine was launched with. -/
def Reader.calls (r : Reader) (lines : List String) : List (Nat × String × String × String) :=
  streamOutput r.id r.stream lines (some r.callback)

/-- A definition with two environment overrides. -/
def envDef : Definition :=
  { ID := "svc", Name := "svc", Command := "/usr/bin/env", Args := [], WorkingDir := "",
    Env := [("PATH", "/opt/bin"), ("MODE", "prod")], AutoStart := false, AutoRestart := false,
    RestartPolicy := RestartNever, MaxRetries := 0 }

/-- A definition whose one environment override has a key that contains `=`. -/
def oddKeyDef : Definition :=
  { ID := "svc", Name := "svc", Command := "/usr/bin/env", Args := [], WorkingDir := "",
    Env := [("A=B", "c")], AutoStart := false, AutoRestart := false,
    RestartPolicy := RestartNever, MaxRetries := 0 }

/-- An ambient environment of three variables. -/
def ambient : List String :=
  ["HOME=/root", "PATH=/usr/bin", "LANG=C"]

end process

/-! # Log fan-out (`internal/logging`) -/

namespace logging

/-! ## rolling.go: Entry, and stream.go -/

/-- Go `struct Entry`; the timestamp is kept as a number. -/
structure Entry where
  Timestamp : Int
  Stream : String
  Line : String
deriving DecidableEq, Repr

/-- Go `struct StreamHub`, without its lock. -/
structure StreamHub where
  entries : List Entry
  limit : Int
deriving DecidableEq, Repr

/-- Go `NewStreamHub`; `make([]Entry, 0, limit)` panics for a negative limit
(`none`). -/
def NewStreamHub (limit : Int) : Option StreamHub :=
  if limit < 0 then none
  else some { entries := [], limit := limit }

/-- Go `StreamHub.Push`; the slice expression `h.entries[len(h.entries)-h.limit:]`
panics (`none`) when its low bound is outside `0 .. len(h.entries)`. -/
def StreamHub.Push (h : StreamHub) (entry : Entry) : Option StreamHub :=
  let entries := h.entries ++ [entry]
  if (entries.length : Int) > h.limit then
    let lo : Int := (entries.length : Int) - h.limit
    if 0 ≤ lo ∧ lo ≤ (entries.length : Int) then
      some { h with entries := entries.drop lo.toNat }
    else none
  else some { h with entries := entries }

/-- Go `StreamHub.Snapshot`: a copy of the buffer. -/
def StreamHub.Snapshot (h : StreamHub) : List Entry :=
  h.entries

/-- A sequence of `Push` calls, in order. -/
def pushAll (h : StreamHub) : List Entry → Option StreamHub
  | [] => some h
  | e :: es =>
    match h.Push e with
    | none => none
    | some h1 => pushAll h1 es

/-- Three log lines. -/
def threeLines : List Entry :=
  [{ Timestamp := 1, Stream := "stdout", Line := "a" },
   { Timestamp := 2, Stream := "stderr", Line := "b" },
   { Timestamp := 3, Stream := "stdout", Line := "c" }]

/-! ## rolling.go: the rotating store

The log directory `r.dir` is a list of files.  File names are kept relative to
that directory: the field `filename` holds the base name of the path that the Go
code builds with `filepath.Join(r.dir, ...)`, which is empty exactly when that
path is.  What the operating system answers during a call is the argument `os`. -/

/-- An entry of the log directory: its name, its modification time and the
lines written to it (each without its final newline). -/
structure File where
  name : String
  mod : Int
  lines : List String
deriving DecidableEq, Repr

/-- The content of the log directory. -/
abbrev Dir := List File

/-- Go `struct RollingStore`, without its lock. -/
structure RollingStore where
  dir : String
  maxLines : Int
  maxFiles : Int
  filename : String
  lineCount : Int
deriving DecidableEq, Repr

/-- Go `NewRollingStore`. -/
def NewRollingStore (dir : String) (maxLines maxFiles : Int) : RollingStore :=
  { dir := dir, maxLines := maxLines, maxFiles := maxFiles, filename := "", lineCount := 0 }

/-- What the operating system answers during one call of `Append`:

* `mkdirAll`, `openFile`, `write`, `readDir`: the error returned by `os.MkdirAll`,
  by `os.OpenFile`, by writing and flushing the line, and by `os.ReadDir`
  (`none` for success);
* `stamp`: the text `time.Now().Format("20060102_150405")`, the wall-clock time
  to the second;
* `mtime`: the modification time that the file receives when it is created or
  written;
* `infoFails`, `removeFails`: whether `entry.Info()` and `os.Remove` fail for
  the file of a given name. -/
structure Os where
  mkdirAll : Option String
  stamp : String
  openFile : Option String
  write : Option String
  mtime : Int
  readDir : Option String
  infoFails : String → Bool
  removeFails : String → Bool

/-- The local type `fileInfo` of `cleanup`. -/
structure fileInfo where
  name : String
  mod : Int
deriving DecidableEq, Repr

/-- The literal `fileInfo{name: entry.Name(), mod: info.ModTime()}` of line 95. -/
def stat (f : File) : fileInfo :=
  { name := f.name, mod := f.mod }

/-- The call `os.ReadDir(r.dir)`, which returns the entries sorted by file name. -/
def readDir (fs : Dir) : List File :=
  fs.insertionSort (fun a b => a.name.toList ≤ b.name.toList)

/-- The value of `files[i].mod`; every use in `oldestIndex` has `i` in range. -/
def modAt (files : List fileInfo) (i : Nat) : Int :=
  match files[i]? with
  | some f => f.mod
  | none => 0

/-- Lines 99-104 of `cleanup`: the scan `for i := 1; i < len(files); i++` that
leaves in `oldest` the first index of a file with the least modification time;
`0` when the list is empty. -/
def oldestIndex (files : List fileInfo) : Nat :=
  (List.range' 1 (files.length - 1)).foldl
    (fun oldest i => if modAt files i < modAt files oldest then i else oldest) 0

/-- Lines 98-107 of `cleanup`, the loop `for len(files) > r.maxFiles`.  The
second list collects the files handed to `os.Remove`, in order.  The result is
`none` when the bound on the number of iterations (first argument after
`maxFiles`) is reached, `error` when the index expression `files[oldest]`
is out of range, which makes the Go program stop with a run-time error, and
otherwise the removed files with the value of `files` after the loop. -/
def pruneLoop (maxFiles : Int) :
    Nat → List fileInfo → List fileInfo → Option (Except String (List fileInfo × List fileInfo))
  | 0, _, _ => none
  | fuel + 1, files, removed =>
    if (files.length : Int) > maxFiles then
      let oldest := oldestIndex files
      match files[oldest]? with
      | none => some (.error "index out of range [0] with length 0")
      | some f => pruneLoop maxFiles fuel (files.eraseIdx oldest) (removed ++ [f])
    else some (.ok (removed, files))

/-- Lines 89-96 of `cleanup`: the entries whose `Info()` call succeeds, in the
order of `os.ReadDir`. -/
def listing (fs : Dir) (os : Os) : List fileInfo :=
  (readDir fs).filterMap (fun f => if os.infoFails f.name then none else some (stat f))

/-- Go `RollingStore.cleanup`: `error` for a run-time error, otherwise the new
directory and the returned error.  Every iteration of the loop removes one
element of `files`, so `len(files) + 1` bounds the number of iterations
(`pruneLoop_fuel`). -/
def RollingStore.cleanup (r : RollingStore) (fs : Dir) (os : Os) :
    Except String (Dir × Option String) :=
  match os.readDir with
  | some err => .ok (fs, some err)
  | none =>
    let entries := readDir fs
    if (entries.length : Int) ≤ r.maxFiles then .ok (fs, none)
    else
      let files := listing fs os
      match pruneLoop r.maxFiles (files.length + 1) files [] with
      | none => .error "iteration bound reached"
      | some (.error p) => .error p
      | some (.ok (removed, _)) =>
        .ok (fs.filter (fun f => f.name ∉ removed.map fileInfo.name ∨ os.removeFails f.name),
          none)

/-- Go `RollingStore.rotate`; the error returned by `cleanup` is dropped. -/
def RollingStore.rotate (r : RollingStore) (fs : Dir) (os : Os) :
    Except String (RollingStore × Dir) :=
  if r.filename = "" then .ok (r, fs)
  else
    let r1 := { r with filename := "" }
    let r1 := { r1 with lineCount := 0 }
    match r1.cleanup fs os with
    | .error p => .error p
    | .ok (fs1, _) => .ok (r1, fs1)

/-- The text written for an entry at line 52, without the final newline; the
timestamp is printed as its number. -/
def formatLine (entry : Entry) : String :=
  toString entry.Timestamp ++ " " ++ entry.Stream ++ " " ++ entry.Line

/-- The call `os.OpenFile(name, O_CREATE|O_WRONLY|O_APPEND)` when it succeeds: the
file is created empty unless it exists. -/
def openFile (fs : Dir) (name : String) (mtime : Int) : Dir :=
  if fs.any (fun f => f.name = name) then fs
  else fs ++ [{ name := name, mod := mtime, lines := [] }]

/-- A successful write of one line at the end of the file `name`. -/
def writeLine (fs : Dir) (name : String) (mtime : Int) (line : String) : Dir :=
  fs.map (fun f =>
    if f.name = name then { f with mod := mtime, lines := f.lines ++ [line] } else f)

/-- Go `RollingStore.Append`: `error` for a run-time error, otherwise the new
store, the new directory and the returned error. -/
def RollingStore.Append (r : RollingStore) (fs : Dir) (os : Os) (entry : Entry) :
    Except String (RollingStore × Dir × Option String) :=
  let named : Except String RollingStore :=
    if r.filename = "" then
      match os.mkdirAll with
      | some err => .error err
      | none => .ok { r with filename := os.stamp ++ ".log" }
    else .ok r
  match named with
  | .error err => .ok (r, fs, some err)
  | .ok r1 =>
    match os.openFile with
    | some err => .ok (r1, fs, some err)
    | none =>
      let fs1 := openFile fs r1.filename os.mtime
      match os.write with
      | some err => .ok (r1, fs1, some err)
      | none =>
        let fs2 := writeLine fs1 r1.filename os.mtime (formatLine entry)
        let r2 := { r1 with lineCount := r1.lineCount + 1 }
        if r2.lineCount ≥ r2.maxLines then
          match r2.rotate fs2 os with
          | .error p => .error p
          | .ok (r3, fs3) => .ok (r3, fs3, none)
        else .ok (r2, fs2, none)

/-- A sequence of `Append` calls, each with the answers of the operating system
at its time: the final store and directory and the error returned by each call. -/
def appendAll (r : RollingStore) (fs : Dir) :
    List (Os × Entry) → Except String (RollingStore × Dir × List (Option String))
  | [] => .ok (r, fs, [])
  | (os, e) :: rest =>
    match r.Append fs os e with
    | .error p => .error p
    | .ok (r1, fs1, err) =>
      match appendAll r1 fs1 rest with
      | .error p => .error p
      | .ok (r2, fs2, errs) => .ok (r2, fs2, err :: errs)

/-- An operating system on which every call succeeds, at the wall-clock time
`stamp`, giving files the modification time `mtime`. -/
def quietOs (stamp : String) (mtime : Int) : Os :=
  { mkdirAll := none, stamp := stamp, openFile := none, write := none, mtime := mtime,
    readDir := none, infoFails := fun _ => false, removeFails := fun _ => false }

/-- A log line with the given timestamp. -/
def logLine (n : Int) : Entry :=
  { Timestamp := n, Stream := "stdout", Line := "x" }

/-- A directory of three files; the two oldest have the same modification time. -/
def threeFiles : Dir :=
  [{ name := "20261104_120005.log", mod := 105, lines := ["5 stdout x"] },
   { name := "20261104_120000.log", mod := 100, lines := ["1 stdout x"] },
   { name := "20261104_110000.log", mod := 100, lines := ["0 stdout x"] }]

end logging

namespace process

/-! ## Lemmas on the finite map and on field access -/

theorem mapGet_mapDelete (l : List (String × Nat)) (id k : String) :
    mapGet (mapDelete l id) k = if k = id then none else mapGet l k := by
  induction l with
  | nil => simp [mapDelete, mapGet]
  | cons kv l ih =>
    obtain ⟨a, v⟩ := kv
    unfold mapDelete at ih ⊢
    by_cases ha : a = id
    · subst ha
      by_cases hk : k = a
      · subst hk
        simpa [List.filter_cons] using ih
      · have hk2 : ¬ a = k := fun h => hk h.symm
        simpa [List.filter_cons, mapGet, hk, hk2] using ih
    · by_cases hk : k = id
      · subst hk
        simpa [List.filter_cons, ha, mapGet] using ih
      · simp only [List.filter_cons, ha, mapGet, hk, if_false, ne_eq, not_false_eq_true,
          decide_True, if_true] at ih ⊢
        rw [ih]

theorem mapGet_mapSet (l : List (String × Nat)) (id k : String) (p : Nat) :
    mapGet (mapSet l id p) k = if k = id then some p else mapGet l k := by
  unfold mapSet
  by_cases hk : k = id
  · subst hk
    simp [mapGet]
  · have hk2 : ¬ id = k := fun h => hk h.symm
    simp [mapGet, hk, hk2, mapGet_mapDelete]

theorem Get_of_mapGet (s : State) (id : String) (p : Nat)
    (hp : mapGet s.entries id = some p) :
    Get s id = .ok (snapshotOf s (s.objs p)) := by
  simp [Get, hp]

@[simp] theorem setObj_entries (s : State) (p : Nat) (e : entry) :
    (s.setObj p e).entries = s.entries := rfl

@[simp] theorem setObj_objs_same (s : State) (p : Nat) (e : entry) :
    (s.setObj p e).objs p = e := by
  simp [State.setObj]

theorem setObj_objs_other (s : State) (p q : Nat) (e : entry) (h : q ≠ p) :
    (s.setObj p e).objs q = s.objs q := by
  simp [State.setObj, Function.update_noteq h]

@[simp] theorem setObj_cmds (s : State) (p : Nat) (e : entry) :
    (s.setObj p e).cmds = s.cmds := rfl

@[simp] theorem setObj_loops (s : State) (p : Nat) (e : entry) :
    (s.setObj p e).loops = s.loops := rfl

@[simp] theorem setObj_starts (s : State) (p : Nat) (e : entry) :
    (s.setObj p e).starts = s.starts := rfl

@[simp] theorem setObj_signals (s : State) (p : Nat) (e : entry) :
    (s.setObj p e).signals = s.signals := rfl

/-! ## Lemmas on the control loop -/

theorem shouldRestart_stops (s : State) (id : String) (p : Nat)
    (hp : mapGet s.entries id = some p)
    (h : (s.objs p).definition.RestartPolicy = RestartNever ∨
      (((s.objs p).definition.RestartPolicy = RestartOnFailure ∨
        (s.objs p).definition.RestartPolicy = "") ∧ (s.objs p).lastError = "")) :
    shouldRestart s id = (s.setObj p { s.objs p with status := StatusStopped }, false) := by
  unfold shouldRestart
  rw [hp]
  rcases h with h | ⟨h | h, he⟩
  · simp [h, RestartNever, RestartOnFailure]
  · simp [h, he, RestartNever, RestartOnFailure]
  · simp [h, he, RestartNever, RestartOnFailure]

theorem shouldRestart_permitted (s : State) (id : String) (p : Nat)
    (hp : mapGet s.entries id = some p)
    (h : (s.objs p).definition.RestartPolicy = RestartAlways ∨
      ((s.objs p).definition.RestartPolicy = RestartOnFailure ∧ (s.objs p).lastError ≠ "")) :
    shouldRestart s id =
      if (s.objs p).definition.MaxRetries > 0 ∧
          (s.objs p).restarts + 1 > (s.objs p).definition.MaxRetries then
        (s.setObj p { s.objs p with restarts := (s.objs p).restarts + 1,
                                    status := StatusErrored }, false)
      else
        (s.setObj p { s.objs p with restarts := (s.objs p).restarts + 1 }, true) := by
  unfold shouldRestart
  rw [hp]
  rcases h with h | ⟨h, he⟩
  · simp [h, RestartAlways, RestartNever, RestartOnFailure]
  · simp [h, he, RestartNever, RestartOnFailure]

/-- The call `shouldRestart` writes entry objects only. -/
theorem shouldRestart_frame (s : State) (id : String) :
    (shouldRestart s id).1.entries = s.entries ∧
    (shouldRestart s id).1.nextObj = s.nextObj ∧
    (shouldRestart s id).1.loops = s.loops ∧
    (shouldRestart s id).1.signals = s.signals := by
  unfold shouldRestart
  cases mapGet s.entries id with
  | none => exact ⟨rfl, rfl, rfl, rfl⟩
  | some p =>
    dsimp only
    repeat' split
    all_goals exact ⟨rfl, rfl, rfl, rfl⟩

theorem waitForRetry_eq (s : State) (id : String) : waitForRetry s id = s := by
  unfold waitForRetry
  cases mapGet s.entries id <;> rfl

/-- The first locked section of an iteration, for a registered id. -/
theorem runTop_eq (s : State) (id : String) (p : Nat) (hp : mapGet s.entries id = some p) :
    runTop s id = some
      ({ s with
          objs := Function.update s.objs p { s.objs p with
            lastError := "", manuallyStopped := false, cmd := some s.nextCmd,
            status := StatusRunning }
          cmds := Function.update s.cmds s.nextCmd { Process := none }
          nextCmd := s.nextCmd + 1 }, p, s.nextCmd, s.logCallback) := by
  simp [runTop, hp, State.setObj]

/-- Launching a reader only appends to the history of readers. -/
theorem goStreamOutput_frame (s : State) (id stream : String) (pipe : Bool)
    (logCb : Option Nat) :
    (goStreamOutput s id stream pipe logCb).entries = s.entries ∧
    (goStreamOutput s id stream pipe logCb).objs = s.objs ∧
    (goStreamOutput s id stream pipe logCb).cmds = s.cmds ∧
    (goStreamOutput s id stream pipe logCb).starts = s.starts ∧
    (goStreamOutput s id stream pipe logCb).nextObj = s.nextObj ∧
    (goStreamOutput s id stream pipe logCb).loops = s.loops ∧
    (goStreamOutput s id stream pipe logCb).signals = s.signals := by
  unfold goStreamOutput
  split
  · exact ⟨rfl, rfl, rfl, rfl, rfl, rfl, rfl⟩
  · exact ⟨rfl, rfl, rfl, rfl, rfl, rfl, rfl⟩

/-- What the first locked section of an iteration leaves behind. -/
theorem runTop_spec (s : State) (id : String) (p : Nat) (hp : mapGet s.entries id = some p) :
    ∃ t : State, runTop s id = some (t, p, s.nextCmd, s.logCallback) ∧
      t.entries = s.entries ∧
      t.objs p = { s.objs p with
        lastError := "", manuallyStopped := false, cmd := some s.nextCmd,
        status := StatusRunning } ∧
      t.starts = s.starts ∧ t.nextObj = s.nextObj ∧ t.loops = s.loops ∧
      t.signals = s.signals :=
  ⟨_, runTop_eq s id p hp, rfl, by simp, rfl, rfl, rfl, rfl⟩

/-- The call `cmd.Start()` writes the command object and the history of spawns. -/
theorem cmdStart_frame (s : State) (c : Nat) (r : Except String Int) :
    (cmdStart s c r).entries = s.entries ∧ (cmdStart s c r).objs = s.objs ∧
    (cmdStart s c r).starts = s.starts ++ [c] ∧ (cmdStart s c r).nextObj = s.nextObj ∧
    (cmdStart s c r).loops = s.loops ∧ (cmdStart s c r).signals = s.signals := by
  cases r with
  | error e => exact ⟨rfl, rfl, rfl, rfl, rfl, rfl⟩
  | ok pid => exact ⟨rfl, rfl, rfl, rfl, rfl, rfl⟩

/-- The call `recordError` for a registered id. -/
theorem recordError_eq (s : State) (id msg : String) (p : Nat)
    (hp : mapGet s.entries id = some p) :
    recordError s id msg =
      s.setObj p { s.objs p with lastError := msg, status := StatusErrored } := by
  simp [recordError, hp]

/-- The state in which an uninterrupted iteration of `run` consults the restart
policy: the entry at `p` carries the fresh command, the error text of the
outcome (empty when the child exited without error) and the matching status. -/
theorem runBody_eq (o : Outcome) (s : State) (id : String) (p : Nat)
    (hp : mapGet s.entries id = some p) :
    ∃ s3 : State,
      runBody o s id =
        (if (shouldRestart s3 id).2 = false then ((shouldRestart s3 id).1, false)
         else ((shouldRestart s3 id).1, true)) ∧
      s3.entries = s.entries ∧
      s3.objs p = { s.objs p with
        lastError := o.errorText.getD ""
        manuallyStopped := false
        cmd := some s.nextCmd
        status := if o.errorText = none then StatusRunning else StatusErrored } ∧
      s3.starts = s.starts ++ [s.nextCmd] ∧
      s3.nextObj = s.nextObj ∧ s3.loops = s.loops ∧ s3.signals = s.signals := by
  obtain ⟨t, ht, hte, hto, hts, htn, htl, htg⟩ := runTop_spec s id p hp
  cases o with
  | startFails m =>
    obtain ⟨e1, o1, t1, n1, l1, g1⟩ := cmdStart_frame t s.nextCmd (.error m)
    have hp1 : mapGet (cmdStart t s.nextCmd (.error m)).entries id = some p := by
      rw [e1, hte]; exact hp
    have hr := recordError_eq (cmdStart t s.nextCmd (.error m)) id m p hp1
    refine ⟨recordError (cmdStart t s.nextCmd (.error m)) id m, ?_, ?_, ?_, ?_, ?_, ?_, ?_⟩
    · simp [runBody, ht, waitForRetry_eq]
    · rw [hr, setObj_entries, e1, hte]
    · rw [hr, setObj_objs_same, o1, hto]; simp [Outcome.errorText]
    · rw [hr, setObj_starts, t1, hts]
    · rw [hr]; exact n1.trans htn
    · rw [hr, setObj_loops, l1, htl]
    · rw [hr, setObj_signals, g1, htg]
  | exits pid so se err =>
    obtain ⟨e1, o1, t1, n1, l1, g1⟩ := cmdStart_frame t s.nextCmd (.ok pid)
    obtain ⟨e2, o2, _, t2, n2, l2, g2⟩ :=
      goStreamOutput_frame (cmdStart t s.nextCmd (.ok pid)) id "stdout" so s.logCallback
    obtain ⟨e3, o3, _, t3, n3, l3, g3⟩ :=
      goStreamOutput_frame
        (goStreamOutput (cmdStart t s.nextCmd (.ok pid)) id "stdout" so s.logCallback)
        id "stderr" se s.logCallback
    generalize hu : goStreamOutput
        (goStreamOutput (cmdStart t s.nextCmd (.ok pid)) id "stdout" so s.logCallback)
        id "stderr" se s.logCallback = u at e3 o3 t3 n3 l3 g3
    have hue : u.entries = s.entries := by rw [e3, e2, e1, hte]
    have huo : u.objs = t.objs := by rw [o3, o2, o1]
    have hut : u.starts = s.starts ++ [s.nextCmd] := by rw [t3, t2, t1, hts]
    have hun : u.nextObj = s.nextObj := by rw [n3, n2, n1, htn]
    have hul : u.loops = s.loops := by rw [l3, l2, l1, htl]
    have hug : u.signals = s.signals := by rw [g3, g2, g1, htg]
    have hup : mapGet u.entries id = some p := by rw [hue]; exact hp
    cases err with
    | none =>
      refine ⟨u, ?_, hue, ?_, hut, hun, hul, hug⟩
      · have hc : runCheckStopped u p = (u, false) := by
          simp [runCheckStopped, huo, hto]
        simp [runBody, ht, waitForRetry_eq, hu, hc]
      · rw [huo, hto]; simp [Outcome.errorText]
    | some m =>
      have hr := recordError_eq u id m p hup
      refine ⟨recordError u id m, ?_, ?_, ?_, ?_, ?_, ?_, ?_⟩
      · have hc : runCheckStopped (recordError u id m) p = (recordError u id m, false) := by
          rw [hr]
          simp [runCheckStopped, huo, hto]
        simp [runBody, ht, waitForRetry_eq, hu, hc]
      · rw [hr, setObj_entries, hue]
      · rw [hr, setObj_objs_same, huo, hto]; simp [Outcome.errorText]
      · rw [hr, setObj_starts, hut]
      · rw [hr]; exact hun
      · rw [hr, setObj_loops, hul]
      · rw [hr, setObj_signals, hug]

/-- An iteration of the control loop leaves the registry map, the allocation
of entry objects and the histories of loops and signals as they are. -/
theorem runBody_frame (o : Outcome) (s : State) (id : String) :
    (runBody o s id).1.entries = s.entries ∧
    (runBody o s id).1.nextObj = s.nextObj ∧
    (runBody o s id).1.loops = s.loops ∧
    (runBody o s id).1.signals = s.signals := by
  cases hm : mapGet s.entries id with
  | none =>
    have h : runBody o s id = (s, false) := by simp [runBody, runTop, hm]
    rw [h]
    exact ⟨rfl, rfl, rfl, rfl⟩
  | some p =>
    obtain ⟨s3, hb, he, _, _, hn, hl, hg⟩ := runBody_eq o s id p hm
    have hf := shouldRestart_frame s3 id
    rw [hb]
    split
    · exact ⟨hf.1.trans he, hf.2.1.trans hn, hf.2.2.1.trans hl, hf.2.2.2.trans hg⟩
    · exact ⟨hf.1.trans he, hf.2.1.trans hn, hf.2.2.1.trans hl, hf.2.2.2.trans hg⟩

/-- A failing iteration under a policy that permits the restart: the counter
goes up by one, the status is `errored`, and the loop goes on iff the cap is
not exceeded. -/
theorem runBody_failing (o : Outcome) (s : State) (id : String) (p : Nat) (msg : String)
    (hp : mapGet s.entries id = some p) (ho : o.errorText = some msg)
    (hpol : (s.objs p).definition.RestartPolicy = RestartAlways ∨
      ((s.objs p).definition.RestartPolicy = RestartOnFailure ∧ msg ≠ "")) :
    (runBody o s id).2 = decide (¬ ((s.objs p).definition.MaxRetries > 0 ∧
        (s.objs p).restarts + 1 > (s.objs p).definition.MaxRetries)) ∧
    (runBody o s id).1.entries = s.entries ∧
    ((runBody o s id).1.objs p).definition = (s.objs p).definition ∧
    ((runBody o s id).1.objs p).restarts = (s.objs p).restarts + 1 ∧
    ((runBody o s id).1.objs p).status = StatusErrored ∧
    (runBody o s id).1.starts = s.starts ++ [s.nextCmd] := by
  obtain ⟨s3, hb, he, ho3, hs, _⟩ := runBody_eq o s id p hp
  have hp3 : mapGet s3.entries id = some p := by rw [he]; exact hp
  have hpol3 : (s3.objs p).definition.RestartPolicy = RestartAlways ∨
      ((s3.objs p).definition.RestartPolicy = RestartOnFailure ∧ (s3.objs p).lastError ≠ "") := by
    rw [ho3]
    simpa [ho] using hpol
  have hsr := shouldRestart_permitted s3 id p hp3 hpol3
  have hd : (s3.objs p).definition = (s.objs p).definition := by rw [ho3]
  have hr : (s3.objs p).restarts = (s.objs p).restarts := by rw [ho3]
  have hst : (s3.objs p).status = StatusErrored := by rw [ho3]; simp [ho]
  rw [hd, hr] at hsr
  rw [hb, hsr]
  by_cases hc : (s.objs p).definition.MaxRetries > 0 ∧
      (s.objs p).restarts + 1 > (s.objs p).definition.MaxRetries
  · simp only [if_pos hc, if_true, setObj_objs_same, setObj_entries, setObj_starts]
    exact ⟨by simp [hc], he, hd, trivial, trivial, hs⟩
  · simp only [if_neg hc, Bool.true_eq_false, if_false, setObj_objs_same, setObj_entries,
      setObj_starts]
    exact ⟨by simp [hc], he, hd, trivial, hst, hs⟩

/-- A loop whose every run fails under a policy that permits the restart and a
positive cap `n`: from a counter `j` short of the cap it makes `j + 1` spawn
attempts and returns with the counter at `n + 1` and status `errored`. -/
theorem run_until_cap (out : Nat → Outcome) (id : String) (p : Nat) (d : Definition) (n : Int)
    (hn : 0 < n) (hmax : d.MaxRetries = n)
    (hfail : ∀ k, ∃ msg, (out k).errorText = some msg ∧
      (d.RestartPolicy = RestartAlways ∨ (d.RestartPolicy = RestartOnFailure ∧ msg ≠ ""))) :
    ∀ (j fuel k : Nat) (s : State),
      mapGet s.entries id = some p → (s.objs p).definition = d →
      (s.objs p).restarts + j = n → j + 1 ≤ fuel →
      ∃ s1 : State, run out fuel k s id = some s1 ∧ mapGet s1.entries id = some p ∧
        (s1.objs p).definition = d ∧ (s1.objs p).restarts = n + 1 ∧
        (s1.objs p).status = StatusErrored ∧
        s1.starts.length = s.starts.length + (j + 1) := by
  intro j
  induction j with
  | zero =>
    intro fuel k s hp hd hr hf
    obtain ⟨f, rfl⟩ : ∃ f, fuel = f + 1 := ⟨fuel - 1, by omega⟩
    obtain ⟨msg, ho, hpol⟩ := hfail k
    rw [← hd] at hpol
    obtain ⟨h2, he, hdd, hrr, hst, hss⟩ := runBody_failing (out k) s id p msg hp ho hpol
    have hcap : (s.objs p).definition.MaxRetries > 0 ∧
        (s.objs p).restarts + 1 > (s.objs p).definition.MaxRetries := by
      rw [hd, hmax]; constructor <;> omega
    have hb : runBody (out k) s id = ((runBody (out k) s id).1, false) := by
      apply Prod.ext
      · rfl
      · rw [h2]; simp [hcap]
    refine ⟨(runBody (out k) s id).1, ?_, ?_, ?_, ?_, hst, ?_⟩
    · rw [run, hb]
    · rw [he]; exact hp
    · rw [hdd]; exact hd
    · rw [hrr]; omega
    · rw [hss]; simp
  | succ j ih =>
    intro fuel k s hp hd hr hf
    obtain ⟨f, rfl⟩ : ∃ f, fuel = f + 1 := ⟨fuel - 1, by omega⟩
    obtain ⟨msg, ho, hpol⟩ := hfail k
    rw [← hd] at hpol
    obtain ⟨h2, he, hdd, hrr, hst, hss⟩ := runBody_failing (out k) s id p msg hp ho hpol
    have hcap : ¬ ((s.objs p).definition.MaxRetries > 0 ∧
        (s.objs p).restarts + 1 > (s.objs p).definition.MaxRetries) := by
      rw [hd, hmax]; push_cast at hr; omega
    have hb : runBody (out k) s id = ((runBody (out k) s id).1, true) := by
      apply Prod.ext
      · rfl
      · rw [h2]; simp only [hcap, not_false_eq_true, decide_True]
    obtain ⟨s1, h1, h3, h4, h5, h6, h7⟩ := ih f (k + 1) (runBody (out k) s id).1
      (by rw [he]; exact hp) (by rw [hdd]; exact hd) (by rw [hrr]; push_cast at hr; omega)
      (by omega)
    refine ⟨s1, ?_, h3, h4, h5, h6, ?_⟩
    · rw [run, hb]; exact h1
    · rw [h7, hss]; simp; omega

/-- The same loop has not returned after `j` iterations. -/
theorem run_before_cap (out : Nat → Outcome) (id : String) (p : Nat) (d : Definition) (n : Int)
    (hmax : d.MaxRetries = n)
    (hfail : ∀ k, ∃ msg, (out k).errorText = some msg ∧
      (d.RestartPolicy = RestartAlways ∨ (d.RestartPolicy = RestartOnFailure ∧ msg ≠ ""))) :
    ∀ (fuel j k : Nat) (s : State),
      mapGet s.entries id = some p → (s.objs p).definition = d →
      (s.objs p).restarts + j = n → fuel ≤ j →
      run out fuel k s id = none := by
  intro fuel
  induction fuel with
  | zero => intro j k s _ _ _ _; rfl
  | succ f ih =>
    intro j k s hp hd hr hf
    obtain ⟨msg, ho, hpol⟩ := hfail k
    rw [← hd] at hpol
    obtain ⟨h2, he, hdd, hrr, _, _⟩ := runBody_failing (out k) s id p msg hp ho hpol
    have hcap : ¬ ((s.objs p).definition.MaxRetries > 0 ∧
        (s.objs p).restarts + 1 > (s.objs p).definition.MaxRetries) := by
      rw [hd, hmax]; omega
    have hb : runBody (out k) s id = ((runBody (out k) s id).1, true) := by
      apply Prod.ext
      · rfl
      · rw [h2]; simp only [hcap, not_false_eq_true, decide_True]
    rw [run, hb]
    exact ih (j - 1) (k + 1) (runBody (out k) s id).1 (by rw [he]; exact hp)
      (by rw [hdd]; exact hd) (by rw [hrr]; omega) (by omega)

/-! ## Lemmas on the registry operations -/

/-- The termination code only appends to the history of system calls. -/
theorem gracefulStop_frame (os : Sys) (s : State) (cmd : Option Nat) :
    (gracefulStop os s cmd).entries = s.entries ∧ (gracefulStop os s cmd).objs = s.objs ∧
    (gracefulStop os s cmd).cmds = s.cmds ∧ (gracefulStop os s cmd).loops = s.loops ∧
    (gracefulStop os s cmd).starts = s.starts ∧
    (gracefulStop os s cmd).nextObj = s.nextObj := by
  unfold gracefulStop State.call
  repeat' split
  all_goals exact ⟨rfl, rfl, rfl, rfl, rfl, rfl⟩

theorem killProcess_frame (os : Sys) (s : State) (cmd : Option Nat) :
    (killProcess os s cmd).1.entries = s.entries ∧ (killProcess os s cmd).1.objs = s.objs ∧
    (killProcess os s cmd).1.cmds = s.cmds ∧ (killProcess os s cmd).1.loops = s.loops ∧
    (killProcess os s cmd).1.starts = s.starts ∧
    (killProcess os s cmd).1.nextObj = s.nextObj := by
  unfold killProcess State.call
  repeat' split
  all_goals exact ⟨rfl, rfl, rfl, rfl, rfl, rfl⟩

theorem stopTerminate_frame (env : StopEnv) (s : State) (cmd : Option Nat) :
    (stopTerminate env s cmd).1.entries = s.entries ∧
    (stopTerminate env s cmd).1.objs = s.objs ∧
    (stopTerminate env s cmd).1.cmds = s.cmds ∧
    (stopTerminate env s cmd).1.loops = s.loops ∧
    (stopTerminate env s cmd).1.starts = s.starts ∧
    (stopTerminate env s cmd).1.nextObj = s.nextObj := by
  have hg := gracefulStop_frame env.atGraceful s cmd
  have hk := killProcess_frame env.atKill (gracefulStop env.atGraceful s cmd) cmd
  unfold stopTerminate
  repeat' split
  · exact ⟨rfl, rfl, rfl, rfl, rfl, rfl⟩
  · exact ⟨rfl, rfl, rfl, rfl, rfl, rfl⟩
  · exact hg
  · exact ⟨hk.1.trans hg.1, hk.2.1.trans hg.2.1, hk.2.2.1.trans hg.2.2.1,
      hk.2.2.2.1.trans hg.2.2.2.1, hk.2.2.2.2.1.trans hg.2.2.2.2.1,
      hk.2.2.2.2.2.trans hg.2.2.2.2.2⟩
  · exact ⟨hk.1.trans hg.1, hk.2.1.trans hg.2.1, hk.2.2.1.trans hg.2.2.1,
      hk.2.2.2.1.trans hg.2.2.2.1, hk.2.2.2.2.1.trans hg.2.2.2.2.1,
      hk.2.2.2.2.2.trans hg.2.2.2.2.2⟩

/-- Without a process handle `Stop` does nothing after releasing the lock. -/
theorem stopTerminate_no_handle (env : StopEnv) (s : State) (cmd : Option Nat)
    (h : cmd = none ∨ ∃ c, cmd = some c ∧ (s.cmds c).Process = none) :
    stopTerminate env s cmd = (s, none) := by
  rcases h with h | ⟨c, h, hc⟩
  · subst h; rfl
  · subst h; simp [stopTerminate, hc]

/-- The second of two `Start` calls in a row changes nothing and returns what
the first returned. -/
theorem start_start (s : State) (id : String) : Start (Start s id).1 id = Start s id := by
  cases hm : mapGet s.entries id with
  | none => simp [Start, hm]
  | some p =>
    by_cases h : (s.objs p).status = StatusRunning ∨ (s.objs p).status = StatusStarting
    · simp [Start, hm, h]
    · have h1 : Start s id =
          ({ s.setObj p { s.objs p with status := StatusStarting } with
              loops := s.loops ++ [id] }, none) := by
        simp [Start, hm, h]
      rw [h1]
      simp [Start, hm, State.setObj]

/-! ## The allocation invariant -/

/-- The allocation invariant holds for a new manager. -/
theorem newManager_WF : NewManager.WF := by
  intro id p h
  simp [NewManager, mapGet] at h

/-- The allocation invariant is kept by `Register`. -/
theorem register_WF (s : State) (d : Definition) (h : s.WF) : (Register s d).WF := by
  intro id p hp
  simp only [Register, mapGet_mapSet] at hp ⊢
  by_cases hid : id = d.ID
  · simp only [hid, if_true, Option.some.injEq] at hp
    omega
  · simp only [hid, if_false] at hp
    have := h id p hp
    omega

/-- The allocation invariant is kept by `Start`. -/
theorem start_WF (s : State) (id : String) (h : s.WF) : (Start s id).1.WF := by
  have he : (Start s id).1.entries = s.entries ∧ (Start s id).1.nextObj = s.nextObj := by
    unfold Start
    cases mapGet s.entries id with
    | none => exact ⟨rfl, rfl⟩
    | some p =>
      dsimp only
      split
      · exact ⟨rfl, rfl⟩
      · exact ⟨rfl, rfl⟩
  intro j p hp
  rw [he.1] at hp
  rw [he.2]
  exact h j p hp

/-- The allocation invariant is kept by `Stop`. -/
theorem stop_WF (env : StopEnv) (s : State) (id : String) (h : s.WF) :
    (Stop env s id).1.WF := by
  have he : (Stop env s id).1.entries = s.entries ∧ (Stop env s id).1.nextObj = s.nextObj := by
    unfold Stop stopLocked
    cases mapGet s.entries id with
    | none => exact ⟨rfl, rfl⟩
    | some p =>
      have hf := stopTerminate_frame env
        (s.setObj p { s.objs p with status := StatusStopped, manuallyStopped := true })
        (s.objs p).cmd
      exact ⟨hf.1, hf.2.2.2.2.2⟩
  intro j p hp
  rw [he.1] at hp
  rw [he.2]
  exact h j p hp

/-- The allocation invariant is kept by `Unregister`. -/
theorem unregister_WF (env : StopEnv) (s : State) (id : String) (h : s.WF) :
    (Unregister env s id).1.WF := by
  cases hm : mapGet s.entries id with
  | none =>
    have h1 : Unregister env s id = (s, some .ErrNotFound) := by simp [Unregister, hm]
    rw [h1]
    exact h
  | some p =>
    by_cases ha : (s.objs p).status = StatusRunning ∨ (s.objs p).status = StatusStarting
    · have h1 : Unregister env s id =
          ({ (Stop env s id).1 with entries := mapDelete (Stop env s id).1.entries id }, none) := by
        simp [Unregister, hm, ha]
      rw [h1]
      intro j q hq
      simp only [mapGet_mapDelete] at hq
      by_cases hj : j = id
      · simp [hj] at hq
      · simp only [hj, if_false] at hq
        exact stop_WF env s id h j q hq
    · have h1 : Unregister env s id = ({ s with entries := mapDelete s.entries id }, none) := by
        simp [Unregister, hm, ha]
      rw [h1]
      intro j q hq
      simp only [mapGet_mapDelete] at hq
      by_cases hj : j = id
      · simp [hj] at hq
      · simp only [hj, if_false] at hq
        exact h j q hq

/-- The allocation invariant is kept by an iteration of the control loop. -/
theorem runBody_WF (o : Outcome) (s : State) (id : String) (h : s.WF) :
    (runBody o s id).1.WF := by
  have hf := runBody_frame o s id
  intro j p hp
  rw [hf.1] at hp
  rw [hf.2.1]
  exact h j p hp

/-! ## The restart policy -/

/-- C1: if the entry registered under `id` has policy `never`, or policy
`on_failure` and an empty last error, `shouldRestart` returns false, sets the
status to `stopped` and leaves the restart counter unchanged. -/
theorem shouldRestart_no_restart (s : State) (id : String) (p : Nat)
    (hp : mapGet s.entries id = some p)
    (h : (s.objs p).definition.RestartPolicy = RestartNever ∨
      ((s.objs p).definition.RestartPolicy = RestartOnFailure ∧ (s.objs p).lastError = "")) :
    (shouldRestart s id).2 = false ∧
    ((shouldRestart s id).1.objs p).status = StatusStopped ∧
    ((shouldRestart s id).1.objs p).restarts = (s.objs p).restarts := by
  unfold shouldRestart
  rw [hp]
  rcases h with h | ⟨h, he⟩
  · simp [h, RestartNever, RestartOnFailure]
  · simp [h, he, RestartNever, RestartOnFailure]

/-- C1, at a concrete input: a freshly registered entry with policy `never`. -/
theorem shouldRestart_no_restart_witness :
    (shouldRestart (Register NewManager neverDef) "svc").2 = false ∧
    ((shouldRestart (Register NewManager neverDef) "svc").1.objs 0).status = StatusStopped ∧
    ((shouldRestart (Register NewManager neverDef) "svc").1.objs 0).restarts =
      ((Register NewManager neverDef).objs 0).restarts :=
  shouldRestart_no_restart (Register NewManager neverDef) "svc" 0 rfl (Or.inl rfl)

/-- C2, as stated, fails for a negative retry cap: with policy `always`,
`MaxRetries = -1` and a counter of 0, `shouldRestart` returns true although
`MaxRetries` is not 0 and the incremented counter 1 exceeds `MaxRetries`. -/
theorem shouldRestart_negative_cap :
    mapGet (Register NewManager negativeCapDef).entries "svc" = some 0 ∧
    ((Register NewManager negativeCapDef).objs 0).definition.RestartPolicy = RestartAlways ∧
    (shouldRestart (Register NewManager negativeCapDef) "svc").2 = true ∧
    ¬ (((Register NewManager negativeCapDef).objs 0).definition.MaxRetries = 0 ∨
      ((Register NewManager negativeCapDef).objs 0).restarts + 1 ≤
        ((Register NewManager negativeCapDef).objs 0).definition.MaxRetries) := by
  refine ⟨rfl, rfl, rfl, ?_⟩
  simp [Register, NewManager, negativeCapDef]

/-- C2 (amended): if the entry registered under `id` has policy `always`, or
policy `on_failure` and a non-empty last error, `shouldRestart` increments the
restart counter by exactly 1; it returns true, with the status untouched, iff
`MaxRetries ≤ 0` (unlimited) or the incremented counter does not exceed
`MaxRetries`; otherwise it returns false and sets the status to `errored`. -/
theorem shouldRestart_restart (s : State) (id : String) (p : Nat)
    (hp : mapGet s.entries id = some p)
    (h : (s.objs p).definition.RestartPolicy = RestartAlways ∨
      ((s.objs p).definition.RestartPolicy = RestartOnFailure ∧ (s.objs p).lastError ≠ "")) :
    ((shouldRestart s id).1.objs p).restarts = (s.objs p).restarts + 1 ∧
    ((shouldRestart s id).2 = true ↔
      ((s.objs p).definition.MaxRetries ≤ 0 ∨
        (s.objs p).restarts + 1 ≤ (s.objs p).definition.MaxRetries)) ∧
    ((shouldRestart s id).2 = true →
      ((shouldRestart s id).1.objs p).status = (s.objs p).status) ∧
    ((shouldRestart s id).2 = false →
      (s.objs p).definition.MaxRetries > 0 ∧
      (s.objs p).restarts + 1 > (s.objs p).definition.MaxRetries ∧
      ((shouldRestart s id).1.objs p).status = StatusErrored ∧
      ((shouldRestart s id).1.objs p).status ≠ StatusStopped) := by
  unfold shouldRestart
  rw [hp]
  have key : ¬ ((if (s.objs p).definition.RestartPolicy = "" then RestartOnFailure
        else (s.objs p).definition.RestartPolicy) = RestartNever) ∧
      ¬ ((if (s.objs p).definition.RestartPolicy = "" then RestartOnFailure
        else (s.objs p).definition.RestartPolicy) = RestartOnFailure ∧
          (s.objs p).lastError = "") := by
    rcases h with h | ⟨h, he⟩
    · simp [h, RestartAlways, RestartNever, RestartOnFailure]
    · simp [h, he, RestartNever, RestartOnFailure]
  simp only [key.1, key.2, if_false]
  by_cases hc : (s.objs p).definition.MaxRetries > 0 ∧
      (s.objs p).restarts + 1 > (s.objs p).definition.MaxRetries
  · simp only [hc, and_self, if_true, setObj_objs_same]
    refine ⟨trivial, ?_, ?_, ?_⟩
    · constructor
      · intro h0; cases h0
      · intro h0; omega
    · intro h0; cases h0
    · intro _; exact ⟨trivial, trivial, trivial, by decide⟩
  · simp only [hc, if_false, setObj_objs_same]
    refine ⟨trivial, ?_, ?_, ?_⟩
    · constructor
      · intro _; omega
      · intro _; trivial
    · intro _; trivial
    · intro h0; cases h0

/-- C2 (amended), at a concrete input: a freshly registered entry with policy
`always` and a retry cap of 2. -/
theorem shouldRestart_restart_witness :
    ((shouldRestart (Register NewManager alwaysDef) "svc").1.objs 0).restarts =
      ((Register NewManager alwaysDef).objs 0).restarts + 1 ∧
    ((shouldRestart (Register NewManager alwaysDef) "svc").2 = true ↔
      (((Register NewManager alwaysDef).objs 0).definition.MaxRetries ≤ 0 ∨
        ((Register NewManager alwaysDef).objs 0).restarts + 1 ≤
          ((Register NewManager alwaysDef).objs 0).definition.MaxRetries)) ∧
    ((shouldRestart (Register NewManager alwaysDef) "svc").2 = true →
      ((shouldRestart (Register NewManager alwaysDef) "svc").1.objs 0).status =
        ((Register NewManager alwaysDef).objs 0).status) ∧
    ((shouldRestart (Register NewManager alwaysDef) "svc").2 = false →
      ((Register NewManager alwaysDef).objs 0).definition.MaxRetries > 0 ∧
      ((Register NewManager alwaysDef).objs 0).restarts + 1 >
        ((Register NewManager alwaysDef).objs 0).definition.MaxRetries ∧
      ((shouldRestart (Register NewManager alwaysDef) "svc").1.objs 0).status = StatusErrored ∧
      ((shouldRestart (Register NewManager alwaysDef) "svc").1.objs 0).status ≠ StatusStopped) :=
  shouldRestart_restart (Register NewManager alwaysDef) "svc" 0 rfl (Or.inl rfl)

/-! ## The retry cap, end to end -/

/-- C3: for every `n > 0`, the control loop of an entry with policy `always`,
`MaxRetries = n` and a restart counter of 0 whose child fails on every run makes
exactly `n + 1` spawn attempts (it has not returned after `n` iterations) and
then returns; `Get` then shows `restarts = n + 1` and status `errored`. -/
theorem run_always_retry_cap (s : State) (id : String) (p n fuel : Nat) (out : Nat → Outcome)
    (hn : 0 < n)
    (hp : mapGet s.entries id = some p)
    (hpol : (s.objs p).definition.RestartPolicy = RestartAlways)
    (hmax : (s.objs p).definition.MaxRetries = n)
    (hr : (s.objs p).restarts = 0)
    (hfail : ∀ k, (out k).errorText ≠ none)
    (hfuel : n + 1 ≤ fuel) :
    run out n 0 s id = none ∧
    ∃ s1 : State, run out fuel 0 s id = some s1 ∧
      s1.starts.length = s.starts.length + (n + 1) ∧
      ∃ snap : Snapshot, Get s1 id = .ok snap ∧
        snap.Restarts = n + 1 ∧ snap.Status = StatusErrored := by
  have hf : ∀ k, ∃ msg, (out k).errorText = some msg ∧
      ((s.objs p).definition.RestartPolicy = RestartAlways ∨
        ((s.objs p).definition.RestartPolicy = RestartOnFailure ∧ msg ≠ "")) := by
    intro k
    cases h : (out k).errorText with
    | none => exact absurd h (hfail k)
    | some msg => exact ⟨msg, rfl, Or.inl hpol⟩
  constructor
  · exact run_before_cap out id p (s.objs p).definition n hmax hf n n 0 s hp rfl
      (by rw [hr]; simp) (le_refl n)
  · obtain ⟨s1, h1, h2, _, h4, h5, h6⟩ :=
      run_until_cap out id p (s.objs p).definition n (by exact_mod_cast hn) hmax hf
        n fuel 0 s hp rfl (by rw [hr]; simp) hfuel
    exact ⟨s1, h1, h6, snapshotOf s1 (s1.objs p), Get_of_mapGet s1 id p h2, h4, h5⟩

/-- C3, at the instance of the specification: `MaxRetries = 2`, registered and
started on a new manager, with a child that exits with code 1 on every run;
the loop makes 3 spawn attempts and `Get` shows `restarts = 3`, `errored`. -/
theorem run_always_retry_cap_witness :
    run alwaysCrashing 2 0 (Start (Register NewManager alwaysDef) "svc").1 "svc" = none ∧
    ∃ s1 : State,
      run alwaysCrashing 3 0 (Start (Register NewManager alwaysDef) "svc").1 "svc" = some s1 ∧
      s1.starts.length = (Start (Register NewManager alwaysDef) "svc").1.starts.length + (2 + 1) ∧
      ∃ snap : Snapshot, Get s1 "svc" = .ok snap ∧
        snap.Restarts = ((2 : Nat) : Int) + 1 ∧ snap.Status = StatusErrored :=
  run_always_retry_cap (Start (Register NewManager alwaysDef) "svc").1 "svc" 0 2 3
    alwaysCrashing (by decide) rfl rfl rfl rfl (fun _ => by simp [alwaysCrashing, Outcome.errorText])
    (by decide)

/-- C4, as stated, fails: in the scenario of the specification (policy
`on_failure`, `maxRetries` 1, a child exiting with code 1 on every run,
registered and started on a new manager) the loop returns after two spawn
attempts and `Get` shows `restarts = 2`, not 1, with status `errored`. -/
theorem crash_scenario_restarts_two :
    ∃ s1 : State,
      run alwaysCrashing 2 0 (Start (Register NewManager crashDef) "crash").1 "crash" = some s1 ∧
      s1.starts.length = 2 ∧
      ∃ snap : Snapshot, Get s1 "crash" = .ok snap ∧
        snap.Restarts = 2 ∧ snap.Restarts ≠ 1 ∧ snap.Status = StatusErrored :=
  ⟨_, rfl, rfl, _, rfl, rfl, by decide, rfl⟩

/-- C4 (amended): the control loop of an entry with policy `on_failure`,
`MaxRetries = 1` and a restart counter of 0 whose child ends every run with a
(non-empty) error makes exactly two spawn attempts and then returns; `Get` then
shows `restarts = 2` and status `errored`. -/
theorem run_on_failure_cap_one (s : State) (id : String) (p fuel : Nat) (out : Nat → Outcome)
    (hp : mapGet s.entries id = some p)
    (hpol : (s.objs p).definition.RestartPolicy = RestartOnFailure)
    (hmax : (s.objs p).definition.MaxRetries = 1)
    (hr : (s.objs p).restarts = 0)
    (hfail : ∀ k, ∃ msg, (out k).errorText = some msg ∧ msg ≠ "")
    (hfuel : 2 ≤ fuel) :
    run out 1 0 s id = none ∧
    ∃ s1 : State, run out fuel 0 s id = some s1 ∧
      s1.starts.length = s.starts.length + 2 ∧
      ∃ snap : Snapshot, Get s1 id = .ok snap ∧
        snap.Restarts = 2 ∧ snap.Status = StatusErrored := by
  have hf : ∀ k, ∃ msg, (out k).errorText = some msg ∧
      ((s.objs p).definition.RestartPolicy = RestartAlways ∨
        ((s.objs p).definition.RestartPolicy = RestartOnFailure ∧ msg ≠ "")) := by
    intro k
    obtain ⟨msg, h1, h2⟩ := hfail k
    exact ⟨msg, h1, Or.inr ⟨hpol, h2⟩⟩
  constructor
  · exact run_before_cap out id p (s.objs p).definition 1 hmax hf 1 1 0 s hp rfl
      (by rw [hr]; simp) (le_refl 1)
  · obtain ⟨s1, h1, h2, _, h4, h5, h6⟩ :=
      run_until_cap out id p (s.objs p).definition 1 (by decide) hmax hf
        1 fuel 0 s hp rfl (by rw [hr]; simp) hfuel
    exact ⟨s1, h1, h6, snapshotOf s1 (s1.objs p), Get_of_mapGet s1 id p h2, h4, h5⟩

/-- C4 (amended), at the scenario of the specification. -/
theorem run_on_failure_cap_one_witness :
    run alwaysCrashing 1 0 (Start (Register NewManager crashDef) "crash").1 "crash" = none ∧
    ∃ s1 : State,
      run alwaysCrashing 2 0 (Start (Register NewManager crashDef) "crash").1 "crash" = some s1 ∧
      s1.starts.length = (Start (Register NewManager crashDef) "crash").1.starts.length + 2 ∧
      ∃ snap : Snapshot, Get s1 "crash" = .ok snap ∧
        snap.Restarts = 2 ∧ snap.Status = StatusErrored :=
  run_on_failure_cap_one (Start (Register NewManager crashDef) "crash").1 "crash" 0 2
    alwaysCrashing rfl rfl rfl rfl
    (fun _ => ⟨"exit status 1", by simp [alwaysCrashing, Outcome.errorText], by decide⟩)
    (le_refl 2)

/-! ## Outcomes without retry, end to end -/

/-- C5: whatever state an iteration of the control loop starts in (any restart
counter, any last error left by earlier runs), if the policy is `never` and the
run ends in an error, or the policy is `on_failure` and the run ends without
error, the loop returns after this single spawn attempt, and `Get` shows status
`stopped` and the restart counter the iteration started with. -/
theorem run_no_retry (s : State) (id : String) (p k fuel : Nat) (out : Nat → Outcome)
    (hp : mapGet s.entries id = some p)
    (h : ((s.objs p).definition.RestartPolicy = RestartNever ∧ (out k).errorText ≠ none) ∨
      ((s.objs p).definition.RestartPolicy = RestartOnFailure ∧ (out k).errorText = none)) :
    ∃ s1 : State, run out (fuel + 1) k s id = some s1 ∧
      s1.starts = s.starts ++ [s.nextCmd] ∧
      ∃ snap : Snapshot, Get s1 id = .ok snap ∧
        snap.Status = StatusStopped ∧ snap.Restarts = (s.objs p).restarts := by
  obtain ⟨s3, hb, he, ho3, hs, _⟩ := runBody_eq (out k) s id p hp
  have hp3 : mapGet s3.entries id = some p := by rw [he]; exact hp
  have hstop : (s3.objs p).definition.RestartPolicy = RestartNever ∨
      (((s3.objs p).definition.RestartPolicy = RestartOnFailure ∨
        (s3.objs p).definition.RestartPolicy = "") ∧ (s3.objs p).lastError = "") := by
    rw [ho3]
    rcases h with ⟨h1, _⟩ | ⟨h1, h2⟩
    · exact Or.inl h1
    · exact Or.inr ⟨Or.inl h1, by simp [h2]⟩
  have hsr := shouldRestart_stops s3 id p hp3 hstop
  rw [hsr] at hb
  simp only [if_true] at hb
  refine ⟨(runBody (out k) s id).1, ?_, ?_, _, Get_of_mapGet _ id p ?_, ?_, ?_⟩
  · rw [run, hb]
  · rw [hb]; simpa using hs
  · rw [hb]; simpa using hp3
  · rw [hb]; simp [snapshotOf]
  · rw [hb]; simp [snapshotOf, ho3]

/-- C5, at a concrete input: policy `on_failure`, a first run that failed and
was retried, and a second run that exits with code 0. -/
theorem run_no_retry_witness :
    ∃ s1 : State,
      run crashThenClean (0 + 1) 1
        (runBody (crashThenClean 0) (Start (Register NewManager crashDef) "crash").1 "crash").1
        "crash" = some s1 ∧
      s1.starts =
        (runBody (crashThenClean 0)
          (Start (Register NewManager crashDef) "crash").1 "crash").1.starts ++
        [(runBody (crashThenClean 0)
          (Start (Register NewManager crashDef) "crash").1 "crash").1.nextCmd] ∧
      ∃ snap : Snapshot, Get s1 "crash" = .ok snap ∧
        snap.Status = StatusStopped ∧
        snap.Restarts =
          ((runBody (crashThenClean 0)
            (Start (Register NewManager crashDef) "crash").1 "crash").1.objs 0).restarts :=
  run_no_retry
    (runBody (crashThenClean 0) (Start (Register NewManager crashDef) "crash").1 "crash").1
    "crash" 0 1 0 crashThenClean rfl (Or.inr ⟨rfl, rfl⟩)

/-! ## Registry operations -/

/-- C6: for an id that is not registered, `Get`, `Stop`, `Unregister` and
`Start` fail with `ErrNotFound`, and the three that take the write lock return
the state they were given (nothing created, modified, removed or launched). -/
theorem unregistered_not_found (env : StopEnv) (s : State) (id : String)
    (h : mapGet s.entries id = none) :
    Get s id = .error .ErrNotFound ∧
    Stop env s id = (s, some .ErrNotFound) ∧
    Unregister env s id = (s, some .ErrNotFound) ∧
    Start s id = (s, some .ErrNotFound) := by
  refine ⟨?_, ?_, ?_, ?_⟩
  · simp [Get, h]
  · simp [Stop, stopLocked, h]
  · simp [Unregister, h]
  · simp [Start, h]

/-- C6, at a concrete input: an id unknown to a manager holding one entry. -/
theorem unregistered_not_found_witness :
    Get (Register NewManager neverDef) "ghost" = .error .ErrNotFound ∧
    Stop calmEnv (Register NewManager neverDef) "ghost" =
      (Register NewManager neverDef, some .ErrNotFound) ∧
    Unregister calmEnv (Register NewManager neverDef) "ghost" =
      (Register NewManager neverDef, some .ErrNotFound) ∧
    Start (Register NewManager neverDef) "ghost" =
      (Register NewManager neverDef, some .ErrNotFound) :=
  unregistered_not_found calmEnv (Register NewManager neverDef) "ghost" rfl

/-- C7: after `Register(def)`, whether or not `def.ID` was registered before,
`Get(def.ID)` succeeds with definition `def`, status `stopped`, pid 0, no
restarts and an empty last error; no control loop is launched, nothing is
spawned or signalled, and every other id keeps its entry and its snapshot. -/
theorem register_then_get (s : State) (d : Definition) (hwf : s.WF) :
    Get (Register s d) d.ID = .ok
      { Definition := d, PID := 0, Status := StatusStopped, Restarts := 0, LastError := "",
        StartedAt := none, StoppedAt := none } ∧
    (Register s d).loops = s.loops ∧
    (Register s d).starts = s.starts ∧
    (Register s d).signals = s.signals ∧
    ∀ id, id ≠ d.ID →
      (Register s d).lookup id = s.lookup id ∧ Get (Register s d) id = Get s id := by
  refine ⟨?_, rfl, rfl, rfl, ?_⟩
  · simp [Get, Register, mapGet_mapSet, snapshotOf, pidOf]
  · intro id hid
    have hg : mapGet (Register s d).entries id = mapGet s.entries id := by
      simp [Register, mapGet_mapSet, hid]
    cases hm : mapGet s.entries id with
    | none => simp [State.lookup, Get, hg, hm]
    | some q =>
      have hq : q ≠ s.nextObj := Nat.ne_of_lt (hwf id q hm)
      have ho : (Register s d).objs q = s.objs q := by
        simp [Register, Function.update_noteq hq]
      have hc : (Register s d).cmds = s.cmds := rfl
      constructor
      · unfold State.lookup
        rw [hg, hm]
        simp [ho]
      · unfold Get
        rw [hg, hm]
        simp only [ho, snapshotOf, pidOf, hc]

/-- C7, at a concrete input: re-registering `svc` on a manager that already
holds `svc` and `crash`. -/
theorem register_then_get_witness :
    Get (Register (Register (Register NewManager neverDef) crashDef) alwaysDef) alwaysDef.ID =
      .ok { Definition := alwaysDef, PID := 0, Status := StatusStopped, Restarts := 0,
            LastError := "", StartedAt := none, StoppedAt := none } ∧
    (Register (Register (Register NewManager neverDef) crashDef) alwaysDef).loops =
      (Register (Register NewManager neverDef) crashDef).loops ∧
    (Register (Register (Register NewManager neverDef) crashDef) alwaysDef).starts =
      (Register (Register NewManager neverDef) crashDef).starts ∧
    (Register (Register (Register NewManager neverDef) crashDef) alwaysDef).signals =
      (Register (Register NewManager neverDef) crashDef).signals ∧
    ∀ id, id ≠ alwaysDef.ID →
      (Register (Register (Register NewManager neverDef) crashDef) alwaysDef).lookup id =
        (Register (Register NewManager neverDef) crashDef).lookup id ∧
      Get (Register (Register (Register NewManager neverDef) crashDef) alwaysDef) id =
        Get (Register (Register NewManager neverDef) crashDef) id :=
  register_then_get (Register (Register NewManager neverDef) crashDef) alwaysDef
    (register_WF _ _ (register_WF _ _ newManager_WF))

/-- C8: for a registered id whose status is `running` or `starting`, `Start`
returns nil and hands back the state unchanged, so that no entry is modified
and no control loop is launched; and for every state and id a second `Start`
right after a first one changes nothing and returns what the first returned. -/
theorem start_idempotent (s : State) (id : String) (p : Nat)
    (hp : mapGet s.entries id = some p)
    (h : (s.objs p).status = StatusRunning ∨ (s.objs p).status = StatusStarting) :
    Start s id = (s, none) ∧
    ∀ (t : State) (j : String),
      (Start (Start t j).1 j).1 = (Start t j).1 ∧ (Start (Start t j).1 j).2 = (Start t j).2 := by
  constructor
  · simp [Start, hp, h]
  · intro t j
    rw [start_start]
    exact ⟨rfl, rfl⟩

/-- C8, at a concrete input: an entry that has just been started. -/
theorem start_idempotent_witness :
    Start (Start (Register NewManager neverDef) "svc").1 "svc" =
      ((Start (Register NewManager neverDef) "svc").1, none) ∧
    ∀ (t : State) (j : String),
      (Start (Start t j).1 j).1 = (Start t j).1 ∧ (Start (Start t j).1 j).2 = (Start t j).2 :=
  start_idempotent (Start (Register NewManager neverDef) "svc").1 "svc" 0 rfl (Or.inr rfl)

/-- C9: for a registered id whose status is `stopped` or `errored`, `Start`
returns nil, sets the status to `starting` and launches exactly one control
loop, for this id; the restart counter and the definition of the entry, the
registry map, every other entry object, the commands and the histories of
spawns and signals are unchanged.  The first locked section of that loop then
finds the entry, clears the manual-stop flag and keeps the restart counter. -/
theorem start_inactive (s : State) (id : String) (p : Nat)
    (hp : mapGet s.entries id = some p)
    (h : (s.objs p).status = StatusStopped ∨ (s.objs p).status = StatusErrored) :
    (Start s id).2 = none ∧
    ((Start s id).1.objs p).status = StatusStarting ∧
    (Start s id).1.loops = s.loops ++ [id] ∧
    ((Start s id).1.objs p).restarts = (s.objs p).restarts ∧
    ((Start s id).1.objs p).definition = (s.objs p).definition ∧
    (Start s id).1.entries = s.entries ∧
    (∀ q, q ≠ p → (Start s id).1.objs q = s.objs q) ∧
    (Start s id).1.cmds = s.cmds ∧
    (Start s id).1.starts = s.starts ∧
    (Start s id).1.signals = s.signals ∧
    ∃ (s2 : State) (c : Nat) (cb : Option Nat),
      runTop (Start s id).1 id = some (s2, p, c, cb) ∧
      (s2.objs p).manuallyStopped = false ∧
      (s2.objs p).restarts = (s.objs p).restarts := by
  have hna : ¬ ((s.objs p).status = StatusRunning ∨ (s.objs p).status = StatusStarting) := by
    rcases h with h | h <;> rw [h] <;> decide
  have h1 : Start s id =
      ({ s.setObj p { s.objs p with status := StatusStarting } with
          loops := s.loops ++ [id] }, none) := by
    simp [Start, hp, hna]
  have ht := runTop_eq (Start s id).1 id p (by rw [h1]; exact hp)
  refine ⟨?_, ?_, ?_, ?_, ?_, ?_, ?_, ?_, ?_, ?_, _, _, _, ht, ?_, ?_⟩
  · rw [h1]
  · rw [h1]; simp [State.setObj]
  · rw [h1]
  · rw [h1]; simp [State.setObj]
  · rw [h1]; simp [State.setObj]
  · rw [h1]; rfl
  · intro q hq
    rw [h1]
    simp [State.setObj, Function.update_noteq hq]
  · rw [h1]; rfl
  · rw [h1]; rfl
  · rw [h1]; rfl
  · simp
  · rw [h1]; simp [State.setObj]

/-- C9, at a concrete input: an entry that was stopped by hand after two
restarts had been counted; the flag is set and the counter is 2 before `Start`. -/
theorem start_inactive_witness :
    (Start stoppedAfterTwo "svc").2 = none ∧
    ((Start stoppedAfterTwo "svc").1.objs 0).status = StatusStarting ∧
    (Start stoppedAfterTwo "svc").1.loops = stoppedAfterTwo.loops ++ ["svc"] ∧
    ((Start stoppedAfterTwo "svc").1.objs 0).restarts = (stoppedAfterTwo.objs 0).restarts ∧
    ((Start stoppedAfterTwo "svc").1.objs 0).definition = (stoppedAfterTwo.objs 0).definition ∧
    (Start stoppedAfterTwo "svc").1.entries = stoppedAfterTwo.entries ∧
    (∀ q, q ≠ 0 → (Start stoppedAfterTwo "svc").1.objs q = stoppedAfterTwo.objs q) ∧
    (Start stoppedAfterTwo "svc").1.cmds = stoppedAfterTwo.cmds ∧
    (Start stoppedAfterTwo "svc").1.starts = stoppedAfterTwo.starts ∧
    (Start stoppedAfterTwo "svc").1.signals = stoppedAfterTwo.signals ∧
    ∃ (s2 : State) (c : Nat) (cb : Option Nat),
      runTop (Start stoppedAfterTwo "svc").1 "svc" = some (s2, 0, c, cb) ∧
      (s2.objs 0).manuallyStopped = false ∧
      (s2.objs 0).restarts = (stoppedAfterTwo.objs 0).restarts :=
  start_inactive stoppedAfterTwo "svc" 0 rfl (Or.inl rfl)

/-- C10: for a registered id, whatever the previous status, `Stop` leaves the
entry with status `stopped` and the manual-stop flag set, and with its restart
counter and definition unchanged; and if the entry has no process handle (its
`cmd` is nil, or the command has no `Process`), `Stop` returns nil and makes no
request to the operating system. -/
theorem stop_effect (env : StopEnv) (s : State) (id : String) (p : Nat)
    (hp : mapGet s.entries id = some p) :
    ((Stop env s id).1.objs p).status = StatusStopped ∧
    ((Stop env s id).1.objs p).manuallyStopped = true ∧
    ((Stop env s id).1.objs p).restarts = (s.objs p).restarts ∧
    ((Stop env s id).1.objs p).definition = (s.objs p).definition ∧
    (((s.objs p).cmd = none ∨ ∃ c, (s.objs p).cmd = some c ∧ (s.cmds c).Process = none) →
      (Stop env s id).2 = none ∧ (Stop env s id).1.signals = s.signals) := by
  have h1 : Stop env s id =
      stopTerminate env
        (s.setObj p { s.objs p with status := StatusStopped, manuallyStopped := true })
        (s.objs p).cmd := by
    simp [Stop, stopLocked, hp]
  have hf := stopTerminate_frame env
    (s.setObj p { s.objs p with status := StatusStopped, manuallyStopped := true })
    (s.objs p).cmd
  rw [h1, hf.2.1]
  refine ⟨by simp, by simp, by simp, by simp, ?_⟩
  intro hc
  rw [stopTerminate_no_handle env _ _ (by simpa using hc)]
  exact ⟨rfl, rfl⟩

/-- C10, at a concrete input: `Stop` on an entry that is `starting` and for
which nothing has been spawned yet. -/
theorem stop_effect_witness :
    ((Stop calmEnv (Start (Register NewManager neverDef) "svc").1 "svc").1.objs 0).status =
      StatusStopped ∧
    ((Stop calmEnv (Start (Register NewManager neverDef) "svc").1 "svc").1.objs 0).manuallyStopped =
      true ∧
    ((Stop calmEnv (Start (Register NewManager neverDef) "svc").1 "svc").1.objs 0).restarts =
      ((Start (Register NewManager neverDef) "svc").1.objs 0).restarts ∧
    ((Stop calmEnv (Start (Register NewManager neverDef) "svc").1 "svc").1.objs 0).definition =
      ((Start (Register NewManager neverDef) "svc").1.objs 0).definition ∧
    ((((Start (Register NewManager neverDef) "svc").1.objs 0).cmd = none ∨
        ∃ c, ((Start (Register NewManager neverDef) "svc").1.objs 0).cmd = some c ∧
          ((Start (Register NewManager neverDef) "svc").1.cmds c).Process = none) →
      (Stop calmEnv (Start (Register NewManager neverDef) "svc").1 "svc").2 = none ∧
      (Stop calmEnv (Start (Register NewManager neverDef) "svc").1 "svc").1.signals =
        (Start (Register NewManager neverDef) "svc").1.signals) :=
  stop_effect calmEnv (Start (Register NewManager neverDef) "svc").1 "svc" 0 rfl

/-! ## Stop and the control loop -/

/-- C11: two runs in which a child is spawned after `Stop` has returned nil and
without any further `Start`.  In the first, `Stop` arrives while the entry is
`starting`, before the loop's first iteration; in the second it arrives during
the restart cooldown after a crash.  Both times the locked section at the top
of the next iteration clears the manual-stop flag and the loop spawns. -/
theorem stop_then_respawn :
    (∃ w0 w1 w2 : World,
      execAll World.init [.register alwaysDef, .start "svc"] = some w0 ∧
      (Stop calmEnv w0.st "svc").2 = none ∧
      exec w0 (.stop calmEnv "svc") = some w1 ∧
      w1.st.starts = [] ∧
      execAll w1 [.loop 0, .cmdStart 0 (.ok 4242) true true] = some w2 ∧
      w2.st.starts = [0] ∧ w2.liveChildren "svc" = [0] ∧ w2.st.loops = ["svc"]) ∧
    (∃ w0 w1 w2 : World,
      execAll World.init (upAndCrashed alwaysDef) = some w0 ∧
      w0.pc 0 = .cooldown ∧
      (Stop goneEnv w0.st "svc").2 = none ∧
      exec w0 (.stop goneEnv "svc") = some w1 ∧
      w1.st.starts = [0] ∧
      execAll w1 [.loop 0, .loop 0, .cmdStart 0 (.ok 4243) true true] = some w2 ∧
      w2.st.starts = [0, 1] ∧ w2.liveChildren "svc" = [0] ∧ w2.st.loops = ["svc"]) :=
  ⟨⟨_, _, _, rfl, rfl, rfl, rfl, rfl, rfl, rfl, rfl⟩,
   ⟨_, _, _, rfl, rfl, rfl, rfl, rfl, rfl, rfl, rfl, rfl⟩⟩

/-- C12, as stated, fails: in the scenario of the specification (policy
`never`, started, child running with pid 4242, then `Stop`, then the loop
observes the exit and returns) `Get` shows `stopped` with PID 4242, not 0. -/
theorem stopped_entry_keeps_pid :
    ∃ w : World,
      execAll World.init (upAndRunning neverDef ++
        [.stop calmEnv "svc", .cmdWait 0 (some "signal: terminated"), .loop 0, .loop 0])
        = some w ∧
      w.pc 0 = .done ∧
      ∃ snap : Snapshot, Get w.st "svc" = .ok snap ∧
        snap.Status = StatusStopped ∧ snap.PID = 4242 ∧ snap.PID ≠ 0 :=
  ⟨_, rfl, rfl, _, rfl, rfl, rfl, by decide⟩

/-- C13: `Stop` on a running child that ignores SIGTERM.  The grace window
passes with the child running; `killProcess` then sends SIGTERM to the process
group once more and, that call having succeeded, nothing else: the history of
system calls holds two SIGTERM and no SIGKILL, and `Stop` returns nil while the
loop is still waiting for its child. -/
theorem stop_sends_no_sigkill :
    ∃ w0 w1 : World,
      execAll World.init (upAndRunning neverDef) = some w0 ∧
      (Stop stubbornEnv w0.st "svc").2 = none ∧
      exec w0 (.stop stubbornEnv "svc") = some w1 ∧
      w1.st.signals = [.kill (-4242) .SIGTERM, .kill (-4242) .SIGTERM] ∧
      (∀ pid, SysCall.kill pid .SIGKILL ∉ w1.st.signals) ∧
      w1.liveChildren "svc" = [0] := by
  refine ⟨_, _, rfl, rfl, rfl, rfl, ?_, rfl⟩
  intro pid h
  change SysCall.kill pid .SIGKILL ∈
    [SysCall.kill (-4242) .SIGTERM, SysCall.kill (-4242) .SIGTERM] at h
  simp at h

/-- C14, as stated, fails: when the child is reaped just as the grace window
ends, `killProcess` falls through to `cmd.Process.Kill()`, and `Stop` returns
the error of that call for a registered id; on Windows the same happens after
`taskkill` has failed. -/
theorem stop_returns_kill_error :
    ∃ w0 : World,
      execAll World.init (upAndRunning neverDef) = some w0 ∧
      (mapGet w0.st.entries "svc").isSome = true ∧
      (Stop lateExitEnv w0.st "svc").2 = some (.os "os: process already finished") ∧
      (StopWindows lateExitWinEnv w0.st "svc").2 =
        some (.os "os: process already finished") :=
  ⟨_, rfl, rfl, rfl, rfl⟩

/-- What `Stop` leaves behind for a registered id. -/
theorem stop_spec (env : StopEnv) (s : State) (id : String) (p : Nat)
    (hp : mapGet s.entries id = some p) :
    (Stop env s id).1.entries = s.entries ∧
    (Stop env s id).1.objs = Function.update s.objs p
      { s.objs p with status := StatusStopped, manuallyStopped := true } ∧
    (Stop env s id).1.cmds = s.cmds ∧
    (Stop env s id).1.loops = s.loops ∧
    (Stop env s id).1.starts = s.starts ∧
    (Stop env s id).1.nextObj = s.nextObj := by
  have h1 : Stop env s id =
      stopTerminate env
        (s.setObj p { s.objs p with status := StatusStopped, manuallyStopped := true })
        (s.objs p).cmd := by
    simp [Stop, stopLocked, hp]
  rw [h1]
  exact stopTerminate_frame env _ _

/-- The only error that `killProcess` returns is the one of `cmd.Process.Kill()`,
reached when `Getpgid` and `Process.Signal(SIGTERM)` have both failed. -/
theorem killProcess_error (os : Sys) (s : State) (c : Nat) (pid : Int)
    (hpr : (s.cmds c).Process = some pid) (e : Error) :
    (killProcess os s (some c)).2 = some e ↔
      os.getpgid pid = none ∧ os.procSignal pid .SIGTERM ≠ none ∧
      ∃ msg, os.procKill pid = some msg ∧ e = .os msg := by
  unfold killProcess
  simp only [hpr]
  cases hg : os.getpgid pid with
  | some pgid => cases hk : os.kill (-pgid) .SIGTERM <;> simp [hk]
  | none =>
    cases hs : os.procSignal pid .SIGTERM <;> cases hk : os.procKill pid <;>
      simp [hs, hk, eq_comm]

/-- The errors of `Stop` on POSIX, for a registered id: never `ErrNotFound`, and
an error exactly when the entry has a process handle, the child was not seen to
exit within the grace window, and in `killProcess` the calls `Getpgid` and
`Process.Signal(SIGTERM)` both fail and `cmd.Process.Kill()` fails too; the
error returned is the one of `cmd.Process.Kill()`. -/
theorem stop_error_posix (env : StopEnv) (s : State) (id : String) (p : Nat)
    (hp : mapGet s.entries id = some p) :
    (Stop env s id).2 ≠ some .ErrNotFound ∧
    ∀ e : Error, (Stop env s id).2 = some e ↔
      ∃ (c : Nat) (pid : Int) (msg : String),
        (s.objs p).cmd = some c ∧ (s.cmds c).Process = some pid ∧
        (env.doneFirst = false ∨ pollExited env.polls = false) ∧
        env.atKill.getpgid pid = none ∧
        env.atKill.procSignal pid .SIGTERM ≠ none ∧
        env.atKill.procKill pid = some msg ∧ e = .os msg := by
  have h1 : Stop env s id =
      stopTerminate env
        (s.setObj p { s.objs p with status := StatusStopped, manuallyStopped := true })
        (s.objs p).cmd := by
    simp [Stop, stopLocked, hp]
  have key : ∀ e : Error, (Stop env s id).2 = some e ↔
      ∃ (c : Nat) (pid : Int) (msg : String),
        (s.objs p).cmd = some c ∧ (s.cmds c).Process = some pid ∧
        (env.doneFirst = false ∨ pollExited env.polls = false) ∧
        env.atKill.getpgid pid = none ∧
        env.atKill.procSignal pid .SIGTERM ≠ none ∧
        env.atKill.procKill pid = some msg ∧ e = .os msg := by
    intro e
    rw [h1]
    cases hc : (s.objs p).cmd with
    | none => simp [stopTerminate]
    | some c =>
      cases hpr : (s.cmds c).Process with
      | none => simp [stopTerminate, hpr]
      | some pid =>
        have hgc : ((gracefulStop env.atGraceful
            (s.setObj p { s.objs p with status := StatusStopped, manuallyStopped := true })
            (some c)).cmds c).Process = some pid := by
          rw [(gracefulStop_frame _ _ _).2.2.1]
          exact hpr
        have hk := killProcess_error env.atKill _ c pid hgc e
        have hst : (stopTerminate env
            (s.setObj p { s.objs p with status := StatusStopped, manuallyStopped := true })
            (some c)).2 =
            if env.doneFirst = true ∧ pollExited env.polls = true then none
            else (killProcess env.atKill (gracefulStop env.atGraceful
              (s.setObj p { s.objs p with status := StatusStopped, manuallyStopped := true })
              (some c)) (some c)).2 := by
          unfold stopTerminate
          simp only [setObj_cmds, hpr]
          cases env.doneFirst <;> cases pollExited env.polls <;> simp
        rw [hst]
        by_cases hdp : env.doneFirst = true ∧ pollExited env.polls = true
        · rw [if_pos hdp]
          simp [hdp.1, hdp.2]
        · rw [if_neg hdp, hk]
          have hdp2 : env.doneFirst = false ∨ pollExited env.polls = false := by
            cases hd : env.doneFirst <;> cases hq : pollExited env.polls <;> simp_all
          constructor
          · rintro ⟨hg, hs, msg, hm, he⟩
            exact ⟨c, pid, msg, rfl, hpr, hdp2, hg, hs, hm, he⟩
          · rintro ⟨c2, pid2, msg, hc2, hp2, _, hg, hs, hm, he⟩
            cases hc2
            rw [hpr] at hp2
            cases hp2
            exact ⟨hg, hs, msg, hm, he⟩
  refine ⟨?_, key⟩
  intro h
  obtain ⟨_, _, msg, _, _, _, _, _, _, he⟩ := (key _).1 h
  cases he

/-- The Windows `gracefulStop` only adds to the history of system calls. -/
theorem gracefulStopWindows_cmds (os : WinSys) (s : State) (cmd : Option Nat) :
    (gracefulStopWindows os s cmd).cmds = s.cmds := by
  unfold gracefulStopWindows
  cases cmd with
  | none => rfl
  | some c =>
    cases hpr : (s.cmds c).Process with
    | none => simp [hpr]
    | some pid =>
      cases hl : os.loadDLL <;> cases hf : os.findProc <;> simp [hpr, State.call]

/-- The only error that the Windows `killProcess` returns is the one of
`cmd.Process.Kill()`, reached when `taskkill` has failed. -/
theorem killProcessWindows_error (os : WinSys) (s : State) (c : Nat) (pid : Int)
    (hpr : (s.cmds c).Process = some pid) (e : Error) :
    (killProcessWindows os s (some c)).2 = some e ↔
      os.taskkill pid ≠ none ∧ ∃ msg, os.procKill pid = some msg ∧ e = .os msg := by
  unfold killProcessWindows
  simp only [hpr]
  cases ht : os.taskkill pid <;> cases hk : os.procKill pid <;> simp [hk, eq_comm]

/-- The errors of `Stop` on Windows, for a registered id: never `ErrNotFound`,
and an error exactly when the entry has a process handle, the child was not
seen to exit within the grace window, and in `killProcess` the `taskkill`
command fails and `cmd.Process.Kill()` fails too; the error returned is the one
of `cmd.Process.Kill()`. -/
theorem stop_error_windows (env : WinStopEnv) (s : State) (id : String) (p : Nat)
    (hp : mapGet s.entries id = some p) :
    (StopWindows env s id).2 ≠ some .ErrNotFound ∧
    ∀ e : Error, (StopWindows env s id).2 = some e ↔
      ∃ (c : Nat) (pid : Int) (msg : String),
        (s.objs p).cmd = some c ∧ (s.cmds c).Process = some pid ∧
        (env.doneFirst = false ∨ pollExited env.polls = false) ∧
        env.atKill.taskkill pid ≠ none ∧
        env.atKill.procKill pid = some msg ∧ e = .os msg := by
  have h1 : StopWindows env s id =
      stopTerminateWindows env
        (s.setObj p { s.objs p with status := StatusStopped, manuallyStopped := true })
        (s.objs p).cmd := by
    simp [StopWindows, stopLocked, hp]
  have key : ∀ e : Error, (StopWindows env s id).2 = some e ↔
      ∃ (c : Nat) (pid : Int) (msg : String),
        (s.objs p).cmd = some c ∧ (s.cmds c).Process = some pid ∧
        (env.doneFirst = false ∨ pollExited env.polls = false) ∧
        env.atKill.taskkill pid ≠ none ∧
        env.atKill.procKill pid = some msg ∧ e = .os msg := by
    intro e
    rw [h1]
    cases hc : (s.objs p).cmd with
    | none => simp [stopTerminateWindows]
    | some c =>
      cases hpr : (s.cmds c).Process with
      | none => simp [stopTerminateWindows, hpr]
      | some pid =>
        have hgc : ((gracefulStopWindows env.atGraceful
            (s.setObj p { s.objs p with status := StatusStopped, manuallyStopped := true })
            (some c)).cmds c).Process = some pid := by
          rw [gracefulStopWindows_cmds]
          exact hpr
        have hk := killProcessWindows_error env.atKill _ c pid hgc e
        have hst : (stopTerminateWindows env
            (s.setObj p { s.objs p with status := StatusStopped, manuallyStopped := true })
            (some c)).2 =
            if env.doneFirst = true ∧ pollExited env.polls = true then none
            else (killProcessWindows env.atKill (gracefulStopWindows env.atGraceful
              (s.setObj p { s.objs p with status := StatusStopped, manuallyStopped := true })
              (some c)) (some c)).2 := by
          unfold stopTerminateWindows
          simp only [setObj_cmds, hpr]
          cases env.doneFirst <;> cases pollExited env.polls <;> simp
        rw [hst]
        by_cases hdp : env.doneFirst = true ∧ pollExited env.polls = true
        · rw [if_pos hdp]
          simp [hdp.1, hdp.2]
        · rw [if_neg hdp, hk]
          have hdp2 : env.doneFirst = false ∨ pollExited env.polls = false := by
            cases hd : env.doneFirst <;> cases hq : pollExited env.polls <;> simp_all
          constructor
          · rintro ⟨ht, msg, hm, he⟩
            exact ⟨c, pid, msg, rfl, hpr, hdp2, ht, hm, he⟩
          · rintro ⟨c2, pid2, msg, hc2, hp2, _, ht, hm, he⟩
            cases hc2
            rw [hpr] at hp2
            cases hp2
            exact ⟨ht, msg, hm, he⟩
  refine ⟨?_, key⟩
  intro h
  obtain ⟨_, _, msg, _, _, _, _, _, he⟩ := (key _).1 h
  cases he

/-- C14 (amended): for a registered id, on either platform, `Stop` never
returns `ErrNotFound`, and it returns an error exactly when the entry has a
process handle, the child was not seen to exit within the grace window, and
`killProcess` falls back to `cmd.Process.Kill()` and that call fails: on POSIX
after `Getpgid` and `Process.Signal(SIGTERM)` have both failed, on Windows after
the `taskkill` command has failed.  The error returned is the one of
`cmd.Process.Kill()`; in every other case `Stop` returns nil. -/
theorem stop_error_is_kill_error (env : StopEnv) (wenv : WinStopEnv) (s : State)
    (id : String) (p : Nat) (hp : mapGet s.entries id = some p) :
    ((Stop env s id).2 ≠ some .ErrNotFound ∧
      ∀ e : Error, (Stop env s id).2 = some e ↔
        ∃ (c : Nat) (pid : Int) (msg : String),
          (s.objs p).cmd = some c ∧ (s.cmds c).Process = some pid ∧
          (env.doneFirst = false ∨ pollExited env.polls = false) ∧
          env.atKill.getpgid pid = none ∧
          env.atKill.procSignal pid .SIGTERM ≠ none ∧
          env.atKill.procKill pid = some msg ∧ e = .os msg) ∧
    ((StopWindows wenv s id).2 ≠ some .ErrNotFound ∧
      ∀ e : Error, (StopWindows wenv s id).2 = some e ↔
        ∃ (c : Nat) (pid : Int) (msg : String),
          (s.objs p).cmd = some c ∧ (s.cmds c).Process = some pid ∧
          (wenv.doneFirst = false ∨ pollExited wenv.polls = false) ∧
          wenv.atKill.taskkill pid ≠ none ∧
          wenv.atKill.procKill pid = some msg ∧ e = .os msg) :=
  ⟨stop_error_posix env s id p hp, stop_error_windows wenv s id p hp⟩

/-- C12 (amended): for an entry whose loop is waiting for a live child with
pid `pid`, after `Stop` has returned, the child has exited and the loop has
observed the exit (it records the error, if any, finds the manual-stop flag and
returns), `Get` reports status `stopped` and the PID `pid` of the exited child:
the process handle is kept. -/
theorem stop_then_exit_keeps_pid (env : StopEnv) (w : World) (i : Nat) (id : String)
    (p c : Nat) (pid : Int) (err : Option String)
    (hl : w.st.loops[i]? = some id) (hpc : w.pc i = .running p c)
    (hp : mapGet w.st.entries id = some p) (hc : (w.st.objs p).cmd = some c)
    (hpr : (w.st.cmds c).Process = some pid) :
    ∃ w1 : World,
      execAll w [.stop env id, .cmdWait i err, .loop i, .loop i] = some w1 ∧
      w1.pc i = .done ∧
      ∃ snap : Snapshot, Get w1.st id = .ok snap ∧
        snap.Status = StatusStopped ∧ snap.PID = pid := by
  obtain ⟨he, ho, hcm, hlo, _, _⟩ := stop_spec env w.st id p hp
  generalize hs1 : (Stop env w.st id).1 = s1 at he ho hcm hlo
  have hp1 : mapGet s1.entries id = some p := by rw [he]; exact hp
  have hl1 : s1.loops[i]? = some id := by rw [hlo]; exact hl
  have hflag : ∀ t : State, t.entries = s1.entries → t.objs p =
      { s1.objs p with status := (t.objs p).status, lastError := (t.objs p).lastError } →
      t.cmds = s1.cmds →
      (runCheckStopped t p).2 = true ∧
      ∃ snap : Snapshot, Get (runCheckStopped t p).1 id = .ok snap ∧
        snap.Status = StatusStopped ∧ snap.PID = pid := by
    intro t hte hto htc
    have hm : (t.objs p).manuallyStopped = true := by rw [hto, ho]; simp
    have hcmd : (t.objs p).cmd = some c := by rw [hto, ho]; simpa using hc
    have hr : runCheckStopped t p =
        (t.setObj p { t.objs p with status := StatusStopped }, true) := by
      simp [runCheckStopped, hm]
    rw [hr]
    refine ⟨rfl, _, Get_of_mapGet _ id p (by rw [setObj_entries, hte]; exact hp1), ?_, ?_⟩
    · simp [snapshotOf]
    · simp [snapshotOf, pidOf, hcmd, htc, hcm, hpr]
  cases err with
  | none =>
    obtain ⟨h2, snap, hg, hst, hpid⟩ := hflag s1 rfl (by simp) rfl
    refine ⟨({ w with st := s1 }.goto i s1 (.exited p none)).goto i s1 (.check p)
      |>.goto i (runCheckStopped s1 p).1 .done, ?_, ?_, snap, hg, hst, hpid⟩
    · simp [execAll, exec, loopStep, hs1, hl1, hl, hpc, World.goto, h2]
    · simp [World.goto]
  | some msg =>
    have hre := recordError_eq s1 id msg p hp1
    obtain ⟨h2, snap, hg, hst, hpid⟩ := hflag (recordError s1 id msg)
      (by rw [hre]; rfl) (by rw [hre]; simp) (by rw [hre]; rfl)
    refine ⟨({ w with st := s1 }.goto i s1 (.exited p (some msg))).goto i
      (recordError s1 id msg) (.check p)
      |>.goto i (runCheckStopped (recordError s1 id msg) p).1 .done, ?_, ?_, snap, hg, hst, hpid⟩
    · have hl2 : (recordError s1 id msg).loops[i]? = some id := by rw [hre]; exact hl1
      simp [execAll, exec, loopStep, hs1, hl1, hl2, hl, hpc, World.goto, h2]
    · simp [World.goto]

/-- C12 (amended), at the scenario of the specification: the child of `svc`
ends on the SIGTERM of `Stop`. -/
theorem stop_then_exit_keeps_pid_witness :
    ∃ w1 : World,
      execAll svcRunning
        [.stop calmEnv "svc", .cmdWait 0 (some "signal: terminated"), .loop 0, .loop 0]
        = some w1 ∧
      w1.pc 0 = .done ∧
      ∃ snap : Snapshot, Get w1.st "svc" = .ok snap ∧
        snap.Status = StatusStopped ∧ snap.PID = 4242 :=
  stop_then_exit_keeps_pid calmEnv svcRunning 0 "svc" 0 0 4242 (some "signal: terminated")
    rfl rfl rfl rfl rfl

/-- C14 (amended), at a concrete input: the running child of `svc` that is
reaped just as the grace window ends, on POSIX and on Windows; both calls of
`Stop` return the error of `cmd.Process.Kill()`. -/
theorem stop_error_is_kill_error_witness :
    (Stop lateExitEnv svcRunning.st "svc").2 = some (.os "os: process already finished") ∧
    (StopWindows lateExitWinEnv svcRunning.st "svc").2 =
      some (.os "os: process already finished") ∧
    ((Stop lateExitEnv svcRunning.st "svc").2 ≠ some .ErrNotFound ∧
      ∀ e : Error, (Stop lateExitEnv svcRunning.st "svc").2 = some e ↔
        ∃ (c : Nat) (pid : Int) (msg : String),
          (svcRunning.st.objs 0).cmd = some c ∧ (svcRunning.st.cmds c).Process = some pid ∧
          (lateExitEnv.doneFirst = false ∨ pollExited lateExitEnv.polls = false) ∧
          lateExitEnv.atKill.getpgid pid = none ∧
          lateExitEnv.atKill.procSignal pid .SIGTERM ≠ none ∧
          lateExitEnv.atKill.procKill pid = some msg ∧ e = .os msg) ∧
    ((StopWindows lateExitWinEnv svcRunning.st "svc").2 ≠ some .ErrNotFound ∧
      ∀ e : Error, (StopWindows lateExitWinEnv svcRunning.st "svc").2 = some e ↔
        ∃ (c : Nat) (pid : Int) (msg : String),
          (svcRunning.st.objs 0).cmd = some c ∧ (svcRunning.st.cmds c).Process = some pid ∧
          (lateExitWinEnv.doneFirst = false ∨ pollExited lateExitWinEnv.polls = false) ∧
          lateExitWinEnv.atKill.taskkill pid ≠ none ∧
          lateExitWinEnv.atKill.procKill pid = some msg ∧ e = .os msg) :=
  ⟨rfl, rfl, stop_error_is_kill_error lateExitEnv lateExitWinEnv svcRunning.st "svc" 0 rfl⟩

/-- C16: a run in which a child is spawned after `StopAll` has returned and
without any `Start`.  The child of `svc` has crashed and its loop waits out the
cooldown, so the status is `errored`; `StopAll` collects no id and changes
nothing, and the loop then goes on to spawn the next child. -/
theorem stopAll_misses_cooldown :
    ∃ w0 w1 w2 : World,
      execAll World.init (upAndCrashed alwaysDef) = some w0 ∧
      w0.pc 0 = .cooldown ∧
      (w0.st.objs 0).status = StatusErrored ∧
      activeIds w0.st = [] ∧
      exec w0 (.stopAll (fun _ => calmEnv)) = some w1 ∧
      w1.st.starts = [0] ∧
      (w1.st.objs 0).manuallyStopped = false ∧
      execAll w1 [.loop 0, .loop 0, .cmdStart 0 (.ok 4243) true true] = some w2 ∧
      w2.st.starts = [0, 1] ∧ w2.liveChildren "svc" = [0] ∧ w2.st.loops = ["svc"] :=
  ⟨_, _, _, rfl, rfl, rfl, rfl, rfl, rfl, rfl, rfl, rfl, rfl, rfl⟩

/-- C18: two runs that reach a state with two active control loops and two
live children for the one id `svc`.  In the first, `Start` is called during the
restart cooldown of the first loop (status `errored`); in the second, it is
called after a `Stop` that left the child running, while the first loop still
waits for that child (status `stopped`).  Both times `Start` launches a second
loop, and each loop spawns a child. -/
theorem second_start_second_loop :
    (∃ w0 w1 : World,
      execAll World.init (upAndCrashed alwaysDef) = some w0 ∧
      w0.activeLoops "svc" = [0] ∧ w0.pc 0 = .cooldown ∧
      (w0.st.objs 0).status = StatusErrored ∧
      execAll w0 [.start "svc", .loop 1, .cmdStart 1 (.ok 4243) true true,
        .loop 0, .loop 0, .cmdStart 0 (.ok 4244) true true] = some w1 ∧
      w1.st.loops = ["svc", "svc"] ∧
      w1.activeLoops "svc" = [0, 1] ∧ w1.liveChildren "svc" = [0, 1]) ∧
    (∃ w0 w1 : World,
      execAll World.init (upAndRunning alwaysDef ++ [.stop stubbornEnv "svc"]) = some w0 ∧
      w0.activeLoops "svc" = [0] ∧ w0.liveChildren "svc" = [0] ∧
      (w0.st.objs 0).status = StatusStopped ∧
      execAll w0 [.start "svc", .loop 1, .cmdStart 1 (.ok 4243) true true] = some w1 ∧
      w1.st.loops = ["svc", "svc"] ∧
      w1.activeLoops "svc" = [0, 1] ∧ w1.liveChildren "svc" = [0, 1]) :=
  ⟨⟨_, _, rfl, rfl, rfl, rfl, rfl, rfl, rfl, rfl⟩,
   ⟨_, _, rfl, rfl, rfl, rfl, rfl, rfl, rfl, rfl⟩⟩

/-- C19, as stated, fails: after the locked section at the top of the first
iteration, and before any spawn was attempted, `Get` reports `running` with
PID 0; and when the spawn then fails the status is still `running` until the
loop records the error. -/
theorem running_before_spawn :
    ∃ w1 w2 w3 : World,
      execAll World.init [.register neverDef, .start "svc", .loop 0] = some w1 ∧
      w1.st.starts = [] ∧
      (∃ snap : Snapshot, Get w1.st "svc" = .ok snap ∧
        snap.Status = StatusRunning ∧ snap.PID = 0) ∧
      exec w1 (.cmdStart 0 (.error "exec: no such file") true true) = some w2 ∧
      (∃ snap : Snapshot, Get w2.st "svc" = .ok snap ∧
        snap.Status = StatusRunning ∧ snap.PID = 0) ∧
      exec w2 (.loop 0) = some w3 ∧
      (∃ snap : Snapshot, Get w3.st "svc" = .ok snap ∧ snap.Status = StatusErrored) :=
  ⟨_, _, _, rfl, rfl, ⟨_, rfl, rfl, rfl⟩, rfl, ⟨_, rfl, rfl, rfl⟩, rfl, ⟨_, rfl, rfl⟩⟩

/-- `Get` reads the registry map, the entry objects and the commands only. -/
theorem Get_congr (s t : State) (id : String) (he : t.entries = s.entries)
    (ho : t.objs = s.objs) (hc : t.cmds = s.cmds) : Get t id = Get s id := by
  unfold Get snapshotOf pidOf
  rw [he, ho, hc]

/-- C19 (amended): in an iteration of the control loop of a registered id the
status becomes `running` in the locked section at the top, before the spawn
is attempted, and `Get` then reports `running` with PID 0.  If the spawn fails,
`Get` still reports `running` with PID 0 until the loop records the error, and
`errored` after that; if the spawn succeeds, `Get` reports `running` with the
pid of the child. -/
theorem running_set_at_top (w : World) (i : Nat) (id : String) (p : Nat)
    (hl : w.st.loops[i]? = some id) (hpc : w.pc i = .top)
    (hp : mapGet w.st.entries id = some p) :
    ∃ w1 : World, exec w (.loop i) = some w1 ∧
      w1.st.starts = w.st.starts ∧
      (∃ snap : Snapshot, Get w1.st id = .ok snap ∧
        snap.Status = StatusRunning ∧ snap.PID = 0) ∧
      (∀ (msg : String) (so se : Bool), ∃ w2 w3 : World,
        exec w1 (.cmdStart i (.error msg) so se) = some w2 ∧
        w2.st.starts = w.st.starts ++ [w.st.nextCmd] ∧
        (∃ snap : Snapshot, Get w2.st id = .ok snap ∧
          snap.Status = StatusRunning ∧ snap.PID = 0) ∧
        exec w2 (.loop i) = some w3 ∧
        (∃ snap : Snapshot, Get w3.st id = .ok snap ∧
          snap.Status = StatusErrored ∧ snap.PID = 0)) ∧
      (∀ (pid : Int) (so se : Bool), ∃ w2 : World,
        exec w1 (.cmdStart i (.ok pid) so se) = some w2 ∧
        w2.st.starts = w.st.starts ++ [w.st.nextCmd] ∧
        ∃ snap : Snapshot, Get w2.st id = .ok snap ∧
          snap.Status = StatusRunning ∧ snap.PID = pid) := by
  have ht := runTop_eq w.st id p hp
  generalize htd : ({ w.st with
      objs := Function.update w.st.objs p { w.st.objs p with
        lastError := "", manuallyStopped := false, cmd := some w.st.nextCmd,
        status := StatusRunning }
      cmds := Function.update w.st.cmds w.st.nextCmd { Process := none }
      nextCmd := w.st.nextCmd + 1 } : State) = t at ht
  have hte : t.entries = w.st.entries := by rw [← htd]
  have hto : t.objs p = { w.st.objs p with
        lastError := "", manuallyStopped := false, cmd := some w.st.nextCmd,
        status := StatusRunning } := by rw [← htd]; simp
  have htc : (t.cmds w.st.nextCmd).Process = none := by rw [← htd]; simp
  have hts : t.starts = w.st.starts := by rw [← htd]
  have htl : t.loops = w.st.loops := by rw [← htd]
  have htp : mapGet t.entries id = some p := by rw [hte]; exact hp
  have hw1 : exec w (.loop i) =
      some (w.goto i t (.spawn p w.st.nextCmd w.st.logCallback)) := by
    simp [exec, loopStep, hl, hpc, ht]
  have hl1 : t.loops[i]? = some id := by rw [htl]; exact hl
  refine ⟨_, hw1, hts, ⟨_, Get_of_mapGet t id p htp, ?_, ?_⟩, ?_, ?_⟩
  · simp [snapshotOf, hto]
  · simp [snapshotOf, pidOf, hto, htc]
  · intro msg so se
    have he2 : exec (w.goto i t (.spawn p w.st.nextCmd w.st.logCallback))
        (.cmdStart i (.error msg) so se) =
        some ((w.goto i t (.spawn p w.st.nextCmd w.st.logCallback)).goto i
          (cmdStart t w.st.nextCmd (.error msg)) (.startErr msg)) := by
      simp [exec, hl1, World.goto]
    have hg2 : Get (cmdStart t w.st.nextCmd (.error msg)) id = Get t id :=
      Get_congr t _ id rfl rfl rfl
    have hp2 : mapGet (cmdStart t w.st.nextCmd (.error msg)).entries id = some p := htp
    have he3 : exec ((w.goto i t (.spawn p w.st.nextCmd w.st.logCallback)).goto i
          (cmdStart t w.st.nextCmd (.error msg)) (.startErr msg)) (.loop i) =
        some (((w.goto i t (.spawn p w.st.nextCmd w.st.logCallback)).goto i
          (cmdStart t w.st.nextCmd (.error msg)) (.startErr msg)).goto i
          (recordError (cmdStart t w.st.nextCmd (.error msg)) id msg) .policy) := by
      have hl2 : (cmdStart t w.st.nextCmd (.error msg)).loops[i]? = some id := hl1
      simp [exec, loopStep, World.goto, hl2]
    refine ⟨_, _, he2, ?_, ⟨_, hg2.trans (Get_of_mapGet t id p htp), ?_, ?_⟩, he3,
      ⟨_, Get_of_mapGet _ id p ?_, ?_, ?_⟩⟩
    · simp [World.goto, cmdStart, hts]
    · simp [snapshotOf, hto]
    · simp [snapshotOf, pidOf, hto, htc]
    · simp only [World.goto]
      rw [recordError_eq _ id msg p hp2]
      exact hp2
    · simp only [World.goto]
      rw [recordError_eq _ id msg p hp2]
      simp [snapshotOf]
    · simp only [World.goto]
      rw [recordError_eq _ id msg p hp2]
      simp [snapshotOf, pidOf, cmdStart, hto, htc]
  · intro pid so se
    obtain ⟨e1, o1, c1, _, _, _, _⟩ :=
      goStreamOutput_frame (cmdStart t w.st.nextCmd (.ok pid)) id "stdout" so w.st.logCallback
    obtain ⟨e2, o2, c2, t2, _, _, _⟩ :=
      goStreamOutput_frame
        (goStreamOutput (cmdStart t w.st.nextCmd (.ok pid)) id "stdout" so w.st.logCallback)
        id "stderr" se w.st.logCallback
    have t1 := (goStreamOutput_frame (cmdStart t w.st.nextCmd (.ok pid)) id "stdout" so
      w.st.logCallback).2.2.2.1
    generalize hu : goStreamOutput
        (goStreamOutput (cmdStart t w.st.nextCmd (.ok pid)) id "stdout" so w.st.logCallback)
        id "stderr" se w.st.logCallback = u at e2 o2 c2 t2
    have hue : u.entries = t.entries := by rw [e2, e1]; rfl
    have huo : u.objs = t.objs := by rw [o2, o1]; rfl
    have huc : (u.cmds w.st.nextCmd).Process = some pid := by
      rw [c2, c1]; simp [cmdStart, State.setCmd]
    have hus : u.starts = w.st.starts ++ [w.st.nextCmd] := by
      rw [t2, t1]; simp [cmdStart, State.setCmd, hts]
    have he2 : exec (w.goto i t (.spawn p w.st.nextCmd w.st.logCallback))
        (.cmdStart i (.ok pid) so se) =
        some ((w.goto i t (.spawn p w.st.nextCmd w.st.logCallback)).goto i u
          (.running p w.st.nextCmd)) := by
      simp [exec, hl1, World.goto, hu]
    refine ⟨_, he2, hus, _, Get_of_mapGet u id p (by rw [hue]; exact htp), ?_, ?_⟩
    · simp [snapshotOf, huo, hto]
    · simp [snapshotOf, pidOf, huo, hto, huc]

/-- C19 (amended), at a concrete input: the first iteration of the loop of a
freshly started entry. -/
theorem running_set_at_top_witness :
    ∃ w1 : World, exec svcStarting (.loop 0) = some w1 ∧
      w1.st.starts = svcStarting.st.starts ∧
      (∃ snap : Snapshot, Get w1.st "svc" = .ok snap ∧
        snap.Status = StatusRunning ∧ snap.PID = 0) ∧
      (∀ (msg : String) (so se : Bool), ∃ w2 w3 : World,
        exec w1 (.cmdStart 0 (.error msg) so se) = some w2 ∧
        w2.st.starts = svcStarting.st.starts ++ [svcStarting.st.nextCmd] ∧
        (∃ snap : Snapshot, Get w2.st "svc" = .ok snap ∧
          snap.Status = StatusRunning ∧ snap.PID = 0) ∧
        exec w2 (.loop 0) = some w3 ∧
        (∃ snap : Snapshot, Get w3.st "svc" = .ok snap ∧
          snap.Status = StatusErrored ∧ snap.PID = 0)) ∧
      (∀ (pid : Int) (so se : Bool), ∃ w2 : World,
        exec w1 (.cmdStart 0 (.ok pid) so se) = some w2 ∧
        w2.st.starts = svcStarting.st.starts ++ [svcStarting.st.nextCmd] ∧
        ∃ snap : Snapshot, Get w2.st "svc" = .ok snap ∧
          snap.Status = StatusRunning ∧ snap.PID = pid) :=
  running_set_at_top svcStarting 0 "svc" 0 rfl rfl rfl

/-! ## The representation invariant -/

theorem mem_of_mapGet (l : List (String × Nat)) (id : String) (p : Nat)
    (h : mapGet l id = some p) : (id, p) ∈ l := by
  induction l with
  | nil => simp [mapGet] at h
  | cons kv l ih =>
    obtain ⟨k, v⟩ := kv
    by_cases hk : k = id
    · simp [mapGet, hk] at h
      simp [hk, h]
    · simp only [mapGet, hk, if_false] at h
      exact List.mem_cons_of_mem _ (ih h)

theorem mapGet_of_mem (l : List (String × Nat)) (id : String) (p : Nat)
    (hn : (l.map Prod.fst).Nodup) (h : (id, p) ∈ l) : mapGet l id = some p := by
  induction l with
  | nil => simp at h
  | cons kv l ih =>
    obtain ⟨k, v⟩ := kv
    simp only [List.map_cons, List.nodup_cons] at hn
    rcases List.mem_cons.1 h with h1 | h1
    · cases h1
      simp [mapGet]
    · have hk : k ≠ id := by
        intro hk
        apply hn.1
        rw [hk]
        exact List.mem_map.2 ⟨(id, p), h1, rfl⟩
      simp only [mapGet, hk, if_false]
      exact ih hn.2 h1

/-- Under the invariant two ids stored at one address are the same id. -/
theorem Inv_injective (s : State) (h : s.Inv) (a b : String) (p : Nat)
    (ha : mapGet s.entries a = some p) (hb : mapGet s.entries b = some p) : a = b := by
  have h1 := List.inj_on_of_nodup_map h.2.1 (mem_of_mapGet _ _ _ ha) (mem_of_mapGet _ _ _ hb) rfl
  exact congrArg Prod.fst h1

/-- The invariant implies the allocation invariant. -/
theorem Inv_WF (s : State) (h : s.Inv) : s.WF :=
  fun id p hp => h.2.2.1 (id, p) (mem_of_mapGet _ _ _ hp)

/-- The invariant holds for a new manager. -/
theorem newManager_Inv : NewManager.Inv := by
  refine ⟨?_, ?_, ?_, ?_⟩ <;> simp [NewManager]

/-- The invariant is kept by `Register`. -/
theorem register_Inv (s : State) (d : Definition) (h : s.Inv) : (Register s d).Inv := by
  obtain ⟨hk, hv, hw, hid⟩ := h
  have hsub : List.Sublist (mapDelete s.entries d.ID) s.entries := List.filter_sublist _
  have hmem : ∀ kv ∈ mapDelete s.entries d.ID, kv ∈ s.entries ∧ kv.1 ≠ d.ID := by
    intro kv hkv
    simpa [mapDelete] using hkv
  refine ⟨?_, ?_, ?_, ?_⟩
  · simp only [Register, mapSet, List.map_cons, List.nodup_cons]
    refine ⟨?_, hk.sublist (hsub.map _)⟩
    intro hin
    obtain ⟨kv, hkv, he⟩ := List.mem_map.1 hin
    exact (hmem kv hkv).2 he
  · simp only [Register, mapSet, List.map_cons, List.nodup_cons]
    refine ⟨?_, hv.sublist (hsub.map _)⟩
    intro hin
    obtain ⟨kv, hkv, he⟩ := List.mem_map.1 hin
    have := hw kv (hmem kv hkv).1
    omega
  · intro kv hkv
    simp only [Register, mapSet, List.mem_cons] at hkv ⊢
    rcases hkv with h1 | h1
    · rw [h1]; simp
    · have := hw kv (hmem kv h1).1
      omega
  · intro kv hkv
    simp only [Register, mapSet, List.mem_cons] at hkv ⊢
    rcases hkv with h1 | h1
    · rw [h1]; simp
    · have hlt := hw kv (hmem kv h1).1
      have hne : kv.2 ≠ s.nextObj := Nat.ne_of_lt hlt
      rw [Function.update_noteq hne]
      exact hid kv (hmem kv h1).1

/-- The invariant only depends on the registry map, on the definitions of the
entry objects and on the allocation counter. -/
theorem Inv_congr (s t : State) (h : s.Inv) (he : t.entries = s.entries)
    (hn : t.nextObj = s.nextObj)
    (hd : ∀ q, (t.objs q).definition = (s.objs q).definition) : t.Inv := by
  obtain ⟨hk, hv, hw, hid⟩ := h
  refine ⟨by rw [he]; exact hk, by rw [he]; exact hv, ?_, ?_⟩
  · intro kv hkv
    rw [he] at hkv
    rw [hn]
    exact hw kv hkv
  · intro kv hkv
    rw [he] at hkv
    rw [hd]
    exact hid kv hkv

/-- The invariant is kept by `Stop`. -/
theorem stop_Inv (env : StopEnv) (s : State) (id : String) (h : s.Inv) :
    (Stop env s id).1.Inv := by
  cases hm : mapGet s.entries id with
  | none =>
    have h1 : Stop env s id = (s, some .ErrNotFound) := by simp [Stop, stopLocked, hm]
    rw [h1]
    exact h
  | some p =>
    obtain ⟨he, ho, _, _, _, hn⟩ := stop_spec env s id p hm
    refine Inv_congr s _ h he hn ?_
    intro q
    rw [ho]
    by_cases hq : q = p
    · subst hq; simp
    · rw [Function.update_noteq hq]

/-- The invariant is kept by `Start`. -/
theorem start_Inv (s : State) (id : String) (h : s.Inv) : (Start s id).1.Inv := by
  cases hm : mapGet s.entries id with
  | none =>
    have h1 : Start s id = (s, some .ErrNotFound) := by simp [Start, hm]
    rw [h1]
    exact h
  | some p =>
    by_cases ha : (s.objs p).status = StatusRunning ∨ (s.objs p).status = StatusStarting
    · have h1 : Start s id = (s, none) := by simp [Start, hm, ha]
      rw [h1]
      exact h
    · have h1 : Start s id =
          ({ s.setObj p { s.objs p with status := StatusStarting } with
              loops := s.loops ++ [id] }, none) := by
        simp [Start, hm, ha]
      rw [h1]
      refine Inv_congr s _ h rfl rfl ?_
      intro q
      by_cases hq : q = p
      · subst hq; simp [State.setObj]
      · simp [State.setObj, Function.update_noteq hq]

/-! ## StopAll and Unregister -/

/-- A sequence of `Stop` calls: the registry map is kept, and the entry object
at an address is marked stopped if one of the ids is stored there and is left
as it is otherwise. -/
theorem foldl_stop_spec (env : String → StopEnv) :
    ∀ (ids : List String) (s : State),
      (ids.foldl (fun st id => (Stop (env id) st id).1) s).entries = s.entries ∧
      (∀ q, (∃ id ∈ ids, mapGet s.entries id = some q) →
        (ids.foldl (fun st id => (Stop (env id) st id).1) s).objs q =
          { s.objs q with status := StatusStopped, manuallyStopped := true }) ∧
      (∀ q, (¬ ∃ id ∈ ids, mapGet s.entries id = some q) →
        (ids.foldl (fun st id => (Stop (env id) st id).1) s).objs q = s.objs q) := by
  intro ids
  induction ids with
  | nil =>
    intro s
    refine ⟨rfl, ?_, ?_⟩
    · rintro q ⟨id, hid, _⟩
      simp at hid
    · intro q _
      rfl
  | cons a rest ih =>
    intro s
    simp only [List.foldl_cons]
    cases hm : mapGet s.entries a with
    | none =>
      have h1 : (Stop (env a) s a).1 = s := by simp [Stop, stopLocked, hm]
      rw [h1]
      obtain ⟨ihe, ihs, ihn⟩ := ih s
      refine ⟨ihe, ?_, ?_⟩
      · rintro q ⟨id, hid, hq⟩
        apply ihs
        rcases List.mem_cons.1 hid with h2 | h2
        · subst h2
          rw [hm] at hq
          cases hq
        · exact ⟨id, h2, hq⟩
      · intro q hq
        apply ihn
        rintro ⟨id, hid, hq2⟩
        exact hq ⟨id, List.mem_cons_of_mem _ hid, hq2⟩
    | some p =>
      obtain ⟨he, ho, _, _, _, _⟩ := stop_spec (env a) s a p hm
      obtain ⟨ihe, ihs, ihn⟩ := ih (Stop (env a) s a).1
      rw [he] at ihe ihs ihn
      refine ⟨ihe, ?_, ?_⟩
      · intro q hq
        by_cases hr : ∃ id ∈ rest, mapGet s.entries id = some q
        · rw [ihs q hr, ho]
          by_cases hqp : q = p
          · subst hqp; simp
          · rw [Function.update_noteq hqp]
        · rw [ihn q hr, ho]
          obtain ⟨id, hid, hq2⟩ := hq
          rcases List.mem_cons.1 hid with h2 | h2
          · subst h2
            rw [hm] at hq2
            cases hq2
            simp
          · exact absurd ⟨id, h2, hq2⟩ hr
      · intro q hq
        have hr : ¬ ∃ id ∈ rest, mapGet s.entries id = some q := by
          rintro ⟨id, hid, hq2⟩
          exact hq ⟨id, List.mem_cons_of_mem _ hid, hq2⟩
        have hqp : q ≠ p := by
          intro hqp
          apply hq
          exact ⟨a, List.mem_cons_self _ _, by rw [hm, hqp]⟩
        rw [ihn q hr, ho, Function.update_noteq hqp]

/-- An id is collected by `StopAll` iff its entry is running or starting. -/
theorem mem_activeIds (s : State) (h : s.Inv) (id : String) (p : Nat)
    (hp : mapGet s.entries id = some p) :
    id ∈ activeIds s ↔ isActive (s.objs p).status := by
  unfold activeIds
  simp only [List.mem_map, List.mem_filter, decide_eq_true_eq]
  constructor
  · rintro ⟨kv, ⟨hkv, ha⟩, hk⟩
    have h2 := mapGet_of_mem s.entries kv.1 kv.2 h.1 hkv
    rw [hk, hp] at h2
    cases h2
    exact ha
  · intro ha
    exact ⟨(id, p), ⟨mem_of_mapGet _ _ _ hp, ha⟩, rfl⟩

/-- C15: for a registry with distinct ids and a registered id, stored at `p`,
after `StopAll` the id is still registered at `p` and its status is neither
`running` nor `starting`; an entry that was `running` or `starting` has become
`stopped` with the manual-stop flag set and nothing else changed, and every
other entry (`stopped`, `errored`) is exactly as it was. -/
theorem stopAll_effect (env : String → StopEnv) (s : State) (hinv : s.Inv)
    (id : String) (p : Nat) (hp : mapGet s.entries id = some p) :
    mapGet (StopAll env s).entries id = some p ∧
    ¬ isActive ((StopAll env s).objs p).status ∧
    (isActive (s.objs p).status →
      (StopAll env s).objs p =
        { s.objs p with status := StatusStopped, manuallyStopped := true }) ∧
    (¬ isActive (s.objs p).status → (StopAll env s).objs p = s.objs p) := by
  obtain ⟨he, hs, hn⟩ := foldl_stop_spec env (activeIds s) s
  have hiff : (∃ id' ∈ activeIds s, mapGet s.entries id' = some p) ↔
      isActive (s.objs p).status := by
    constructor
    · rintro ⟨id', hid', hp'⟩
      exact (mem_activeIds s hinv id' p hp').1 hid'
    · intro ha
      exact ⟨id, (mem_activeIds s hinv id p hp).2 ha, hp⟩
  have h3 : isActive (s.objs p).status →
      (StopAll env s).objs p =
        { s.objs p with status := StatusStopped, manuallyStopped := true } :=
    fun ha => hs p (hiff.2 ha)
  have h4 : ¬ isActive (s.objs p).status → (StopAll env s).objs p = s.objs p :=
    fun ha => hn p (fun hex => ha (hiff.1 hex))
  refine ⟨by unfold StopAll; rw [he]; exact hp, ?_, h3, h4⟩
  by_cases ha : isActive (s.objs p).status
  · rw [h3 ha]
    simp [isActive, StatusStopped, StatusRunning, StatusStarting]
  · rw [h4 ha]
    exact ha

/-- The invariant holds for the manager with two entries. -/
theorem twoEntries_Inv : twoEntries.Inv :=
  start_Inv _ _ (register_Inv _ _ (register_Inv _ _ newManager_Inv))

/-- C15, at a concrete input: the started entry `svc` of a manager that also
holds the entry `crash`, which was never started. -/
theorem stopAll_effect_witness :
    mapGet (StopAll (fun _ => calmEnv) twoEntries).entries "svc" = some 0 ∧
    ¬ isActive ((StopAll (fun _ => calmEnv) twoEntries).objs 0).status ∧
    (isActive (twoEntries.objs 0).status →
      (StopAll (fun _ => calmEnv) twoEntries).objs 0 =
        { twoEntries.objs 0 with status := StatusStopped, manuallyStopped := true }) ∧
    (¬ isActive (twoEntries.objs 0).status →
      (StopAll (fun _ => calmEnv) twoEntries).objs 0 = twoEntries.objs 0) :=
  stopAll_effect (fun _ => calmEnv) twoEntries twoEntries_Inv "svc" 0 rfl

/-- C17: for a registered id, `Unregister` returns nil; afterwards `Get` fails
with `ErrNotFound` for the id, `List` holds no snapshot whose definition has
this id, and every other id has the entry and the snapshot it had before.  If
the status was `running` or `starting`, the resulting state is the one that
`Stop` leaves, with the binding of the id deleted; otherwise it is the given
state with the binding deleted. -/
theorem unregister_effect (env : StopEnv) (s : State) (hinv : s.Inv)
    (id : String) (p : Nat) (hp : mapGet s.entries id = some p) :
    (Unregister env s id).2 = none ∧
    Get (Unregister env s id).1 id = .error .ErrNotFound ∧
    (∀ snap ∈ Manager.List (Unregister env s id).1, snap.Definition.ID ≠ id) ∧
    (∀ id', id' ≠ id →
      (Unregister env s id).1.lookup id' = s.lookup id' ∧
      Get (Unregister env s id).1 id' = Get s id') ∧
    (isActive (s.objs p).status →
      (Unregister env s id).1 =
        { (Stop env s id).1 with entries := mapDelete s.entries id }) ∧
    (¬ isActive (s.objs p).status →
      (Unregister env s id).1 = { s with entries := mapDelete s.entries id }) := by
  obtain ⟨he, ho, hc, _, _, _⟩ := stop_spec env s id p hp
  -- the state before the binding is deleted
  have hex : ∃ t : State,
      Unregister env s id = ({ t with entries := mapDelete s.entries id }, none) ∧
      t.cmds = s.cmds ∧
      (∀ q, q ≠ p → t.objs q = s.objs q) ∧
      (∀ q, (t.objs q).definition = (s.objs q).definition) ∧
      (isActive (s.objs p).status → t = (Stop env s id).1) ∧
      (¬ isActive (s.objs p).status → t = s) := by
    by_cases ha : isActive (s.objs p).status
    · refine ⟨(Stop env s id).1, ?_, hc, ?_, ?_, fun _ => rfl, fun h => absurd ha h⟩
      · have ha2 : (s.objs p).status = StatusRunning ∨ (s.objs p).status = StatusStarting := ha
        simp [Unregister, hp, ha2, he]
      · intro q hq
        rw [ho, Function.update_noteq hq]
      · intro q
        rw [ho]
        by_cases hq : q = p
        · subst hq; simp
        · rw [Function.update_noteq hq]
    · refine ⟨s, ?_, rfl, fun _ _ => rfl, fun _ => rfl, fun h => absurd h ha, fun _ => rfl⟩
      have ha2 : ¬ ((s.objs p).status = StatusRunning ∨ (s.objs p).status = StatusStarting) := ha
      simp [Unregister, hp, ha2]
  obtain ⟨t, hu, htc, hto, htd, hta, htn⟩ := hex
  rw [hu]
  refine ⟨rfl, ?_, ?_, ?_, ?_, ?_⟩
  · simp [Get, mapGet_mapDelete]
  · intro snap hsnap
    simp only [Manager.List, List.mem_map] at hsnap
    obtain ⟨kv, hkv, hs⟩ := hsnap
    have hkv2 : kv ∈ s.entries ∧ kv.1 ≠ id := by simpa [mapDelete] using hkv
    rw [← hs]
    simp only [snapshotOf]
    rw [htd, hinv.2.2.2 kv hkv2.1]
    exact hkv2.2
  · intro id' hid'
    have hg : mapGet (mapDelete s.entries id) id' = mapGet s.entries id' := by
      simp [mapGet_mapDelete, hid']
    cases hm : mapGet s.entries id' with
    | none => simp [State.lookup, Get, hg, hm]
    | some q =>
      have hq : q ≠ p := by
        intro hqp
        subst hqp
        exact hid' (Inv_injective s hinv id' id q hm hp)
      constructor
      · simp only [State.lookup, hg, hm, Option.map_some', hto q hq]
      · simp only [Get, hg, hm, snapshotOf, pidOf, hto q hq, htc]
  · intro ha
    rw [hta ha]
  · intro ha
    rw [htn ha]

/-- C17, at a concrete input: unregistering the started entry `svc` of the
manager with two entries. -/
theorem unregister_effect_witness :
    (Unregister calmEnv twoEntries "svc").2 = none ∧
    Get (Unregister calmEnv twoEntries "svc").1 "svc" = .error .ErrNotFound ∧
    (∀ snap ∈ Manager.List (Unregister calmEnv twoEntries "svc").1,
      snap.Definition.ID ≠ "svc") ∧
    (∀ id', id' ≠ "svc" →
      (Unregister calmEnv twoEntries "svc").1.lookup id' = twoEntries.lookup id' ∧
      Get (Unregister calmEnv twoEntries "svc").1 id' = Get twoEntries id') ∧
    (isActive (twoEntries.objs 0).status →
      (Unregister calmEnv twoEntries "svc").1 =
        { (Stop calmEnv twoEntries "svc").1 with entries := mapDelete twoEntries.entries "svc" }) ∧
    (¬ isActive (twoEntries.objs 0).status →
      (Unregister calmEnv twoEntries "svc").1 =
        { twoEntries with entries := mapDelete twoEntries.entries "svc" }) :=
  unregister_effect calmEnv twoEntries twoEntries_Inv "svc" 0 rfl

/-! ## The invariant in every reachable state -/

theorem keeps_refl (s : State) : s.keeps s := ⟨rfl, rfl, fun _ => rfl⟩

theorem keeps_trans (s t u : State) (h1 : s.keeps t) (h2 : t.keeps u) : s.keeps u :=
  ⟨h2.1.trans h1.1, h2.2.1.trans h1.2.1, fun q => (h2.2.2 q).trans (h1.2.2 q)⟩

theorem keeps_Inv (s t : State) (h : s.Inv) (hk : s.keeps t) : t.Inv :=
  Inv_congr s t h hk.1 hk.2.1 hk.2.2

/-- Writing an entry object without touching its definition. -/
theorem setObj_keeps (s : State) (p : Nat) (e : entry)
    (he : e.definition = (s.objs p).definition) : s.keeps (s.setObj p e) := by
  refine ⟨rfl, rfl, ?_⟩
  intro q
  by_cases hq : q = p
  · subst hq; simp [he]
  · rw [setObj_objs_other s p q e hq]

theorem recordError_keeps (s : State) (id msg : String) : s.keeps (recordError s id msg) := by
  unfold recordError
  cases mapGet s.entries id with
  | none => exact keeps_refl s
  | some p => exact setObj_keeps s p _ rfl

theorem shouldRestart_keeps (s : State) (id : String) : s.keeps (shouldRestart s id).1 := by
  unfold shouldRestart
  cases mapGet s.entries id with
  | none => exact keeps_refl s
  | some p =>
    dsimp only
    repeat' split
    all_goals exact setObj_keeps s p _ rfl

theorem runCheckStopped_keeps (s : State) (item : Nat) :
    s.keeps (runCheckStopped s item).1 := by
  unfold runCheckStopped
  split
  · exact setObj_keeps s item _ rfl
  · exact keeps_refl s

theorem waitForRetry_keeps (s : State) (id : String) : s.keeps (waitForRetry s id) := by
  rw [waitForRetry_eq]
  exact keeps_refl s

theorem cmdStart_keeps (s : State) (c : Nat) (r : Except String Int) :
    s.keeps (cmdStart s c r) := by
  cases r with
  | error e => exact ⟨rfl, rfl, fun _ => rfl⟩
  | ok pid => exact ⟨rfl, rfl, fun _ => rfl⟩

theorem goStreamOutput_keeps (s : State) (id stream : String) (pipe : Bool)
    (logCb : Option Nat) : s.keeps (goStreamOutput s id stream pipe logCb) := by
  obtain ⟨he, ho, _, _, hn, _, _⟩ := goStreamOutput_frame s id stream pipe logCb
  exact ⟨he, hn, fun q => by rw [ho]⟩

theorem runTop_keeps (s : State) (id : String) (t : State) (item cmd : Nat)
    (cb : Option Nat) (h : runTop s id = some (t, item, cmd, cb)) : s.keeps t := by
  cases hm : mapGet s.entries id with
  | none => simp [runTop, hm] at h
  | some p =>
    rw [runTop_eq s id p hm] at h
    simp only [Option.some.injEq, Prod.mk.injEq] at h
    rw [← h.1]
    refine ⟨rfl, rfl, ?_⟩
    intro q
    by_cases hq : q = p
    · subst hq; simp
    · simp [Function.update_noteq hq]

/-- The invariant is kept by deleting a binding. -/
theorem delete_Inv (s : State) (id : String) (h : s.Inv) :
    ({ s with entries := mapDelete s.entries id } : State).Inv := by
  obtain ⟨hk, hv, hw, hid⟩ := h
  have hsub : List.Sublist (mapDelete s.entries id) s.entries := List.filter_sublist _
  have hmem : ∀ kv ∈ mapDelete s.entries id, kv ∈ s.entries := fun kv hkv => hsub.subset hkv
  exact ⟨hk.sublist (hsub.map _), hv.sublist (hsub.map _),
    fun kv hkv => hw kv (hmem kv hkv), fun kv hkv => hid kv (hmem kv hkv)⟩

/-- The invariant is kept by `Unregister`. -/
theorem unregister_Inv (env : StopEnv) (s : State) (id : String) (h : s.Inv) :
    (Unregister env s id).1.Inv := by
  cases hm : mapGet s.entries id with
  | none =>
    have h1 : Unregister env s id = (s, some .ErrNotFound) := by simp [Unregister, hm]
    rw [h1]
    exact h
  | some p =>
    by_cases ha : (s.objs p).status = StatusRunning ∨ (s.objs p).status = StatusStarting
    · have h1 : Unregister env s id =
          ({ (Stop env s id).1 with entries := mapDelete (Stop env s id).1.entries id }, none) := by
        simp [Unregister, hm, ha]
      rw [h1]
      exact delete_Inv _ id (stop_Inv env s id h)
    · have h1 : Unregister env s id = ({ s with entries := mapDelete s.entries id }, none) := by
        simp [Unregister, hm, ha]
      rw [h1]
      exact delete_Inv s id h

/-- The invariant is kept by `StopAll`. -/
theorem stopAll_Inv (env : String → StopEnv) (s : State) (h : s.Inv) :
    (StopAll env s).Inv := by
  unfold StopAll
  generalize activeIds s = ids
  induction ids generalizing s with
  | nil => exact h
  | cons a rest ih => exact ih _ (stop_Inv (env a) s a h)

/-- The invariant is kept by every step of the system. -/
theorem exec_Inv (w w1 : World) (a : Step) (h : w.st.Inv) (he : exec w a = some w1) :
    w1.st.Inv := by
  cases a with
  | register d =>
    simp only [exec, Option.some.injEq] at he
    rw [← he]
    exact register_Inv _ _ h
  | start id =>
    simp only [exec, Option.some.injEq] at he
    rw [← he]
    exact start_Inv _ _ h
  | stop env id =>
    simp only [exec, Option.some.injEq] at he
    rw [← he]
    exact stop_Inv _ _ _ h
  | stopAll env =>
    simp only [exec, Option.some.injEq] at he
    rw [← he]
    exact stopAll_Inv _ _ h
  | unregister env id =>
    simp only [exec, Option.some.injEq] at he
    rw [← he]
    exact unregister_Inv _ _ _ h
  | loop i =>
    simp only [exec] at he
    cases hl : w.st.loops[i]? with
    | none => simp [hl] at he
    | some id =>
      simp only [hl, loopStep] at he
      cases hpc : w.pc i with
      | top =>
        simp only [hpc] at he
        cases ht : runTop w.st id with
        | none =>
          simp only [ht, Option.some.injEq] at he
          rw [← he]
          exact h
        | some r =>
          obtain ⟨t, item, cmd, cb⟩ := r
          simp only [ht, Option.some.injEq] at he
          rw [← he]
          exact keeps_Inv _ _ h (runTop_keeps _ _ _ _ _ _ ht)
      | startErr msg =>
        simp only [hpc, Option.some.injEq] at he
        rw [← he]
        exact keeps_Inv _ _ h (recordError_keeps _ _ _)
      | exited item err =>
        simp only [hpc] at he
        cases err with
        | none =>
          simp only [Option.some.injEq] at he
          rw [← he]
          exact h
        | some msg =>
          simp only [Option.some.injEq] at he
          rw [← he]
          exact keeps_Inv _ _ h (recordError_keeps _ _ _)
      | check item =>
        simp only [hpc] at he
        split at he
        · simp only [Option.some.injEq] at he
          rw [← he]
          exact keeps_Inv _ _ h (runCheckStopped_keeps _ _)
        · simp only [Option.some.injEq] at he
          rw [← he]
          exact keeps_Inv _ _ h (runCheckStopped_keeps _ _)
      | policy =>
        simp only [hpc] at he
        split at he
        · simp only [Option.some.injEq] at he
          rw [← he]
          exact keeps_Inv _ _ h (shouldRestart_keeps _ _)
        · simp only [Option.some.injEq] at he
          rw [← he]
          exact keeps_Inv _ _ h (shouldRestart_keeps _ _)
      | cooldown =>
        simp only [hpc, Option.some.injEq] at he
        rw [← he]
        exact keeps_Inv _ _ h (waitForRetry_keeps _ _)
      | spawn item cmd cb => simp [hpc] at he
      | running item cmd => simp [hpc] at he
      | done => simp [hpc] at he
  | cmdStart i r so se =>
    simp only [exec] at he
    cases hl : w.st.loops[i]? with
    | none => simp [hl] at he
    | some id =>
      cases hpc : w.pc i with
      | spawn item cmd cb =>
        simp only [hl, hpc] at he
        cases r with
        | error msg =>
          simp only [Option.some.injEq] at he
          rw [← he]
          exact keeps_Inv _ _ h (cmdStart_keeps _ _ _)
        | ok pid =>
          simp only [Option.some.injEq] at he
          rw [← he]
          exact keeps_Inv _ _ h
            (keeps_trans _ _ _ (keeps_trans _ _ _ (cmdStart_keeps _ _ _)
              (goStreamOutput_keeps _ _ _ _ _)) (goStreamOutput_keeps _ _ _ _ _))
      | top => simp [hl, hpc] at he
      | startErr msg => simp [hl, hpc] at he
      | running item cmd => simp [hl, hpc] at he
      | exited item err => simp [hl, hpc] at he
      | check item => simp [hl, hpc] at he
      | policy => simp [hl, hpc] at he
      | cooldown => simp [hl, hpc] at he
      | done => simp [hl, hpc] at he
  | cmdWait i err =>
    simp only [exec] at he
    cases hl : w.st.loops[i]? with
    | none => simp [hl] at he
    | some id =>
      cases hpc : w.pc i with
      | running item cmd =>
        simp only [hl, hpc, Option.some.injEq] at he
        rw [← he]
        exact h
      | top => simp [hl, hpc] at he
      | startErr msg => simp [hl, hpc] at he
      | spawn item cmd cb => simp [hl, hpc] at he
      | exited item err => simp [hl, hpc] at he
      | check item => simp [hl, hpc] at he
      | policy => simp [hl, hpc] at he
      | cooldown => simp [hl, hpc] at he
      | done => simp [hl, hpc] at he
  | setLogCallback cb =>
    simp only [exec, Option.some.injEq] at he
    rw [← he]
    exact h

/-- The invariant holds in every state that a run of the system reaches from a
state with the invariant. -/
theorem execAll_Inv (steps : List Step) : ∀ (w w1 : World), w.st.Inv →
    execAll w steps = some w1 → w1.st.Inv := by
  induction steps with
  | nil =>
    intro w w1 h he
    simp only [execAll, Option.some.injEq] at he
    rw [← he]
    exact h
  | cons a rest ih =>
    intro w w1 h he
    simp only [execAll] at he
    cases hx : exec w a with
    | none => simp [hx] at he
    | some w2 =>
      simp only [hx] at he
      exact ih w2 w1 (exec_Inv w w2 a h hx) he

/-- The invariant, and with it the allocation invariant, holds in every state
reachable from a new manager. -/
theorem reachable_Inv (steps : List Step) (w : World)
    (h : execAll World.init steps = some w) : w.st.Inv ∧ w.st.WF :=
  ⟨execAll_Inv steps _ w newManager_Inv h,
   Inv_WF _ (execAll_Inv steps _ w newManager_Inv h)⟩

/-! ## The loop run alone, step by step -/

theorem recordError_loops (s : State) (id msg : String) :
    (recordError s id msg).loops = s.loops := by
  unfold recordError
  cases mapGet s.entries id <;> rfl

theorem runCheckStopped_loops (s : State) (item : Nat) :
    (runCheckStopped s item).1.loops = s.loops := by
  unfold runCheckStopped
  split <;> rfl

/-- The steps of one iteration of loop `i`, taken one after the other with no
step of another goroutine in between, lead to the state that `runBody` computes
for the same outcome; the loop is then in its cooldown if `runBody` says that
it goes on, and has returned otherwise. -/
theorem exec_iteration_eq_runBody (w : World) (i : Nat) (id : String) (p : Nat)
    (hl : w.st.loops[i]? = some id) (hpc : w.pc i = .top)
    (hp : mapGet w.st.entries id = some p) :
    (∀ (msg : String) (so se : Bool),
      (execAll w [.loop i, .cmdStart i (.error msg) so se, .loop i, .loop i]).map
          (fun w1 => (w1.st, w1.pc i)) =
        some ((runBody (.startFails msg) w.st id).1,
          if (runBody (.startFails msg) w.st id).2 then .cooldown else .done)) ∧
    (∀ (pid : Int) (so se : Bool) (err : Option String),
      (execAll w [.loop i, .cmdStart i (.ok pid) so se, .cmdWait i err,
          .loop i, .loop i, .loop i]).map (fun w1 => (w1.st, w1.pc i)) =
        some ((runBody (.exits pid so se err) w.st id).1,
          if (runBody (.exits pid so se err) w.st id).2 then .cooldown else .done)) := by
  obtain ⟨t, ht, hte, hto, _, _, htl, _⟩ := runTop_spec w.st id p hp
  have hl1 : t.loops[i]? = some id := by rw [htl]; exact hl
  constructor
  · intro msg so se
    have hl2 : (cmdStart t w.st.nextCmd (.error msg)).loops[i]? = some id := by
      rw [(cmdStart_frame _ _ _).2.2.2.2.1]; exact hl1
    have hl3 : (recordError (cmdStart t w.st.nextCmd (.error msg)) id msg).loops[i]? =
        some id := by
      rw [recordError_loops]; exact hl2
    cases hr : (shouldRestart
        (recordError (cmdStart t w.st.nextCmd (.error msg)) id msg) id).2 with
    | false =>
      simp [execAll, exec, loopStep, World.goto, hl, hpc, ht, hl1, hl2, hl3, hr, runBody]
    | true =>
      simp [execAll, exec, loopStep, World.goto, hl, hpc, ht, hl1, hl2, hl3, hr, runBody,
        waitForRetry_eq]
  · intro pid so se err
    obtain ⟨_, o1, _, _, l1, _⟩ := cmdStart_frame t w.st.nextCmd (.ok pid)
    obtain ⟨_, o2, _, _, _, l2, _⟩ :=
      goStreamOutput_frame (cmdStart t w.st.nextCmd (.ok pid)) id "stdout" so w.st.logCallback
    obtain ⟨_, o3, _, _, _, l3, _⟩ :=
      goStreamOutput_frame
        (goStreamOutput (cmdStart t w.st.nextCmd (.ok pid)) id "stdout" so w.st.logCallback)
        id "stderr" se w.st.logCallback
    have hup0 : mapGet (goStreamOutput
        (goStreamOutput (cmdStart t w.st.nextCmd (.ok pid)) id "stdout" so w.st.logCallback)
        id "stderr" se w.st.logCallback).entries id = some p := by
      rw [(goStreamOutput_frame _ _ _ _ _).1, (goStreamOutput_frame _ _ _ _ _).1,
        (cmdStart_frame _ _ _).1, hte]
      exact hp
    generalize hu : goStreamOutput
        (goStreamOutput (cmdStart t w.st.nextCmd (.ok pid)) id "stdout" so w.st.logCallback)
        id "stderr" se w.st.logCallback = u at o3 l3 hup0
    have huo : u.objs = t.objs := by rw [o3, o2, o1]
    have hul : u.loops[i]? = some id := by rw [l3, l2, l1]; exact hl1
    cases err with
    | none =>
      have hc : runCheckStopped u p = (u, false) := by
        simp [runCheckStopped, huo, hto]
      cases hr : (shouldRestart u id).2 with
      | false =>
        simp [execAll, exec, loopStep, World.goto, hl, hpc, ht, hl1, hu, hul, hc, hr, runBody]
      | true =>
        simp [execAll, exec, loopStep, World.goto, hl, hpc, ht, hl1, hu, hul, hc, hr, runBody,
          waitForRetry_eq]
    | some msg =>
      have hre := recordError_eq u id msg p hup0
      have hl4 : (recordError u id msg).loops[i]? = some id := by
        rw [recordError_loops]; exact hul
      have hc : runCheckStopped (recordError u id msg) p = (recordError u id msg, false) := by
        rw [hre]
        simp [runCheckStopped, huo, hto]
      cases hr : (shouldRestart (recordError u id msg) id).2 with
      | false =>
        simp [execAll, exec, loopStep, World.goto, hl, hpc, ht, hl1, hu, hul, hl4, hc, hr,
          runBody]
      | true =>
        simp [execAll, exec, loopStep, World.goto, hl, hpc, ht, hl1, hu, hul, hl4, hc, hr,
          runBody, waitForRetry_eq]

/-! ## List and Get -/

/-- C25: for every registry state with the invariant, `List` returns one
snapshot per entry of the registry, their ids are the registered ids, each
once, and a snapshot is in the list exactly when `Get` returns it for its id.
`List` and `Get` are functions of the state that return no new state: they
leave the registry as it is. -/
theorem list_agrees_with_get (s : State) (h : s.Inv) :
    (Manager.List s).length = s.entries.length ∧
    (Manager.List s).map (fun snap => snap.Definition.ID) = s.entries.map Prod.fst ∧
    ((Manager.List s).map (fun snap => snap.Definition.ID)).Nodup ∧
    (∀ snap ∈ Manager.List s, Get s snap.Definition.ID = .ok snap) ∧
    (∀ (id : String) (snap : Snapshot), Get s id = .ok snap →
      snap ∈ Manager.List s ∧ snap.Definition.ID = id) := by
  obtain ⟨hk, _, _, hid⟩ := h
  have hids : (Manager.List s).map (fun snap => snap.Definition.ID) = s.entries.map Prod.fst := by
    simp only [Manager.List, List.map_map]
    apply List.map_congr_left
    intro kv hkv
    simp only [Function.comp_apply, snapshotOf]
    exact hid kv hkv
  refine ⟨by simp [Manager.List], hids, by rw [hids]; exact hk, ?_, ?_⟩
  · intro snap hsnap
    simp only [Manager.List, List.mem_map] at hsnap
    obtain ⟨kv, hkv, rfl⟩ := hsnap
    have h1 : (snapshotOf s (s.objs kv.2)).Definition.ID = kv.1 := by
      simp only [snapshotOf]; exact hid kv hkv
    rw [h1]
    exact Get_of_mapGet s kv.1 kv.2 (mapGet_of_mem s.entries kv.1 kv.2 hk hkv)
  · intro id snap hg
    cases hm : mapGet s.entries id with
    | none => simp [Get, hm] at hg
    | some p =>
      rw [Get_of_mapGet s id p hm] at hg
      have hmem := mem_of_mapGet s.entries id p hm
      have hsnap : snap = snapshotOf s (s.objs p) := by
        injection hg with hg; exact hg.symm
      subst hsnap
      refine ⟨?_, ?_⟩
      · simp only [Manager.List, List.mem_map]
        exact ⟨(id, p), hmem, rfl⟩
      · simp only [snapshotOf]; exact hid (id, p) hmem

/-- C25, at a concrete input: a manager with the two entries `svc` and `crash`. -/
theorem list_agrees_with_get_witness :
    twoEntries.Inv ∧
    (Manager.List twoEntries).length = twoEntries.entries.length ∧
    (Manager.List twoEntries).map (fun snap => snap.Definition.ID) =
      twoEntries.entries.map Prod.fst ∧
    ((Manager.List twoEntries).map (fun snap => snap.Definition.ID)).Nodup ∧
    (∀ snap ∈ Manager.List twoEntries, Get twoEntries snap.Definition.ID = .ok snap) ∧
    (∀ (id : String) (snap : Snapshot), Get twoEntries id = .ok snap →
      snap ∈ Manager.List twoEntries ∧ snap.Definition.ID = id) :=
  ⟨twoEntries_Inv, list_agrees_with_get twoEntries twoEntries_Inv⟩

/-! ## The empty restart policy -/

/-- C28: for every state and id, `shouldRestart` on the entry with the empty
restart policy returns the decision it returns on the same entry with the
policy `on_failure`, and leaves the same status, restart counter, last error,
command and manual-stop flag in the entry. -/
theorem empty_policy_is_on_failure (s : State) (id : String) :
    (shouldRestart (withPolicy s id "") id).2 =
      (shouldRestart (withPolicy s id RestartOnFailure) id).2 ∧
    ((shouldRestart (withPolicy s id "") id).1.lookup id).map
        (fun e => (e.status, e.restarts, e.lastError, e.cmd, e.manuallyStopped)) =
      ((shouldRestart (withPolicy s id RestartOnFailure) id).1.lookup id).map
        (fun e => (e.status, e.restarts, e.lastError, e.cmd, e.manuallyStopped)) := by
  cases hm : mapGet s.entries id with
  | none =>
    simp [withPolicy, hm, shouldRestart, State.lookup]
  | some p =>
    have h1 : mapGet (withPolicy s id "").entries id = some p := by
      simp [withPolicy, hm]
    have h2 : mapGet (withPolicy s id RestartOnFailure).entries id = some p := by
      simp [withPolicy, hm]
    have o1 : (withPolicy s id "").objs p =
        { s.objs p with definition := { (s.objs p).definition with RestartPolicy := "" } } := by
      simp [withPolicy, hm]
    have o2 : (withPolicy s id RestartOnFailure).objs p =
        { s.objs p with
          definition := { (s.objs p).definition with RestartPolicy := RestartOnFailure } } := by
      simp [withPolicy, hm]
    generalize withPolicy s id "" = a at h1 o1
    generalize withPolicy s id RestartOnFailure = b at h2 o2
    unfold shouldRestart
    rw [h1, h2]
    simp only [o1, o2, State.lookup]
    by_cases he : (s.objs p).lastError = ""
    · simp [he, RestartOnFailure, RestartNever, h1, h2]
    · by_cases hc : (s.objs p).definition.MaxRetries > 0 ∧
          (s.objs p).restarts + 1 > (s.objs p).definition.MaxRetries
      · simp [he, hc, RestartOnFailure, RestartNever, h1, h2]
      · simp [he, hc, RestartOnFailure, RestartNever, h1, h2]

/-! ## Registration over a live entry -/

/-- C30: a run in which `Register` is called with the id of an entry whose
child (pid 4242) is running.  Before the call `Get` shows the PID 4242; after it
the entry is a new object without process handle, `Get` shows PID 0, and the
following `Stop` returns nil without a single request to the operating system,
while the loop of the old entry still waits for the running child.  The same
holds in every state: `Stop` right after `Register` of the id sends nothing. -/
theorem register_drops_handle :
    (∃ w0 w1 w2 : World,
      execAll World.init (upAndRunning alwaysDef) = some w0 ∧
      w0.liveChildren "svc" = [0] ∧
      (∃ snap, Get w0.st "svc" = .ok snap ∧ snap.Status = StatusRunning ∧ snap.PID = 4242) ∧
      exec w0 (.register alwaysDef) = some w1 ∧
      (∃ snap, Get w1.st "svc" = .ok snap ∧ snap.Status = StatusStopped ∧ snap.PID = 0) ∧
      (Stop stubbornEnv w1.st "svc").2 = none ∧
      exec w1 (.stop stubbornEnv "svc") = some w2 ∧
      w2.st.signals = [] ∧ w2.liveChildren "svc" = [0]) ∧
    (∀ (s : State) (d : Definition) (env : StopEnv),
      (Stop env (Register s d) d.ID).1.signals = s.signals ∧
      (Stop env (Register s d) d.ID).2 = none) := by
  refine ⟨⟨_, _, _, rfl, rfl, ⟨_, rfl, rfl, rfl⟩, rfl, ⟨_, rfl, rfl, rfl⟩, rfl, rfl, rfl, rfl⟩, ?_⟩
  intro s d env
  have h : stopLocked (Register s d) d.ID =
      some ((Register s d).setObj s.nextObj
        { (Register s d).objs s.nextObj with
          status := StatusStopped, manuallyStopped := true }, none) := by
    simp [stopLocked, Register, mapGet_mapSet]
  simp only [Stop, h]
  rw [stopTerminate_no_handle env _ none (Or.inl rfl)]
  exact ⟨rfl, rfl⟩

/-! ## The environment of the child -/

theorem takeWhile_ne_append (c : Char) (l rest : List Char) (h : c ∉ l) :
    (l ++ c :: rest).takeWhile (fun x => x ≠ c) = l := by
  induction l with
  | nil => simp
  | cons a l ih =>
    have ha : a ≠ c := fun e => h (by simp [e])
    have hl : c ∉ l := fun e => h (List.mem_cons_of_mem _ e)
    have h2 := ih hl
    simp only [List.cons_append, List.takeWhile_cons, ne_eq, ha, not_false_eq_true,
      decide_True, if_true]
    rw [h2]

theorem dropWhile_ne_append (c : Char) (l rest : List Char) (h : c ∉ l) :
    (l ++ c :: rest).dropWhile (fun x => x ≠ c) = c :: rest := by
  induction l with
  | nil => simp
  | cons a l ih =>
    have ha : a ≠ c := fun e => h (by simp [e])
    have hl : c ∉ l := fun e => h (List.mem_cons_of_mem _ e)
    have h2 := ih hl
    simp only [List.cons_append, List.dropWhile_cons, ne_eq, ha, not_false_eq_true,
      decide_True, if_true]
    rw [h2]

theorem toList_item (k v : String) : (k ++ "=" ++ v).toList = k.toList ++ '=' :: v.toList := by
  simp [String.toList, String.data_append]

/-- The item built by `envFromMap` for a key without `=` names that key and
carries its value. -/
theorem itemKey_item (k v : String) (h : '=' ∉ k.toList) :
    itemKey (k ++ "=" ++ v) = k ∧ itemValue (k ++ "=" ++ v) = v := by
  unfold itemKey itemValue
  rw [toList_item, takeWhile_ne_append _ _ _ h, dropWhile_ne_append _ _ _ h]
  exact ⟨rfl, rfl⟩

theorem find_unique {α : Type} (p : α → Bool) (x : α) :
    ∀ l : List α, x ∈ l → p x = true → (∀ y ∈ l, p y = true → y = x) → l.find? p = some x := by
  intro l
  induction l with
  | nil => intro h; simp at h
  | cons a l ih =>
    intro hx hp hu
    by_cases ha : p a = true
    · have : a = x := hu a (List.mem_cons_self _ _) ha
      subst this
      simp [List.find?_cons, hp]
    · have hxa : x ∈ l := by
        rcases List.mem_cons.1 hx with e | e
        · subst e; exact absurd hp ha
        · exact e
      simp only [List.find?_cons, ha]
      exact ih hxa hp (fun y hy => hu y (List.mem_cons_of_mem _ hy))

theorem key_unique (l : List (String × String)) (hn : (l.map Prod.fst).Nodup)
    (a b : String × String) (ha : a ∈ l) (hb : b ∈ l) (h : a.1 = b.1) : a = b := by
  induction l with
  | nil => simp at ha
  | cons c l ih =>
    simp only [List.map_cons, List.nodup_cons] at hn
    rcases List.mem_cons.1 ha with e1 | e1 <;> rcases List.mem_cons.1 hb with e2 | e2
    · rw [e1, e2]
    · subst e1
      exact absurd (h ▸ List.mem_map_of_mem Prod.fst e2) hn.1
    · subst e2
      exact absurd (h ▸ List.mem_map_of_mem Prod.fst e1) hn.1
    · exact ih hn.2 e1 e2

/-- C26, as stated, fails: with the ambient list `A=x` and the one override of
key `A=B` and value `c`, the child's list is `A=x`, `A=B=c`.  No item of it is
an item for the key `A=B`, so the key of the override does not get its value;
and the last item for `A`, a variable without override, is `A=B=c`, so the
ambient value `x` of `A` is replaced by `B=c`. -/
theorem override_key_with_equals :
    commandEnv ["A=x"] oddKeyDef = ["A=x", "A=B=c"] ∧
    ("A=B", "c") ∈ oddKeyDef.Env ∧
    lookupEnv (commandEnv ["A=x"] oddKeyDef) "A=B" = none ∧
    "A" ∉ oddKeyDef.Env.map Prod.fst ∧
    lookupEnv ["A=x"] "A" = some "x" ∧
    lookupEnv (commandEnv ["A=x"] oddKeyDef) "A" = some "B=c" := by
  decide

/-- C26 (amended): for every ambient environment list and every definition, the
environment handed to the child is the ambient list followed by one item
`key=value` per override, and every ambient item is still in the list; when no
key of the override map (whose keys are distinct) contains `=`, the last item
for the key of every override carries its value, and a variable without
override has the value that the ambient list gives it. -/
theorem env_overrides_win (environ : List String) (d : Definition) :
    commandEnv environ d = environ ++ d.Env.map (fun kv => kv.1 ++ "=" ++ kv.2) ∧
    (commandEnv environ d).length = environ.length + d.Env.length ∧
    (∀ item ∈ environ, item ∈ commandEnv environ d) ∧
    ((d.Env.map Prod.fst).Nodup → (∀ kv ∈ d.Env, '=' ∉ kv.1.toList) →
      (∀ kv ∈ d.Env, lookupEnv (commandEnv environ d) kv.1 = some kv.2) ∧
      (∀ key, key ∉ d.Env.map Prod.fst →
        lookupEnv (commandEnv environ d) key = lookupEnv environ key)) := by
  have heq : commandEnv environ d = environ ++ d.Env.map (fun kv => kv.1 ++ "=" ++ kv.2) := by
    simp [commandEnv, envFromMap]
  refine ⟨heq, by simp [heq], ?_, ?_⟩
  · intro item hitem
    rw [heq]
    exact List.mem_append_left _ hitem
  intro hmap hkeys
  refine ⟨?_, ?_⟩
  · intro kv hkv
    have hfind : ((d.Env.map (fun kv => kv.1 ++ "=" ++ kv.2)).reverse.find?
        (fun item => decide (itemKey item = kv.1))) = some (kv.1 ++ "=" ++ kv.2) := by
      apply find_unique
      · simp only [List.mem_reverse, List.mem_map]
        exact ⟨kv, hkv, rfl⟩
      · simp [(itemKey_item kv.1 kv.2 (hkeys kv hkv)).1]
      · intro y hy hp
        simp only [List.mem_reverse, List.mem_map] at hy
        obtain ⟨kv2, hkv2, rfl⟩ := hy
        simp only [(itemKey_item kv2.1 kv2.2 (hkeys kv2 hkv2)).1, decide_eq_true_eq] at hp
        rw [key_unique d.Env hmap kv2 kv hkv2 hkv hp]
    simp only [lookupEnv, heq, List.reverse_append, List.find?_append, hfind, Option.or,
      Option.map_some']
    rw [(itemKey_item kv.1 kv.2 (hkeys kv hkv)).2]
  · intro key hkey
    have hfind : ((d.Env.map (fun kv => kv.1 ++ "=" ++ kv.2)).reverse.find?
        (fun item => decide (itemKey item = key))) = none := by
      rw [List.find?_eq_none]
      intro y hy
      simp only [List.mem_reverse, List.mem_map] at hy
      obtain ⟨kv2, hkv2, rfl⟩ := hy
      simp only [(itemKey_item kv2.1 kv2.2 (hkeys kv2 hkv2)).1, decide_eq_true_eq]
      intro e
      exact hkey (e ▸ List.mem_map_of_mem Prod.fst hkv2)
    simp only [lookupEnv, heq, List.reverse_append, List.find?_append, hfind, Option.or]

/-- C26 (amended), at a concrete input: `PATH` is overridden and `MODE` is added
to an ambient environment of three variables; the keys are distinct and without
`=`. -/
theorem env_overrides_win_witness :
    (envDef.Env.map Prod.fst).Nodup ∧ (∀ kv ∈ envDef.Env, '=' ∉ kv.1.toList) ∧
    commandEnv ambient envDef =
      ["HOME=/root", "PATH=/usr/bin", "LANG=C", "PATH=/opt/bin", "MODE=prod"] ∧
    lookupEnv (commandEnv ambient envDef) "PATH" = some "/opt/bin" ∧
    lookupEnv (commandEnv ambient envDef) "MODE" = some "prod" ∧
    lookupEnv (commandEnv ambient envDef) "HOME" = some "/root" ∧
    (commandEnv ambient envDef = ambient ++ envDef.Env.map (fun kv => kv.1 ++ "=" ++ kv.2) ∧
      (commandEnv ambient envDef).length = ambient.length + envDef.Env.length ∧
      (∀ item ∈ ambient, item ∈ commandEnv ambient envDef) ∧
      (∀ kv ∈ envDef.Env, lookupEnv (commandEnv ambient envDef) kv.1 = some kv.2) ∧
      (∀ key, key ∉ envDef.Env.map Prod.fst →
        lookupEnv (commandEnv ambient envDef) key = lookupEnv ambient key)) :=
  ⟨by decide, by decide, by decide, by decide, by decide, by decide,
    (env_overrides_win ambient envDef).1, (env_overrides_win ambient envDef).2.1,
    (env_overrides_win ambient envDef).2.2.1,
    (env_overrides_win ambient envDef).2.2.2 (by decide) (by decide)⟩

/-! ## The log callback -/

/-- A reader with a callback passes every line to it, in order. -/
theorem streamOutput_some (id stream : String) (lines : List String) (cb : Nat) :
    streamOutput id stream lines (some cb) = lines.map (fun line => (cb, id, stream, line)) := by
  induction lines with
  | nil => rfl
  | cons a rest ih =>
    simp only [streamOutput, Option.map_some', List.filterMap_cons, List.map_cons] at ih ⊢
    rw [ih]

/-- C24, as stated, fails: the child of `svc` is spawned while callback 1 is
installed; after `SetLogCallback` has installed callback 2, the two readers of
the running child still hold callback 1, and every line they read is passed to
callback 1. -/
theorem running_stream_keeps_callback :
    ∃ w : World,
      execAll World.init ([.setLogCallback (some 1)] ++ upAndRunning neverDef ++
        [.setLogCallback (some 2)]) = some w ∧
      w.st.logCallback = some 2 ∧
      w.liveChildren "svc" = [0] ∧
      w.st.readers = [{ id := "svc", stream := "stdout", callback := 1 },
                      { id := "svc", stream := "stderr", callback := 1 }] ∧
      ∀ r ∈ w.st.readers, r.calls ["hello", "world"] =
        [(1, "svc", r.stream, "hello"), (1, "svc", r.stream, "world")] := by
  refine ⟨_, rfl, rfl, rfl, rfl, ?_⟩
  intro r hr
  change r ∈ [({ id := "svc", stream := "stdout", callback := 1 } : Reader),
    { id := "svc", stream := "stderr", callback := 1 }] at hr
  simp only [List.mem_cons, List.mem_singleton, List.not_mem_nil, or_false] at hr
  rcases hr with rfl | rfl <;> rfl

/-- C24 (amended): the callback of a child's streams is the one installed when
the loop iteration that spawns the child begins.  For a loop at the top of an
iteration for a registered id, with callback `cb` installed: whatever callback
`f` is installed between the top and the spawn and again after the spawn, the
readers launched for the child hold `cb`, and each of them passes every line
it reads to `cb`. -/
theorem callback_captured_at_top (w : World) (i : Nat) (id : String) (p : Nat) (cb : Nat)
    (f : Option Nat) (pid : Int) (lines : List String)
    (hl : w.st.loops[i]? = some id) (hpc : w.pc i = .top)
    (hp : mapGet w.st.entries id = some p) (hcb : w.st.logCallback = some cb) :
    (execAll w [.loop i, .setLogCallback f, .cmdStart i (.ok pid) true true,
        .setLogCallback f]).map (fun w1 => (w1.st.logCallback, w1.pc i, w1.st.readers)) =
      some (f, .running p w.st.nextCmd, w.st.readers ++
        [{ id := id, stream := "stdout", callback := cb },
         { id := id, stream := "stderr", callback := cb }]) ∧
    ∀ r ∈ [({ id := id, stream := "stdout", callback := cb } : Reader),
           { id := id, stream := "stderr", callback := cb }],
      r.calls lines = lines.map (fun line => (cb, id, r.stream, line)) := by
  have ht := runTop_eq w.st id p hp
  generalize htd : ({ w.st with
      objs := Function.update w.st.objs p { w.st.objs p with
        lastError := "", manuallyStopped := false, cmd := some w.st.nextCmd,
        status := StatusRunning }
      cmds := Function.update w.st.cmds w.st.nextCmd { Process := none }
      nextCmd := w.st.nextCmd + 1 } : State) = t at ht
  have htl : t.loops = w.st.loops := by rw [← htd]
  have htr : t.readers = w.st.readers := by rw [← htd]
  have hl1 : t.loops[i]? = some id := by rw [htl]; exact hl
  refine ⟨?_, ?_⟩
  · simp [execAll, exec, loopStep, hl, hpc, ht, World.goto, SetLogCallback, hl1, hcb,
      goStreamOutput, cmdStart, State.setCmd, htr]
  · intro r hr
    simp only [List.mem_cons, List.mem_singleton, List.not_mem_nil, or_false] at hr
    rcases hr with rfl | rfl <;> exact streamOutput_some _ _ _ _

/-- C24 (amended), at a concrete input: the entry `svc` has been started while
callback 1 was installed, and callback 2 is installed before and after the spawn. -/
theorem callback_captured_at_top_witness :
    (execAll ((execAll World.init
          [.setLogCallback (some 1), .register neverDef, .start "svc"]).getD World.init)
        [.loop 0, .setLogCallback (some 2), .cmdStart 0 (.ok 4242) true true,
          .setLogCallback (some 2)]).map
        (fun w1 => (w1.st.logCallback, w1.pc 0, w1.st.readers)) =
      some (some 2, .running 0 0, [] ++
        [{ id := "svc", stream := "stdout", callback := 1 },
         { id := "svc", stream := "stderr", callback := 1 }]) ∧
    ∀ r ∈ [({ id := "svc", stream := "stdout", callback := 1 } : Reader),
           { id := "svc", stream := "stderr", callback := 1 }],
      r.calls ["hello"] = ["hello"].map (fun line => (1, "svc", r.stream, line)) :=
  callback_captured_at_top
    ((execAll World.init
      [.setLogCallback (some 1), .register neverDef, .start "svc"]).getD World.init)
    0 "svc" 0 1 (some 2) 4242 ["hello"] rfl rfl rfl rfl

/-! ## The status during the restart cooldown -/

/-- When `shouldRestart` permits the restart it only counts it: the status is
left as it was. -/
theorem shouldRestart_true (s : State) (id : String) (p : Nat)
    (hp : mapGet s.entries id = some p) (h : (shouldRestart s id).2 = true) :
    (shouldRestart s id).1 =
      s.setObj p { s.objs p with restarts := (s.objs p).restarts + 1 } := by
  unfold shouldRestart at h ⊢
  rw [hp] at h ⊢
  dsimp only at h ⊢
  generalize (if (s.objs p).definition.RestartPolicy = "" then RestartOnFailure
    else (s.objs p).definition.RestartPolicy) = pol at h ⊢
  by_cases h1 : pol = RestartNever
  · simp [h1] at h
  · by_cases h2 : pol = RestartOnFailure ∧ (s.objs p).lastError = ""
    · simp [h1, h2] at h
    · by_cases h3 : (s.objs p).definition.MaxRetries > 0 ∧
          (s.objs p).restarts + 1 > (s.objs p).definition.MaxRetries
      · simp [h1, h2, h3] at h
      · simp only [h1, h2, h3, if_false]

/-- C27, as stated, fails: two runs that reach the restart cooldown with no
child alive.  After a crash of the child the status shown by `Get` is `errored`;
after an exit without error under the policy `always` it is `running`.  It is
`starting` in neither. -/
theorem cooldown_status_not_starting :
    (∃ w : World,
      execAll World.init (upAndCrashed alwaysDef) = some w ∧
      w.pc 0 = .cooldown ∧ w.liveChildren "svc" = [] ∧
      ∃ snap : Snapshot, Get w.st "svc" = .ok snap ∧ snap.Status = StatusErrored ∧
        snap.Status ≠ StatusStarting) ∧
    (∃ w : World,
      execAll World.init (upAndRunning alwaysDef ++
        [.cmdWait 0 none, .loop 0, .loop 0, .loop 0]) = some w ∧
      w.pc 0 = .cooldown ∧ w.liveChildren "svc" = [] ∧
      ∃ snap : Snapshot, Get w.st "svc" = .ok snap ∧ snap.Status = StatusRunning ∧
        snap.Status ≠ StatusStarting) :=
  ⟨⟨_, rfl, rfl, rfl, _, rfl, rfl, by decide⟩, ⟨_, rfl, rfl, rfl, _, rfl, rfl, by decide⟩⟩

/-- C27 (amended): when an iteration of the control loop of a registered id ends,
after the exit of its child, in the decision to restart, the status that `Get`
reports during the cooldown is `errored` if the child exited with an error and
`running` if it exited without one; it is not `starting`; and the locked
section at the top of the next iteration sets it to `running`. -/
theorem restart_cooldown_status (s s1 : State) (id : String) (p : Nat) (pid : Int)
    (so se : Bool) (err : Option String) (hp : mapGet s.entries id = some p)
    (h : runBody (.exits pid so se err) s id = (s1, true)) :
    (∃ snap : Snapshot, Get s1 id = .ok snap ∧
      snap.Status = (if err = none then StatusRunning else StatusErrored) ∧
      snap.Status ≠ StatusStarting) ∧
    ∃ (t : State) (item cmd : Nat) (cb : Option Nat),
      runTop s1 id = some (t, item, cmd, cb) ∧
      ∃ snap : Snapshot, Get t id = .ok snap ∧ snap.Status = StatusRunning := by
  obtain ⟨s3, hb, he, ho, _⟩ := runBody_eq (.exits pid so se err) s id p hp
  have hp3 : mapGet s3.entries id = some p := by rw [he]; exact hp
  rw [h] at hb
  by_cases hr : (shouldRestart s3 id).2 = false
  · simp [hr] at hb
  · have hr2 : (shouldRestart s3 id).2 = true := by
      cases hx : (shouldRestart s3 id).2 with
      | true => rfl
      | false => exact absurd hx hr
    have hb2 : s1 = (shouldRestart s3 id).1 := by
      simp only [hr2] at hb
      exact (Prod.mk.inj hb).1
    have hs1 : s1 = s3.setObj p { s3.objs p with restarts := (s3.objs p).restarts + 1 } := by
      rw [hb2]; exact shouldRestart_true s3 id p hp3 hr2
    have hp1 : mapGet s1.entries id = some p := by rw [hs1]; exact hp3
    have hst : (s1.objs p).status = (if err = none then StatusRunning else StatusErrored) := by
      rw [hs1, setObj_objs_same, ho]
      simp [Outcome.errorText]
    refine ⟨⟨_, Get_of_mapGet s1 id p hp1, ?_, ?_⟩, ?_⟩
    · simpa [snapshotOf] using hst
    · simp only [snapshotOf, hst]
      split <;> decide
    · obtain ⟨t, ht, hte, hto, _⟩ := runTop_spec s1 id p hp1
      refine ⟨t, p, s1.nextCmd, s1.logCallback, ht, _,
        Get_of_mapGet t id p (by rw [hte]; exact hp1), ?_⟩
      simp [snapshotOf, hto]

/-- C27 (amended), at a concrete input: the first iteration for the entry `svc`
(policy `always`, cap 2), whose child exits with code 1. -/
theorem restart_cooldown_status_witness :
    (∃ snap : Snapshot,
      Get (runBody (.exits 4242 true true (some "exit status 1"))
        (Start (Register NewManager alwaysDef) "svc").1 "svc").1 "svc" = .ok snap ∧
      snap.Status = (if some "exit status 1" = none then StatusRunning else StatusErrored) ∧
      snap.Status ≠ StatusStarting) ∧
    ∃ (t : State) (item cmd : Nat) (cb : Option Nat),
      runTop (runBody (.exits 4242 true true (some "exit status 1"))
        (Start (Register NewManager alwaysDef) "svc").1 "svc").1 "svc" =
        some (t, item, cmd, cb) ∧
      ∃ snap : Snapshot, Get t "svc" = .ok snap ∧ snap.Status = StatusRunning :=
  restart_cooldown_status (Start (Register NewManager alwaysDef) "svc").1 _ "svc" 0 4242
    true true (some "exit status 1") rfl rfl

end process

namespace logging

/-! ## The recent-history buffer -/

/-- A `Push` into a buffer that holds at most `limit` entries keeps the last
`limit` entries of the extended buffer. -/
theorem push_eq (h : StreamHub) (e : Entry) (n : Nat) (hl : h.limit = n)
    (hle : h.entries.length ≤ n) :
    h.Push e = some { h with
      entries := (h.entries ++ [e]).drop ((h.entries ++ [e]).length - n) } := by
  unfold StreamHub.Push
  simp only [hl, List.length_append, List.length_singleton]
  by_cases hc : ((h.entries.length + 1 : Nat) : Int) > (n : Int)
  · have h1 : h.entries.length + 1 - n = 1 := by omega
    have h2 : (((h.entries.length + 1 : Nat) : Int) - (n : Int)).toNat = 1 := by omega
    have h3 : 0 ≤ ((h.entries.length + 1 : Nat) : Int) - (n : Int) ∧
        ((h.entries.length + 1 : Nat) : Int) - (n : Int) ≤ ((h.entries.length + 1 : Nat) : Int) := by
      omega
    simp only [hc, h3, h2, h1, and_self, if_true]
  · have h1 : h.entries.length + 1 - n = 0 := by omega
    simp only [hc, h1, if_false, List.drop_zero]

/-- Dropping down to the last `n` entries after each of two extensions is the
same as dropping once at the end. -/
theorem drop_drop_extend (A es : List Entry) (e : Entry) (n : Nat) :
    ((A ++ [e]).drop ((A ++ [e]).length - n) ++ es).drop
        (((A ++ [e]).drop ((A ++ [e]).length - n) ++ es).length - n) =
      (A ++ e :: es).drop ((A ++ e :: es).length - n) := by
  have hd : (A ++ [e]).length - n ≤ (A ++ [e]).length := Nat.sub_le _ _
  rw [← List.drop_append_of_le_length hd, List.drop_drop]
  have happ : A ++ [e] ++ es = A ++ e :: es := by simp
  rw [happ]
  have hk : (A ++ [e]).length - n +
      ((List.drop ((A ++ [e]).length - n) (A ++ e :: es)).length - n) =
      (A ++ e :: es).length - n := by
    have h1 : (A ++ [e]).length = A.length + 1 := by simp
    have h2 : (A ++ e :: es).length = A.length + 1 + es.length := by
      simp only [List.length_append, List.length_cons]
      omega
    rw [List.length_drop, h1, h2]
    omega
  rw [hk]

/-- A sequence of pushes into a buffer that holds at most `limit` entries
leaves the last `limit` entries of the extended buffer. -/
theorem pushAll_eq (n : Nat) : ∀ (es : List Entry) (h : StreamHub), h.limit = n →
    h.entries.length ≤ n →
    pushAll h es = some { h with
      entries := (h.entries ++ es).drop ((h.entries ++ es).length - n) } := by
  intro es
  induction es with
  | nil =>
    intro h _ hle
    have h1 : h.entries.length - n = 0 := by omega
    simp [pushAll, h1]
  | cons e es ih =>
    intro h hl hle
    have hp := push_eq h e n hl hle
    simp only [pushAll, hp]
    have hlen : ((h.entries ++ [e]).drop ((h.entries ++ [e]).length - n)).length ≤ n := by
      simp only [List.length_drop, List.length_append, List.length_singleton]
      omega
    rw [ih { entries := (h.entries ++ [e]).drop ((h.entries ++ [e]).length - n),
             limit := h.limit } hl hlen]
    simp only
    rw [drop_drop_extend]

/-- C20: for every limit `n ≥ 0` and every sequence `es` of entries pushed into
`NewStreamHub(n)`, the hub is created, no push fails, and `Snapshot` returns the
last `min(k, n)` entries of `es` in arrival order, `k` being the length of `es`;
it never returns more than `n` entries; and one more `Push` on a full buffer
returns the buffer extended by the new entry without its oldest entry. -/
theorem snapshot_last_entries (n : Nat) (es : List Entry) :
    ∃ h0 h : StreamHub, NewStreamHub n = some h0 ∧ pushAll h0 es = some h ∧
      h.Snapshot = es.drop (es.length - min es.length n) ∧
      h.Snapshot.length = min es.length n ∧
      h.Snapshot.length ≤ n ∧
      ∀ e : Entry, h.Snapshot.length = n →
        ∃ h1 : StreamHub, h.Push e = some h1 ∧
          h1.Snapshot = (h.Snapshot ++ [e]).drop 1 := by
  have h0 : NewStreamHub (n : Int) = some { entries := [], limit := n } := by
    simp [NewStreamHub]
  have hp := pushAll_eq n es { entries := [], limit := n } rfl (Nat.zero_le _)
  simp only [List.nil_append] at hp
  have hmin : es.length - min es.length n = es.length - n := by omega
  refine ⟨_, _, h0, hp, ?_, ?_, ?_, ?_⟩
  · simp only [StreamHub.Snapshot, hmin]
  · simp only [StreamHub.Snapshot, List.length_drop]
    omega
  · simp only [StreamHub.Snapshot, List.length_drop]
    omega
  · intro e hfull
    simp only [StreamHub.Snapshot] at hfull ⊢
    have hq := push_eq { entries := es.drop (es.length - n), limit := (n : Int) } e n rfl
      (by simp only [List.length_drop]; omega)
    refine ⟨_, hq, ?_⟩
    simp only [List.length_append, List.length_singleton, hfull]
    have h1 : n + 1 - n = 1 := by omega
    rw [h1]

/-- C20, at a concrete input: three lines pushed into a hub of limit 2, then a
fourth. -/
theorem snapshot_last_entries_witness :
    ∃ h0 h : StreamHub, NewStreamHub ((2 : Nat) : Int) = some h0 ∧
      pushAll h0 threeLines = some h ∧
      h.Snapshot = threeLines.drop (threeLines.length - min threeLines.length 2) ∧
      h.Snapshot.length = min threeLines.length 2 ∧
      h.Snapshot.length ≤ 2 ∧
      ∀ e : Entry, h.Snapshot.length = 2 →
        ∃ h1 : StreamHub, h.Push e = some h1 ∧
          h1.Snapshot = (h.Snapshot ++ [e]).drop 1 :=
  snapshot_last_entries 2 threeLines

/-! ## The rotating store -/

theorem modAt_of_getElem (files : List fileInfo) (i : Nat) (f : fileInfo)
    (h : files[i]? = some f) : modAt files i = f.mod := by
  simp [modAt, h]

/-- The scan keeps an index in range whose file is no newer than the file it
started from and than every file it visited. -/
theorem scan_spec (files : List fileInfo) (is : List Nat) :
    ∀ o : Nat, o < files.length → (∀ i ∈ is, i < files.length) →
      (is.foldl (fun oldest i => if modAt files i < modAt files oldest then i else oldest) o)
          < files.length ∧
        modAt files
          (is.foldl (fun oldest i => if modAt files i < modAt files oldest then i else oldest) o)
          ≤ modAt files o ∧
        ∀ i ∈ is, modAt files
          (is.foldl (fun oldest i => if modAt files i < modAt files oldest then i else oldest) o)
          ≤ modAt files i := by
  induction is with
  | nil => intro o ho _; simp [ho]
  | cons a rest ih =>
    intro o ho hin
    have ha : a < files.length := hin a (List.mem_cons_self _ _)
    have hrest : ∀ i ∈ rest, i < files.length := fun i hi => hin i (List.mem_cons_of_mem _ hi)
    simp only [List.foldl_cons]
    by_cases hlt : modAt files a < modAt files o
    · simp only [hlt, if_true]
      obtain ⟨h1, h2, h3⟩ := ih a ha hrest
      refine ⟨h1, by omega, ?_⟩
      intro i hi
      rcases List.mem_cons.1 hi with rfl | hi
      · exact h2
      · exact h3 i hi
    · simp only [hlt, if_false]
      obtain ⟨h1, h2, h3⟩ := ih o ho hrest
      refine ⟨h1, h2, ?_⟩
      intro i hi
      rcases List.mem_cons.1 hi with rfl | hi
      · omega
      · exact h3 i hi

theorem oldestIndex_lt (files : List fileInfo) (h : files ≠ []) :
    oldestIndex files < files.length := by
  have hpos : 0 < files.length := List.length_pos.2 h
  refine (scan_spec files _ 0 hpos ?_).1
  intro i hi
  simp only [List.mem_range'_1] at hi
  omega

theorem oldestIndex_le (files : List fileInfo) (f x : fileInfo)
    (hf : files[oldestIndex files]? = some f) (hx : x ∈ files) : f.mod ≤ x.mod := by
  have hne : files ≠ [] := List.ne_nil_of_mem hx
  have hpos : 0 < files.length := List.length_pos.2 hne
  have hin : ∀ i ∈ List.range' 1 (files.length - 1), i < files.length := by
    intro i hi
    simp only [List.mem_range'_1] at hi
    omega
  obtain ⟨_, h2, h3⟩ := scan_spec files _ 0 hpos hin
  obtain ⟨j, hj, hjx⟩ := List.getElem_of_mem hx
  have hjx2 : files[j]? = some x := by rw [List.getElem?_eq_getElem hj, hjx]
  rw [← modAt_of_getElem files _ f hf, ← modAt_of_getElem files j x hjx2]
  by_cases hj0 : j = 0
  · subst hj0; exact h2
  · apply h3
    simp only [List.mem_range'_1]
    omega

theorem perm_cons_eraseIdx (files : List fileInfo) (i : Nat) (f : fileInfo)
    (h : files[i]? = some f) : (f :: files.eraseIdx i).Perm files := by
  induction files generalizing i with
  | nil => simp at h
  | cons a rest ih =>
    cases i with
    | zero =>
      simp only [List.getElem?_cons_zero, Option.some.injEq] at h
      subst h
      simp
    | succ k =>
      simp only [List.getElem?_cons_succ] at h
      simp only [List.eraseIdx_cons_succ]
      exact (List.Perm.swap a f _).trans ((ih k h).cons a)

/-- With a bound above the number of files the loop never reaches its bound,
and for a file cap that is not negative it ends without a run-time error: it
removes `len - cap` files, oldest first, and keeps files that are no older. -/
theorem pruneLoop_spec (m : Nat) (fuel : Nat) :
    ∀ (files removed : List fileInfo), files.length < fuel →
      ∃ gone kept,
        pruneLoop m fuel files removed = some (.ok (removed ++ gone, kept)) ∧
        gone.length = files.length - m ∧
        (gone ++ kept).Perm files ∧
        (∀ x ∈ gone, ∀ k ∈ kept, x.mod ≤ k.mod) ∧
        gone.Pairwise (fun a b => a.mod ≤ b.mod) ∧
        (files.length ≤ m → gone = [] ∧ kept = files) := by
  induction fuel with
  | zero => intro files removed h; omega
  | succ fuel ih =>
    intro files removed hlen
    by_cases hgt : (files.length : Int) > (m : Int)
    · have hgt2 : m < files.length := by omega
      have hne : files ≠ [] := by
        intro h0; rw [h0] at hgt2; simp at hgt2
      have hidx := oldestIndex_lt files hne
      obtain ⟨f, hf⟩ : ∃ f, files[oldestIndex files]? = some f :=
        ⟨_, List.getElem?_eq_getElem hidx⟩
      have hlen2 : (files.eraseIdx (oldestIndex files)).length < fuel := by
        rw [List.length_eraseIdx]; simp only [hidx, if_true]; omega
      obtain ⟨gone, kept, h1, h2, h3, h4, h5, _⟩ :=
        ih (files.eraseIdx (oldestIndex files)) (removed ++ [f]) hlen2
      have hperm : (f :: (gone ++ kept)).Perm files :=
        (h3.cons f).trans (perm_cons_eraseIdx files _ f hf)
      refine ⟨f :: gone, kept, ?_, ?_, ?_, ?_, ?_, ?_⟩
      · simp only [pruneLoop, hgt, if_true, hf]
        rw [h1]; simp
      · rw [List.length_cons, h2, List.length_eraseIdx]
        simp only [hidx, if_true]; omega
      · exact hperm
      · intro x hx k hk
        rcases List.mem_cons.1 hx with rfl | hx
        · exact oldestIndex_le files _ k hf
            (hperm.subset (List.mem_cons_of_mem _ (List.mem_append_right _ hk)))
        · exact h4 x hx k hk
      · refine List.Pairwise.cons ?_ h5
        intro x hx
        exact oldestIndex_le files _ x hf
          (hperm.subset (List.mem_cons_of_mem _ (List.mem_append_left _ hx)))
      · intro hle; omega
    · have hle : files.length ≤ m := by omega
      refine ⟨[], files, ?_, ?_, ?_, ?_, ?_, ?_⟩
      · simp [pruneLoop, hgt]
      · simp; omega
      · simp
      · simp
      · simp
      · intro _; exact ⟨rfl, rfl⟩

/-- For a negative file cap the loop empties the list and then evaluates
`files[0]` on the empty list. -/
theorem pruneLoop_negative (n : Nat) (fuel : Nat) :
    ∀ (files removed : List fileInfo), files.length < fuel →
      pruneLoop (-((n : Int) + 1)) fuel files removed =
        some (.error "index out of range [0] with length 0") := by
  induction fuel with
  | zero => intro files removed h; omega
  | succ fuel ih =>
    intro files removed hlen
    have hgt : (files.length : Int) > -((n : Int) + 1) := by omega
    cases files with
    | nil =>
      have h0 : (-1 : Int) < (n : Int) := by omega
      simp [pruneLoop, oldestIndex, h0]
    | cons a rest =>
      have hidx := oldestIndex_lt (a :: rest) (by simp)
      obtain ⟨f, hf⟩ : ∃ f, (a :: rest)[oldestIndex (a :: rest)]? = some f :=
        ⟨_, List.getElem?_eq_getElem hidx⟩
      have hlen2 : ((a :: rest).eraseIdx (oldestIndex (a :: rest))).length < fuel := by
        rw [List.length_eraseIdx]; simp only [hidx, if_true]
        simp only [List.length_cons] at hlen ⊢; omega
      simp only [pruneLoop, hgt, if_true, hf]
      exact ih _ _ hlen2

/-- The bound is never reached when it exceeds the number of files. -/
theorem pruneLoop_fuel (maxFiles : Int) (fuel : Nat) (files removed : List fileInfo)
    (h : files.length < fuel) : pruneLoop maxFiles fuel files removed ≠ none := by
  by_cases hm : 0 ≤ maxFiles
  · obtain ⟨m, rfl⟩ := Int.eq_ofNat_of_zero_le hm
    obtain ⟨gone, kept, h1, _⟩ := pruneLoop_spec m fuel files removed h
    rw [h1]; simp
  · obtain ⟨n, hn⟩ : ∃ n : Nat, maxFiles = -((n : Int) + 1) :=
      ⟨(-maxFiles - 1).toNat, by omega⟩
    rw [hn, pruneLoop_negative n fuel files removed h]; simp

theorem readDir_perm (fs : Dir) : (readDir fs).Perm fs :=
  List.perm_insertionSort _ fs

theorem listing_of_info (fs : Dir) (os : Os) (hinfo : ∀ n, os.infoFails n = false) :
    listing fs os = (readDir fs).map stat := by
  have h : (fun f : File => if os.infoFails f.name then none else some (stat f)) =
      some ∘ stat := by
    funext f
    simp [hinfo]
  unfold listing
  rw [h, List.filterMap_eq_map]

theorem listing_perm (fs : Dir) (os : Os) (hinfo : ∀ n, os.infoFails n = false) :
    (listing fs os).Perm (fs.map stat) := by
  rw [listing_of_info fs os hinfo]
  exact (readDir_perm fs).map stat

/-- C22: for every directory with distinct file names and every `maxFiles = m ≥ 0`,
when `os.ReadDir`, every `Info()` and every `os.Remove` succeed, `cleanup`
returns nil; a directory of at most `m` files is left as it is; otherwise the
loop removes `len - m` files (`gone`, in the order of removal), each removal
taking a file of least modification time, so that `gone` is ordered by
modification time and no removed file is newer than a file that stays; the
directory afterwards holds the `m` other files. -/
theorem cleanup_removes_oldest (r : RollingStore) (fs : Dir) (os : Os) (m : Nat)
    (hm : r.maxFiles = m) (hnames : (fs.map File.name).Nodup)
    (hread : os.readDir = none) (hinfo : ∀ n, os.infoFails n = false)
    (hremove : ∀ n, os.removeFails n = false) :
    ∃ gone fs1,
      r.cleanup fs os = .ok (fs1, none) ∧
      (fs.length ≤ m → gone = [] ∧ fs1 = fs) ∧
      (m < fs.length → ∃ kept,
        pruneLoop r.maxFiles ((listing fs os).length + 1) (listing fs os) [] =
          some (.ok (gone, kept))) ∧
      gone.length = fs.length - m ∧
      fs1.length = min fs.length m ∧
      fs1.Sublist fs ∧
      (gone ++ fs1.map stat).Perm (fs.map stat) ∧
      gone.Pairwise (fun a b => a.mod ≤ b.mod) ∧
      ∀ x ∈ gone, ∀ k ∈ fs1, x.mod ≤ k.mod := by
  have hperm := listing_perm fs os hinfo
  have hlen : (listing fs os).length = fs.length := by
    rw [hperm.length_eq, List.length_map]
  have hrd : (readDir fs).length = fs.length := (readDir_perm fs).length_eq
  by_cases hle : fs.length ≤ m
  · refine ⟨[], fs, ?_, ?_, ?_, ?_, ?_, ?_, ?_, ?_, ?_⟩
    · have : ((readDir fs).length : Int) ≤ r.maxFiles := by rw [hm, hrd]; omega
      simp [RollingStore.cleanup, hread, this]
    · intro _; exact ⟨rfl, rfl⟩
    · intro h; omega
    · simp; omega
    · omega
    · exact List.Sublist.refl _
    · simp
    · simp
    · simp
  · have hgt : m < fs.length := by omega
    obtain ⟨gone, kept, h1, h2, h3, h4, h5, _⟩ :=
      pruneLoop_spec m ((listing fs os).length + 1) (listing fs os) [] (by omega)
    simp only [List.nil_append] at h1
    have hall : (gone ++ kept).Perm (fs.map stat) := h3.trans hperm
    have hnd : ((gone ++ kept).map fileInfo.name).Nodup := by
      have : ((gone ++ kept).map fileInfo.name).Perm (fs.map File.name) := by
        have h := hall.map fileInfo.name
        simpa [List.map_map, Function.comp_def, stat] using h
      exact this.nodup_iff.2 hnames
    have hkept : ∀ k ∈ kept, k.name ∉ gone.map fileInfo.name := by
      intro k hk hmem
      rw [List.map_append, List.nodup_append] at hnd
      exact hnd.2.2 hmem (List.mem_map_of_mem _ hk)
    have hfilter : ((fs.filter (fun f => decide (f.name ∉ gone.map fileInfo.name))).map stat).Perm
        kept := by
      have e1 : (fs.filter (fun f => decide (f.name ∉ gone.map fileInfo.name))).map stat =
          (fs.map stat).filter (fun x => decide (x.name ∉ gone.map fileInfo.name)) := by
        rw [List.filter_map]; rfl
      rw [e1]
      refine (hall.symm.filter _).trans ?_
      rw [List.filter_append]
      have e2 : gone.filter (fun x => decide (x.name ∉ gone.map fileInfo.name)) = [] := by
        rw [List.filter_eq_nil_iff]
        intro x hx
        simp only [decide_eq_true_eq, not_not]
        exact List.mem_map_of_mem _ hx
      have e3 : kept.filter (fun x => decide (x.name ∉ gone.map fileInfo.name)) = kept := by
        rw [List.filter_eq_self]
        intro x hx
        simpa using hkept x hx
      rw [e2, e3]; simp
    have hcl : r.cleanup fs os =
        .ok (fs.filter (fun f => decide (f.name ∉ gone.map fileInfo.name)), none) := by
      have hn : ¬ ((readDir fs).length : Int) ≤ (m : Int) := by rw [hrd]; omega
      simp only [RollingStore.cleanup, hread, hm, hn, if_false, h1]
      simp [hremove]
    refine ⟨gone, _, hcl, ?_, ?_, ?_, ?_, ?_, ?_, h5, ?_⟩
    · intro h; omega
    · intro _; exact ⟨kept, by rw [hm]; exact h1⟩
    · rw [h2, hlen]
    · have := hfilter.length_eq
      rw [List.length_map] at this
      have h6 := h3.length_eq
      rw [List.length_append, hlen] at h6
      rw [this]
      rw [hlen] at h2
      omega
    · exact List.filter_sublist _
    · exact ((List.Perm.refl gone).append hfilter).trans hall
    · intro x hx k hk
      have : stat k ∈ kept := hfilter.subset (List.mem_map_of_mem _ hk)
      exact h4 x hx _ this

/-- C22, at a concrete input: a directory of three files, two of them equally
old, pruned to one file. -/
theorem cleanup_removes_oldest_witness :
    (threeFiles.map File.name).Nodup ∧
    ∃ gone fs1,
      (NewRollingStore "logs" 1000 1).cleanup threeFiles (quietOs "20261104_120009" 109) =
        .ok (fs1, none) ∧
      (threeFiles.length ≤ 1 → gone = [] ∧ fs1 = threeFiles) ∧
      (1 < threeFiles.length → ∃ kept,
        pruneLoop (NewRollingStore "logs" 1000 1).maxFiles
          ((listing threeFiles (quietOs "20261104_120009" 109)).length + 1)
          (listing threeFiles (quietOs "20261104_120009" 109)) [] =
          some (.ok (gone, kept))) ∧
      gone.length = threeFiles.length - 1 ∧
      fs1.length = min threeFiles.length 1 ∧
      fs1.Sublist threeFiles ∧
      (gone ++ fs1.map stat).Perm (threeFiles.map stat) ∧
      gone.Pairwise (fun a b => a.mod ≤ b.mod) ∧
      ∀ x ∈ gone, ∀ k ∈ fs1, x.mod ≤ k.mod :=
  ⟨by decide,
    cleanup_removes_oldest (NewRollingStore "logs" 1000 1) threeFiles
      (quietOs "20261104_120009" 109) 1 rfl (by decide) rfl (fun _ => rfl) (fun _ => rfl)⟩

/-- C21: with `maxLines = 2` and `maxFiles = 1`, three successful `Append`
calls into an empty directory, the third five seconds after the first two,
leave two files in the directory, more than `maxFiles`: the rotation after the
second call prunes before the file of the third call is created.  Likewise one
`Append` into a directory that holds `maxFiles = 1` file leaves two files. -/
theorem append_exceeds_maxFiles :
    (∃ r fs, appendAll (NewRollingStore "logs" 2 1) []
        [(quietOs "20261104_120000" 100, logLine 1), (quietOs "20261104_120000" 101, logLine 2),
         (quietOs "20261104_120005" 105, logLine 3)] = .ok (r, fs, [none, none, none]) ∧
      fs.map File.name = ["20261104_120000.log", "20261104_120005.log"] ∧
      r.maxFiles = 1 ∧ (fs.length : Int) > r.maxFiles) ∧
    (∃ r fs, (NewRollingStore "logs" 1000 1).Append
        [{ name := "20261103_090000.log", mod := 50, lines := ["0 stdout x"] }]
        (quietOs "20261104_120000" 100) (logLine 1) = .ok (r, fs, none) ∧
      fs.map File.name = ["20261103_090000.log", "20261104_120000.log"] ∧
      r.maxFiles = 1 ∧ (fs.length : Int) > r.maxFiles) :=
  ⟨⟨_, _, rfl, rfl, rfl, by decide⟩, ⟨_, _, rfl, rfl, rfl, by decide⟩⟩

/-- C23: with `maxLines = 1`, two successful `Append` calls within the
same second both write to the file `20261104_120000.log`: the store rotates
after the first call, and the second call builds the same name again and opens
the existing file for appending, which then holds two lines, more than
`maxLines`. -/
theorem same_second_rotation_reuses_file :
    ∃ r fs, appendAll (NewRollingStore "logs" 1 5) []
        [(quietOs "20261104_120000" 100, logLine 1), (quietOs "20261104_120000" 101, logLine 2)] =
        .ok (r, fs, [none, none]) ∧
      fs = [{ name := "20261104_120000.log", mod := 101,
              lines := ["1 stdout x", "2 stdout x"] }] ∧
      r.maxLines = 1 ∧
      ∃ f ∈ fs, (f.lines.length : Int) > r.maxLines :=
  ⟨_, _, rfl, rfl, rfl, _, List.mem_singleton.2 rfl, by decide⟩

/-- C29: for every negative `maxFiles` and every file list the removal
loop of `cleanup` ends in the run-time error of an index out of range: it
removes every file and then evaluates `files[0]` on the empty list.  So does
`cleanup` itself on every directory, and so does the first `Append` that
rotates, here with `maxLines = 1` and `maxFiles = -1` in an empty directory. -/
theorem cleanup_negative_cap_out_of_range :
    (∀ (n : Nat) (files : List fileInfo),
      pruneLoop (-((n : Int) + 1)) (files.length + 1) files [] =
        some (.error "index out of range [0] with length 0")) ∧
    (∀ (n : Nat) (r : RollingStore) (fs : Dir) (stamp : String) (mtime : Int),
      { r with maxFiles := -((n : Int) + 1) }.cleanup fs (quietOs stamp mtime) =
        .error "index out of range [0] with length 0") ∧
    (NewRollingStore "logs" 1 (-1)).Append [] (quietOs "20261104_120000" 100) (logLine 1) =
      .error "index out of range [0] with length 0" := by
  refine ⟨fun n files => pruneLoop_negative n _ files [] (Nat.lt_succ_self _), ?_, rfl⟩
  intro n r fs stamp mtime
  have hn : ¬ ((readDir fs).length : Int) ≤ -((n : Int) + 1) := by omega
  simp only [RollingStore.cleanup, quietOs, hn, if_false]
  rw [pruneLoop_negative n _ _ [] (Nat.lt_succ_self _)]

end logging
